import Mathlib

/-!
# Surge XT Lua editors (`src/surge-xt/gui/overlays/LuaEditors.cpp`)

A shallow embedding of the editor overlays: the code editor container with its
Apply control, the formula modulator editor with its debugger panel, and the
wavetable script editor.  Objects reached through pointers are folded into one
explicit state record per editor; calls into collaborators that are declared
outside the file are recorded, in order, in a call log and their results are
supplied by a record of collaborator functions.
-/

namespace Surge

/-- Carrier types of values whose representation is declared outside
`LuaEditors.cpp`: `Flt` stands for `float` values, the others for the members
of `Parameter`, `EvaluatorState`, `LFOModulationSource` and `SurgePatch` that
the editors never touch, `Evl` for the state of a `LuaWTEvaluator`, `Wdt` for
a wavetable header with its sample data and `Wtb` for a built `Wavetable`. -/
structure Sorts where
  Flt : Type
  Par : Type
  Reg : Type
  Src : Type
  Pat : Type
  Evl : Type
  Wdt : Type
  Wtb : Type

/-- Text of a document or a script, one entry per character. -/
abbrev Text := List Char

/-- The union `pdata`: all members share the same 32 bits, held here as the
`i` member.  The `f` member is read through `Collab.pdata_f`. -/
structure pdata where
  i : Int
deriving DecidableEq, Repr

/-- The members of `Parameter` used by the editors. -/
structure Parameter (τ : Sorts) where
  val : pdata
  param_id_in_scene : Nat
  more : τ.Par

/-- The members of `LFOStorage` used by the formula debugger. -/
structure LFOStorage (τ : Sorts) where
  rate : Parameter τ
  shape : Parameter τ
  start_phase : Parameter τ
  magnitude : Parameter τ
  deform : Parameter τ
  trigmode : Parameter τ
  delay : Parameter τ
  attack : Parameter τ
  hold : Parameter τ
  decay : Parameter τ
  sustain : Parameter τ
  release : Parameter τ

/-- The member of `FormulaModulatorStorage` used by the editor. -/
structure FormulaModulatorStorage where
  formulaString : Text
deriving DecidableEq, Repr

/-- Modelled from the spec: `FormulaModulatorStorage::setFormula` is declared
outside `LuaEditors.cpp`; following section 6 of the specification (Apply
"replaces the live program") it stores its argument as the formula string. -/
def FormulaModulatorStorage.setFormula (_fs : FormulaModulatorStorage) (s : Text) :
    FormulaModulatorStorage :=
  { formulaString := s }

/-- The members of `Surge::Formula::EvaluatorState` used by the editor. -/
structure EvaluatorState (τ : Sorts) where
  rate : τ.Flt
  amp : τ.Flt
  phase : τ.Flt
  deform : τ.Flt
  tempo : τ.Flt
  songpos : τ.Flt
  del : τ.Flt
  a : τ.Flt
  h : τ.Flt
  dec : τ.Flt
  s : τ.Flt
  r : τ.Flt
  velocity : Int
  more : τ.Reg

/-- The members of `LFOModulationSource` used by the editor: the public
`formulastate` and `isVoice`; everything else (the phase registers read by
`getIntPhase` and `getPhase` included) is in `more`. -/
structure LFOModulationSource (τ : Sorts) where
  formulastate : EvaluatorState τ
  isVoice : Bool
  more : τ.Src

/-- A row of `Surge::Formula::DebugRow`. -/
structure DebugRow (τ : Sorts) where
  depth : Int
  label : String
  hasValue : Bool
  isInternal : Bool
  value : τ.Flt ⊕ String

/-- The per-editor part of `DAWExtraStateStorage::EditorState` reached through
`getEditState()`. -/
structure EditState where
  codeOrPrelude : Int
  debuggerOpen : Bool
deriving DecidableEq, Repr

/-- The members of `SurgeStorage` (and of its patch) used by the editors. -/
structure SurgeStorage (τ : Sorts) where
  temposyncratio : τ.Flt
  songpos : τ.Flt
  patch_isDirty : Bool
  editState : EditState
  patch : τ.Pat

/-- Calls into collaborators declared outside the file, as recorded in the
call log. -/
inductive Call (τ : Sorts) where
  | make_LFOModulationSource
  | assign
  | setIsVoice (b : Bool)
  | attack
  | process_block
  | setupEvaluatorStateFrom (s : EvaluatorState τ) (scene : Int)
  | valueAt (intphase : Int) (phase : τ.Flt) (s : EvaluatorState τ)
  | createDebugDataOfModState (s : EvaluatorState τ)
  | enqueueAccessibleAnnouncement (msg : String)
  | updateContent
  | repaintFrame
  | forceLfoDisplayRepaint
  | pushFormula (scene lfo_id : Int) (fs : FormulaModulatorStorage)
  | copyTextToClipboard (t : Text)
  | grabKeyboardFocus
  | repaint
  | resized
  | setStorage
  | setScript (t : Text)
  | setResolution (n : Int)
  | setFrameCount (n : Int)
  | getFrame (idx : Int)
  | populateWavetable
  | lock
  | BuildWT
  | getSuggestedWavetableName
  | unlock
  | deleteArray
  | repaintForceForWT
  | setValue (v : τ.Flt)

/-- Recogniser of `process_block` entries of the call log. -/
def Call.isProcessBlock {τ : Sorts} : Call τ → Bool
  | .process_block => true
  | _ => false

/-- Recogniser of `attack` entries of the call log. -/
def Call.isAttack {τ : Sorts} : Call τ → Bool
  | .attack => true
  | _ => false

/-- Recogniser of `valueAt` entries of the call log. -/
def Call.isValueAt {τ : Sorts} : Call τ → Bool
  | .valueAt _ _ _ => true
  | _ => false

/-- Recogniser of the calls that configure or run the wavetable evaluator:
those of `setupEvaluator`, `getFrame` and `populateWavetable`. -/
def Call.isEvaluation {τ : Sorts} : Call τ → Bool
  | .setStorage => true
  | .setScript _ => true
  | .setResolution _ => true
  | .setFrameCount _ => true
  | .getFrame _ => true
  | .populateWavetable => true
  | _ => false

/-- Recogniser of `populateWavetable` entries of the call log. -/
def Call.isPopulateWavetable {τ : Sorts} : Call τ → Bool
  | .populateWavetable => true
  | _ => false

/-- Recogniser of `BuildWT` entries of the call log. -/
def Call.isBuildWT {τ : Sorts} : Call τ → Bool
  | .BuildWT => true
  | _ => false

/-- Recogniser of `waveTableDataMutex.lock()` entries of the call log. -/
def Call.isLock {τ : Sorts} : Call τ → Bool
  | .lock => true
  | _ => false

/-- Recogniser of `waveTableDataMutex.unlock()` entries of the call log. -/
def Call.isUnlock {τ : Sorts} : Call τ → Bool
  | .unlock => true
  | _ => false

/-- The frame index of a `getFrame` entry of the call log. -/
def Call.getFrameIndex {τ : Sorts} : Call τ → Option Int
  | .getFrame idx => some idx
  | _ => none

/-- The collaborators declared outside `LuaEditors.cpp`, taken as parameters.
The modulation source keeps pointers to the storage, the live LFO parameters,
the `tp` copy and the formula storage, so the functions that run it receive
them as read-only inputs. -/
structure Collab (τ : Sorts) where
  /-- Read of `pdata::f` from a union whose bits are those of the given `i`. -/
  pdata_f : Int → τ.Flt
  /-- The product `x * 120` of a `float` (the `float` product and the `double`
  product rounded on assignment to a `float` agree). -/
  times120 : τ.Flt → τ.Flt
  /-- The comparison `x != y` on `float`. -/
  fne : τ.Flt → τ.Flt → Bool
  /-- The comparison `x > 0.5` on `float`. -/
  gt_half : τ.Flt → Bool
  lm_keytrigger : Int
  n_lfos_voice : Int
  value_to_normalized : Parameter τ → τ.Flt → τ.Flt
  make_LFOModulationSource : LFOModulationSource τ
  assign : SurgeStorage τ → LFOStorage τ → (Nat → pdata) → FormulaModulatorStorage →
    LFOModulationSource τ → LFOModulationSource τ
  setIsVoice : Bool → LFOModulationSource τ → LFOModulationSource τ
  attack : SurgeStorage τ → LFOStorage τ → (Nat → pdata) → FormulaModulatorStorage →
    LFOModulationSource τ → LFOModulationSource τ
  process_block : SurgeStorage τ → LFOStorage τ → (Nat → pdata) → FormulaModulatorStorage →
    LFOModulationSource τ → LFOModulationSource τ
  getIntPhase : τ.Src → Int
  getPhase : τ.Src → τ.Flt
  setupEvaluatorStateFrom : EvaluatorState τ → τ.Pat → Int → EvaluatorState τ
  valueAt : Int → τ.Flt → SurgeStorage τ → FormulaModulatorStorage → τ.Src →
    EvaluatorState τ → EvaluatorState τ
  createDebugDataOfModState : EvaluatorState τ → List (DebugRow τ)
  wt_setStorage : SurgeStorage τ → τ.Evl → τ.Evl
  wt_setScript : Text → τ.Evl → τ.Evl
  wt_setResolution : Int → τ.Evl → τ.Evl
  wt_setFrameCount : Int → τ.Evl → τ.Evl
  wt_getFrame : Int → τ.Evl → Option (List τ.Flt) × τ.Evl
  wt_populateWavetable : τ.Evl → τ.Wdt × τ.Evl
  wt_getSuggestedWavetableName : τ.Evl → Text
  BuildWT : τ.Wdt → τ.Wtb → τ.Wtb
  /-- A default-constructed `LuaWTEvaluator`. -/
  wt_make : τ.Evl
  /-- The text returned by `LuaWTEvaluator::defaultWavetableScript()`. -/
  defaultWavetableScript : Text
  /-- The function `Parameter::intScaledToFloat(v, vmax, vmin)`. -/
  intScaledToFloat : Int → Int → Int → τ.Flt
  /-- The value `getIntValue()` of the frames number field after
  `setValue(f)`. -/
  framesFieldInt : τ.Flt → Int

/-! ## The part of `juce::CodeDocument` used by the editors -/

namespace juce

/-- The characters removed by `String::trimEnd`
(`CharacterFunctions::isWhitespace`). -/
def isWhitespace (c : Char) : Bool :=
  c = ' ' || c = '\t' || c = '\n' || c = '\r' || c = Char.ofNat 11 || c = Char.ofNat 12

/-- The string with its trailing whitespace removed: `String::trimEnd`. -/
def trimEnd (s : Text) : Text :=
  s.rdropWhile isWhitespace

/-- Whether the string contains a carriage return directly followed by a line
feed: `String::contains` with that two-character argument. -/
def containsCRLF : Text → Bool
  | [] => false
  | c :: t => (c = '\r' && t.head? = some '\n') || containsCRLF t

/-- The lines of a text, each with its line terminator (a line feed, a carriage
return, or a carriage return followed by a line feed) at its end:
`CodeDocumentLine::createLines`. -/
def createLines : Text → List Text
  | [] => []
  | c :: t =>
    if c = '\n' then [c] :: createLines t
    else if c = '\r' then
      match t with
      | [] => [[c]]
      | d :: u => if d = '\n' then [c, d] :: createLines u else [c] :: createLines (d :: u)
    else
      match createLines t with
      | [] => [[c]]
      | l :: ls => (c :: l) :: ls

/-- The length of a line without its terminator: the member
`lineLengthWithoutNewLines` of a document line. -/
def lineLengthWithoutNewLines (l : Text) : Nat :=
  (l.rdropWhile (fun c => c = '\n' || c = '\r')).length

/-- Whether a document line ends in a line terminator: `endsWithLineBreak`. -/
def endsWithLineBreak (l : Text) : Bool :=
  lineLengthWithoutNewLines l != l.length

/-- The line array of a document that holds the given text: the lines of
`createLines`, followed by an empty line when the last of them ends in a line
terminator (`checkLastLineStatus`). -/
def lines (text : Text) : List Text :=
  let ls := createLines text
  match ls.getLast? with
  | none => []
  | some l => if endsWithLineBreak l then ls ++ [[]] else ls

/-- The offset of the first character of line `i`: `lineStartInFile`. -/
def lineStartInFile (ls : List Text) (i : Nat) : Nat :=
  ((ls.take i).map List.length).sum

/-- A `CodeDocument::Position` that is not kept up to date with the
document. -/
structure Position where
  line : Nat
  indexInLine : Nat
  characterPos : Nat
deriving DecidableEq, Repr

/-- The position at a line number and an index in that line:
`Position::setLineAndIndex`. -/
def setLineAndIndex (ls : List Text) (newLineNum : Int) (newIndexInLine : Int) : Position :=
  if ls.length = 0 then ⟨0, 0, 0⟩
  else if newLineNum ≥ ls.length then
    let line := ls.length - 1
    let idx := lineLengthWithoutNewLines (ls.getD line [])
    ⟨line, idx, lineStartInFile ls line + idx⟩
  else
    let line := (max 0 newLineNum).toNat
    let len := lineLengthWithoutNewLines (ls.getD line [])
    let idx := if len > 0 then (max 0 (min (len : Int) newIndexInLine)).toNat else 0
    ⟨line, idx, lineStartInFile ls line + idx⟩

/-- The scan of `Position::setPosition` over the lines from number `i` on, for
a character position that is `index` characters after the start of the first
of them; `cur` is the position found so far. -/
def setPositionScan : List Text → Nat → Nat → Int → Position → Position
  | [], _, _, _, cur => cur
  | l :: rest, i, start, index, cur =>
    let cur :=
      if index ≥ 0 && (index < l.length || rest.isEmpty) then
        let idx := min (lineLengthWithoutNewLines l) index.toNat
        (⟨i, idx, start + idx⟩ : Position)
      else cur
    setPositionScan rest (i + 1) (start + l.length) (index - l.length) cur

/-- The position at a character offset: `Position::setPosition`. -/
def setPosition (ls : List Text) (newPosition : Int) : Position :=
  if newPosition > 0 then setPositionScan ls 0 0 newPosition ⟨0, 0, 0⟩ else ⟨0, 0, 0⟩

/-- The value of an `int` converted from an unsigned 32-bit value or from an
out-of-range result: reduction into the range of `int`. -/
def toInt32 (n : Int) : Int :=
  (n + 2 ^ 31) % 2 ^ 32 - 2 ^ 31

end juce

/-! ## `CodeEditorContainerWithApply` -/

/-- The members of `CodeEditorContainerWithApply` together with the objects
it points to.  `derived` holds the members added by the class derived from it,
`editor` tells whether the `SurgeGUIEditor` pointer is non-null, `caretPos` is
the caret of `mainEditor` as a character offset. -/
structure CodeEditorContainerWithApply (τ : Sorts) (D : Type) where
  mainDocument : Text
  caretPos : Nat
  applyButton_enabled : Bool
  editor : Bool
  storage : SurgeStorage τ
  log : List (Call τ)
  derived : D

/-- The virtual member function `setApplyEnabled`, overridden by the derived
editors. -/
class ApplyTarget (D : Type) where
  setApplyEnabled : Bool → D → D

namespace CodeEditorContainerWithApply

variable {τ : Sorts} {D : Type}

/-- Appends a call to the call log. -/
def call (x : Call τ) (e : CodeEditorContainerWithApply τ D) : CodeEditorContainerWithApply τ D :=
  { e with log := e.log ++ [x] }

/-- The listener callback `codeDocumentTextInserted`. -/
def codeDocumentTextInserted [ApplyTarget D] (_newText : Text) (_insertIndex : Int)
    (e : CodeEditorContainerWithApply τ D) : CodeEditorContainerWithApply τ D :=
  { e with applyButton_enabled := true, derived := ApplyTarget.setApplyEnabled true e.derived }

/-- The listener callback `codeDocumentTextDeleted`. -/
def codeDocumentTextDeleted [ApplyTarget D] (_startIndex : Int) (_endIndex : Int)
    (e : CodeEditorContainerWithApply τ D) : CodeEditorContainerWithApply τ D :=
  { e with applyButton_enabled := true, derived := ApplyTarget.setApplyEnabled true e.derived }

/-- The effect of `CodeDocument::insertText` on the main document: a non-empty
text is inserted and the listener is told. -/
def insertText [ApplyTarget D] (insertIndex : Nat) (text : Text)
    (e : CodeEditorContainerWithApply τ D) : CodeEditorContainerWithApply τ D :=
  if text.isEmpty then e
  else
    codeDocumentTextInserted text insertIndex
      { e with mainDocument :=
          e.mainDocument.take insertIndex ++ text ++ e.mainDocument.drop insertIndex }

/-- The effect of `CodeDocument::deleteSection` on the main document: a
non-empty range is removed and the listener is told. -/
def deleteSection [ApplyTarget D] (startIndex endIndex : Nat)
    (e : CodeEditorContainerWithApply τ D) : CodeEditorContainerWithApply τ D :=
  if endIndex ≤ startIndex then e
  else
    codeDocumentTextDeleted startIndex endIndex
      { e with mainDocument := e.mainDocument.take startIndex ++ e.mainDocument.drop endIndex }

/-- The effect of `CodeDocument::replaceSection`: the new text is inserted at
the end of the range, then the range is deleted. -/
def replaceSection [ApplyTarget D] (startIndex endIndex : Nat) (newText : Text)
    (e : CodeEditorContainerWithApply τ D) : CodeEditorContainerWithApply τ D :=
  deleteSection startIndex endIndex (insertText endIndex newText e)

/-- One round of the loop of `removeTrailingWhitespaceFromDocument`, for line
`i`; the state carries the editor and `charsRemoved`. -/
def removeTrailingWhitespaceLine [ApplyTarget D] (caretLine : Nat)
    (st : CodeEditorContainerWithApply τ D × Nat) (i : Nat) :
    CodeEditorContainerWithApply τ D × Nat :=
  let e := st.1
  let charsRemoved := st.2
  let ls := juce.lines e.mainDocument
  let lineStart := juce.setLineAndIndex ls i 0
  let s := ls.getD lineStart.line []
  let eol : Int := if juce.containsCRLF s then 2 else 1
  let sizeOld : Int := (s.length : Int) - eol
  let lineEnd := juce.setLineAndIndex ls i sizeOld
  let s := juce.trimEnd s
  let sizeNew : Int := s.length
  if i ≤ caretLine ∧ sizeOld > sizeNew then
    let charsRemoved := ((charsRemoved : Int) + (sizeOld - sizeNew)).toNat % 2 ^ 32
    if sizeOld - sizeNew > 0 then
      (replaceSection lineStart.characterPos lineEnd.characterPos s e, charsRemoved)
    else (e, charsRemoved)
  else (e, charsRemoved)

/-- The member function `removeTrailingWhitespaceFromDocument`. -/
def removeTrailingWhitespaceFromDocument [ApplyTarget D]
    (e : CodeEditorContainerWithApply τ D) : CodeEditorContainerWithApply τ D :=
  let caretPos := juce.setPosition (juce.lines e.mainDocument) e.caretPos
  let caretLine := caretPos.line
  let numLines := (juce.lines e.mainDocument).length
  let st := (List.range numLines).foldl (removeTrailingWhitespaceLine caretLine) (e, 0)
  let e := st.1
  let charsRemoved := st.2
  let moved := juce.setPosition (juce.lines e.mainDocument)
    ((caretPos.characterPos : Int) + juce.toInt32 (-(charsRemoved : Int)))
  { e with caretPos := moved.characterPos }

end CodeEditorContainerWithApply

/-! ## `FormulaModulatorEditor`, its control area and its debugger panel -/

/-- The members of `ExpandingFormulaDebugger`: `rows` are the rows of
`debugTableDataModel`, `visible` is the component's visibility. -/
structure ExpandingFormulaDebugger (τ : Sorts) where
  isOpen : Bool
  visible : Bool
  tp : Nat → pdata
  lfoDebugger : Option (LFOModulationSource τ)
  rows : List (DebugRow τ)

/-- The widgets of `FormulaControlArea` that the event handlers touch, as they
exist after `rebuild()`. -/
structure FormulaControlArea where
  applyS_enabled : Bool
  showS_labels : List String
  stepS_visible : Bool
  initS_visible : Bool
deriving DecidableEq, Repr

/-- The members that `FormulaModulatorEditor` adds to its base class, with the
LFO and formula storage it points to. -/
structure FormulaModulatorEditorPart (τ : Sorts) where
  lfos : LFOStorage τ
  formulastorage : FormulaModulatorStorage
  lfo_id : Int
  scene : Int
  updateDebuggerCounter : Nat
  mainEditor_visible : Bool
  preludeDisplay_visible : Bool
  controlArea : Option FormulaControlArea
  debugPanel : ExpandingFormulaDebugger τ

/-- The override `FormulaModulatorEditor::setApplyEnabled`. -/
def FormulaModulatorEditorPart.setApplyEnabled {τ : Sorts} (b : Bool)
    (d : FormulaModulatorEditorPart τ) : FormulaModulatorEditorPart τ :=
  match d.controlArea with
  | some ca => { d with controlArea := some { ca with applyS_enabled := b } }
  | none => d

instance {τ : Sorts} : ApplyTarget (FormulaModulatorEditorPart τ) where
  setApplyEnabled := FormulaModulatorEditorPart.setApplyEnabled

/-- The formula modulator editor: the container with the formula part. -/
abbrev FormulaModulatorEditor (τ : Sorts) :=
  CodeEditorContainerWithApply τ (FormulaModulatorEditorPart τ)

namespace ExpandingFormulaDebugger

variable {τ : Sorts}

/-- The member function `updateDebuggerWithOptionalStep`; it fails when
`lfoDebugger` is null. -/
def updateDebuggerWithOptionalStep (c : Collab τ) (doStep : Bool)
    (e : FormulaModulatorEditor τ) : Option (FormulaModulatorEditor τ) :=
  match e.derived.debugPanel.lfoDebugger with
  | none => none
  | some l =>
    let stepped : FormulaModulatorEditor τ × LFOModulationSource τ :=
      if doStep then
        let e := e.call (.setupEvaluatorStateFrom l.formulastate e.derived.scene)
        let l := { l with formulastate :=
          c.setupEvaluatorStateFrom l.formulastate e.storage.patch e.derived.scene }
        let e := e.call .process_block
        (e, c.process_block e.storage e.derived.lfos e.derived.debugPanel.tp
          e.derived.formulastorage l)
      else
        let localcopy := e.derived.debugPanel.tp
        let lfodata := e.derived.lfos
        let storage := e.storage
        let formulastate := { l.formulastate with
          rate := c.pdata_f (localcopy lfodata.rate.param_id_in_scene).i
          amp := c.pdata_f (localcopy lfodata.magnitude.param_id_in_scene).i
          phase := c.pdata_f (localcopy lfodata.start_phase.param_id_in_scene).i
          deform := c.pdata_f (localcopy lfodata.deform.param_id_in_scene).i
          tempo := c.times120 storage.temposyncratio
          songpos := storage.songpos }
        let e := e.call (.setupEvaluatorStateFrom formulastate e.derived.scene)
        let formulastate := c.setupEvaluatorStateFrom formulastate e.storage.patch e.derived.scene
        let e := e.call (.valueAt (c.getIntPhase l.more) (c.getPhase l.more) formulastate)
        let formulastate := c.valueAt (c.getIntPhase l.more) (c.getPhase l.more) storage
          e.derived.formulastorage l.more formulastate
        (e, { l with formulastate := formulastate })
    let e := stepped.1
    let l := stepped.2
    let e := e.call (.createDebugDataOfModState l.formulastate)
    let st := c.createDebugDataOfModState l.formulastate
    let e := e.call .updateContent
    let e := e.call .repaint
    let e := { e with derived := { e.derived with debugPanel :=
      { e.derived.debugPanel with lfoDebugger := some l, rows := st } } }
    some (if e.editor then e.call (.enqueueAccessibleAnnouncement "Stepped Debugger") else e)

/-- The member function `refreshDebuggerView`. -/
def refreshDebuggerView (c : Collab τ) (e : FormulaModulatorEditor τ) :
    Option (FormulaModulatorEditor τ) :=
  updateDebuggerWithOptionalStep c false e

/-- The member function `stepLfoDebugger`. -/
def stepLfoDebugger (c : Collab τ) (e : FormulaModulatorEditor τ) :
    Option (FormulaModulatorEditor τ) :=
  updateDebuggerWithOptionalStep c true e

/-- The assignments to `tp` at the start of `initializeLfoDebugger`. -/
def initializeTp (c : Collab τ) (lfodata : LFOStorage τ) (tp : Nat → pdata) : Nat → pdata :=
  let tp := Function.update tp lfodata.delay.param_id_in_scene ⟨lfodata.delay.val.i⟩
  let tp := Function.update tp lfodata.attack.param_id_in_scene ⟨lfodata.attack.val.i⟩
  let tp := Function.update tp lfodata.hold.param_id_in_scene ⟨lfodata.hold.val.i⟩
  let tp := Function.update tp lfodata.decay.param_id_in_scene ⟨lfodata.decay.val.i⟩
  let tp := Function.update tp lfodata.sustain.param_id_in_scene ⟨lfodata.sustain.val.i⟩
  let tp := Function.update tp lfodata.release.param_id_in_scene ⟨lfodata.release.val.i⟩
  let tp := Function.update tp lfodata.magnitude.param_id_in_scene ⟨lfodata.magnitude.val.i⟩
  let tp := Function.update tp lfodata.rate.param_id_in_scene ⟨lfodata.rate.val.i⟩
  let tp := Function.update tp lfodata.shape.param_id_in_scene ⟨lfodata.shape.val.i⟩
  let tp := Function.update tp lfodata.start_phase.param_id_in_scene ⟨lfodata.start_phase.val.i⟩
  let tp := Function.update tp lfodata.deform.param_id_in_scene ⟨lfodata.deform.val.i⟩
  Function.update tp lfodata.trigmode.param_id_in_scene ⟨c.lm_keytrigger⟩

/-- The scene ids of the twelve LFO parameters whose `tp` entries
`initializeLfoDebugger` writes. -/
def copiedIds (lfodata : LFOStorage τ) : List Nat :=
  [lfodata.delay.param_id_in_scene, lfodata.attack.param_id_in_scene,
   lfodata.hold.param_id_in_scene, lfodata.decay.param_id_in_scene,
   lfodata.sustain.param_id_in_scene, lfodata.release.param_id_in_scene,
   lfodata.magnitude.param_id_in_scene, lfodata.rate.param_id_in_scene,
   lfodata.shape.param_id_in_scene, lfodata.start_phase.param_id_in_scene,
   lfodata.deform.param_id_in_scene, lfodata.trigmode.param_id_in_scene]

/-- The member function `initializeLfoDebugger`. -/
def initializeLfoDebugger (c : Collab τ) (e : FormulaModulatorEditor τ) :
    Option (FormulaModulatorEditor τ) :=
  let lfodata := e.derived.lfos
  let tp := initializeTp c lfodata e.derived.debugPanel.tp
  let e := e.call .make_LFOModulationSource
  let l := c.make_LFOModulationSource
  let e := e.call .assign
  let l := c.assign e.storage e.derived.lfos tp e.derived.formulastorage l
  let isVoice : Bool := e.derived.lfo_id < c.n_lfos_voice
  let e := e.call (.setIsVoice isVoice)
  let l := c.setIsVoice isVoice l
  let l := if l.isVoice then { l with formulastate := { l.formulastate with velocity := 100 } }
    else l
  let e := e.call .attack
  let l := c.attack e.storage e.derived.lfos tp e.derived.formulastorage l
  let e : FormulaModulatorEditor τ := { e with derived := { e.derived with debugPanel :=
    { e.derived.debugPanel with tp := tp, lfoDebugger := some l } } }
  match stepLfoDebugger c e with
  | none => none
  | some e => some (if e.editor then e.call (.enqueueAccessibleAnnouncement "Reset Debugger") else e)

/-- The editor with `lfoDebugger` replaced. -/
def withLfoDebugger (old : Option (LFOModulationSource τ)) (e : FormulaModulatorEditor τ) :
    FormulaModulatorEditor τ :=
  { e with derived := { e.derived with
      debugPanel := { e.derived.debugPanel with lfoDebugger := old } } }

/-- The editor with the live LFO parameters replaced. -/
def withLfos (lfos : LFOStorage τ) (e : FormulaModulatorEditor τ) : FormulaModulatorEditor τ :=
  { e with derived := { e.derived with lfos := lfos } }

/-- The member function `setOpen`. -/
def setOpen (b : Bool) (e : FormulaModulatorEditor τ) : FormulaModulatorEditor τ :=
  let e : FormulaModulatorEditor τ := { e with
    derived := { e.derived with debugPanel := { e.derived.debugPanel with isOpen := b } } }
  let e : FormulaModulatorEditor τ := { e with
    storage := { e.storage with editState := { e.storage.editState with debuggerOpen := b } } }
  let e : FormulaModulatorEditor τ := { e with
    derived := { e.derived with debugPanel := { e.derived.debugPanel with visible := b } } }
  e.call .resized

end ExpandingFormulaDebugger

namespace FormulaModulatorEditor

variable {τ : Sorts}

/-- The member function `showModulatorCode`. -/
def showModulatorCode (e : FormulaModulatorEditor τ) : FormulaModulatorEditor τ :=
  { e with
    derived := { e.derived with preludeDisplay_visible := false, mainEditor_visible := true }
    storage := { e.storage with editState := { e.storage.editState with codeOrPrelude := 0 } } }

/-- The member function `showPreludeCode`. -/
def showPreludeCode (e : FormulaModulatorEditor τ) : FormulaModulatorEditor τ :=
  { e with
    derived := { e.derived with preludeDisplay_visible := true, mainEditor_visible := false }
    storage := { e.storage with editState := { e.storage.editState with codeOrPrelude := 1 } } }

/-- The macro `CK(x)` of `updateDebuggerIfNeeded`, for the parameter `x`. -/
def CK (x : Parameter τ) (st : (Nat → pdata) × Bool) : (Nat → pdata) × Bool :=
  if (st.1 x.param_id_in_scene).i ≠ x.val.i then
    (Function.update st.1 x.param_id_in_scene ⟨x.val.i⟩, true)
  else st

/-- The macro `CKENV(x, y)` of `updateDebuggerIfNeeded`: `tgt` is the current
value of `formulastate.x`, `y` the parameter; the result is the new value of
`formulastate.x` and of `anyUpdate`. -/
def CKENV (c : Collab τ) (tgt : τ.Flt) (y : Parameter τ) (anyUpdate : Bool) : τ.Flt × Bool :=
  let src := c.value_to_normalized y (c.pdata_f y.val.i)
  if c.fne tgt src then (src, true) else (tgt, anyUpdate)

/-- The four uses `CK(rate); CK(magnitude); CK(start_phase); CK(deform);` in
`updateDebuggerIfNeeded`, started with `anyUpdate` false: the new `tp` and the
new `anyUpdate`. -/
def checkParams (lfodata : LFOStorage τ) (tp : Nat → pdata) : (Nat → pdata) × Bool :=
  let st := CK lfodata.rate (tp, false)
  let st := CK lfodata.magnitude st
  let st := CK lfodata.start_phase st
  CK lfodata.deform st

/-- The tempo test and the six uses of `CKENV` in `updateDebuggerIfNeeded`:
the new `formulastate` and the new `anyUpdate`. -/
def checkEnvelope (c : Collab τ) (lfodata : LFOStorage τ) (temposyncratio : τ.Flt)
    (fs : EvaluatorState τ) (anyUpdate : Bool) : EvaluatorState τ × Bool :=
  let anyUpdate := if c.fne fs.tempo (c.times120 temposyncratio) then true else anyUpdate
  let r1 := CKENV c fs.del lfodata.delay anyUpdate
  let r2 := CKENV c fs.a lfodata.attack r1.2
  let r3 := CKENV c fs.h lfodata.hold r2.2
  let r4 := CKENV c fs.dec lfodata.decay r3.2
  let r5 := CKENV c fs.s lfodata.sustain r4.2
  let r6 := CKENV c fs.r lfodata.release r5.2
  ({ fs with del := r1.1, a := r2.1, h := r3.1, dec := r4.1, s := r5.1, r := r6.1 }, r6.2)

/-- The member function `updateDebuggerIfNeeded`; it fails when the panel is
open and `lfoDebugger` is null, and when it reaches `editor->repaintFrame()`
with a null `SurgeGUIEditor`. -/
def updateDebuggerIfNeeded (c : Collab τ) (e : FormulaModulatorEditor τ) :
    Option (FormulaModulatorEditor τ) :=
  let r : Option (FormulaModulatorEditor τ) :=
    if e.derived.debugPanel.isOpen then
      let lfodata := e.derived.lfos
      let st := checkParams lfodata e.derived.debugPanel.tp
      match e.derived.debugPanel.lfoDebugger with
      | none => none
      | some l =>
        let r := checkEnvelope c lfodata e.storage.temposyncratio l.formulastate st.2
        let anyUpdate := r.2
        let e : FormulaModulatorEditor τ := { e with derived := { e.derived with debugPanel :=
          { e.derived.debugPanel with tp := st.1,
                                      lfoDebugger := some { l with formulastate := r.1 } } } }
        if anyUpdate then
          match ExpandingFormulaDebugger.refreshDebuggerView c e with
          | none => none
          | some e => if !e.editor then none else some (e.call .repaintFrame)
        else some e
    else some e
  match r with
  | none => none
  | some e =>
    some { e with derived := { e.derived with
      updateDebuggerCounter := (e.derived.updateDebuggerCounter + 1) &&& 31 } }

/-- The registers of an evaluator state that `updateDebuggerIfNeeded` compares
with the current values: tempo and the six envelope stages. -/
def trackedRegisters (fs : EvaluatorState τ) : List τ.Flt :=
  [fs.tempo, fs.del, fs.a, fs.h, fs.dec, fs.s, fs.r]

/-- The condition of the dirty check, in the words of its description: some
tracked value differs from the last-seen snapshot, that is rate, magnitude,
start phase or deform differs from its `tp` entry, `temposyncratio * 120`
differs from the tempo register, or a normalized envelope stage differs from
its register. -/
def trackedValueDiffers (c : Collab τ) (e : FormulaModulatorEditor τ)
    (l : LFOModulationSource τ) : Bool :=
  let lfodata := e.derived.lfos
  let tp := e.derived.debugPanel.tp
  let fs := l.formulastate
  decide ((tp lfodata.rate.param_id_in_scene).i ≠ lfodata.rate.val.i) ||
  decide ((tp lfodata.magnitude.param_id_in_scene).i ≠ lfodata.magnitude.val.i) ||
  decide ((tp lfodata.start_phase.param_id_in_scene).i ≠ lfodata.start_phase.val.i) ||
  decide ((tp lfodata.deform.param_id_in_scene).i ≠ lfodata.deform.val.i) ||
  c.fne fs.tempo (c.times120 e.storage.temposyncratio) ||
  c.fne fs.del (c.value_to_normalized lfodata.delay (c.pdata_f lfodata.delay.val.i)) ||
  c.fne fs.a (c.value_to_normalized lfodata.attack (c.pdata_f lfodata.attack.val.i)) ||
  c.fne fs.h (c.value_to_normalized lfodata.hold (c.pdata_f lfodata.hold.val.i)) ||
  c.fne fs.dec (c.value_to_normalized lfodata.decay (c.pdata_f lfodata.decay.val.i)) ||
  c.fne fs.s (c.value_to_normalized lfodata.sustain (c.pdata_f lfodata.sustain.val.i)) ||
  c.fne fs.r (c.value_to_normalized lfodata.release (c.pdata_f lfodata.release.val.i))

/-- The editor as `updateDebuggerIfNeeded` leaves it after the uses of `CK`
and `CKENV`, before the test of `anyUpdate`, when the panel is open and the
modulation source is `l`. -/
def afterChecks (c : Collab τ) (e : FormulaModulatorEditor τ) (l : LFOModulationSource τ) :
    FormulaModulatorEditor τ :=
  { e with derived := { e.derived with debugPanel :=
    { e.derived.debugPanel with
        tp := (checkParams e.derived.lfos e.derived.debugPanel.tp).1,
        lfoDebugger := some { l with formulastate :=
          (checkEnvelope c e.derived.lfos e.storage.temposyncratio l.formulastate
            (checkParams e.derived.lfos e.derived.debugPanel.tp).2).1 } } } }

/-- The editor with the counter of `updateDebuggerIfNeeded` advanced. -/
def withCounterAdvanced (e : FormulaModulatorEditor τ) : FormulaModulatorEditor τ :=
  { e with derived := { e.derived with
      updateDebuggerCounter := (e.derived.updateDebuggerCounter + 1) &&& 31 } }

/-- The override `FormulaModulatorEditor::setApplyEnabled`, on the editor. -/
def setApplyEnabled (b : Bool) (e : FormulaModulatorEditor τ) : FormulaModulatorEditor τ :=
  { e with derived := ApplyTarget.setApplyEnabled b e.derived }

/-- The statements of `applyCode` between the removal of trailing whitespace
and the call of `updateDebuggerIfNeeded`: the formula is pushed on the undo
stack, the document is stored as the formula, the patch is marked dirty and
the LFO display is repainted. -/
def storeFormula (e : FormulaModulatorEditor τ) : FormulaModulatorEditor τ :=
  let e := e.call (.pushFormula e.derived.scene e.derived.lfo_id e.derived.formulastorage)
  let e : FormulaModulatorEditor τ := { e with derived := { e.derived with
    formulastorage := e.derived.formulastorage.setFormula e.mainDocument } }
  let e : FormulaModulatorEditor τ := { e with storage := { e.storage with patch_isDirty := true } }
  e.call .forceLfoDisplayRepaint

/-- The statements of `applyCode` after the call of `updateDebuggerIfNeeded`:
the frame is repainted, the formula is copied to the clipboard, Apply is
disabled and the editor takes the keyboard focus. -/
def finishApply (e : FormulaModulatorEditor τ) : FormulaModulatorEditor τ :=
  let e := e.call .repaintFrame
  let e := e.call (.copyTextToClipboard e.derived.formulastorage.formulaString)
  let e := setApplyEnabled false e
  e.call .grabKeyboardFocus

/-- The member function `applyCode`; it fails on a null `SurgeGUIEditor` and
where `updateDebuggerIfNeeded` fails. -/
def applyCode (c : Collab τ) (e : FormulaModulatorEditor τ) :
    Option (FormulaModulatorEditor τ) :=
  let e := e.removeTrailingWhitespaceFromDocument
  if !e.editor then none
  else
    match updateDebuggerIfNeeded c (storeFormula e) with
    | none => none
    | some e => some (finishApply e)

/-- The member function `getPreCloseChickenBoxMessage`; it fails on a null
control area. -/
def getPreCloseChickenBoxMessage (e : FormulaModulatorEditor τ) :
    Option (Option (String × String)) :=
  match e.derived.controlArea with
  | none => none
  | some ca =>
    if ca.applyS_enabled then
      some (some ("Close Formula Editor",
        "Do you really want to close the formula editor? Any " ++
        "changes that were not applied will be lost!"))
    else some none

end FormulaModulatorEditor

namespace FormulaControlArea

variable {τ : Sorts}

/-- The enumerator `tag_select_tab`. -/
def tag_select_tab : Nat := 0x575200
/-- The enumerator `tag_code_apply`. -/
def tag_code_apply : Nat := 0x575201
/-- The enumerator `tag_debugger_show`. -/
def tag_debugger_show : Nat := 0x575202
/-- The enumerator `tag_debugger_init`. -/
def tag_debugger_init : Nat := 0x575203
/-- The enumerator `tag_debugger_step`. -/
def tag_debugger_step : Nat := 0x575204

/-- The block of `case tag_debugger_show` in `valueChanged`, up to the end of
the block (the case has no `break`). -/
def debuggerShowBlock (ca : FormulaControlArea) (e : FormulaModulatorEditor τ) :
    FormulaModulatorEditor τ :=
  let r : FormulaModulatorEditor τ × FormulaControlArea :=
    if e.derived.debugPanel.isOpen then
      (ExpandingFormulaDebugger.setOpen false e,
        { ca with showS_labels := ["Show"], stepS_visible := false, initS_visible := false })
    else
      (ExpandingFormulaDebugger.setOpen true e,
        { ca with showS_labels := ["Hide"], stepS_visible := true, initS_visible := true })
  let e := r.1
  let e : FormulaModulatorEditor τ := { e with derived := { e.derived with controlArea := some r.2 } }
  e.call .repaint

/-- The member function `valueChanged` of the control area, for a control with
the given tag and value; it fails where a null pointer is dereferenced. -/
def valueChanged (c : Collab τ) (tag : Nat) (value : τ.Flt) (e : FormulaModulatorEditor τ) :
    Option (FormulaModulatorEditor τ) :=
  match e.derived.controlArea with
  | none => none
  | some ca =>
    if tag = tag_select_tab then
      if c.gt_half value then some (FormulaModulatorEditor.showPreludeCode e)
      else some (FormulaModulatorEditor.showModulatorCode e)
    else if tag = tag_code_apply then FormulaModulatorEditor.applyCode c e
    else if tag = tag_debugger_show then
      -- no break: control continues into the next case
      ExpandingFormulaDebugger.initializeLfoDebugger c (debuggerShowBlock ca e)
    else if tag = tag_debugger_init then
      ExpandingFormulaDebugger.initializeLfoDebugger c e
    else if tag = tag_debugger_step then
      let r : Option (FormulaModulatorEditor τ) :=
        if e.derived.debugPanel.lfoDebugger.isNone then
          ExpandingFormulaDebugger.initializeLfoDebugger c e
        else some e
      match r with
      | none => none
      | some e => ExpandingFormulaDebugger.stepLfoDebugger c e
    else some e

/-- The widgets built by `rebuild()`: Apply disabled, the Show switch labelled
after the open flag of the panel, Step and Init visible when it is open. -/
def rebuild (e : FormulaModulatorEditor τ) : FormulaControlArea :=
  let isOpen := e.derived.debugPanel.isOpen
  { applyS_enabled := false
    showS_labels := [if isOpen then "Hide" else "Show"]
    stepS_visible := isOpen
    initS_visible := isOpen }

/-- A sequence of control events, each given by the tag and the value of its
control, handled by `valueChanged` one after the other. -/
def handleEvents (c : Collab τ) : List (Nat × τ.Flt) → FormulaModulatorEditor τ →
    Option (FormulaModulatorEditor τ)
  | [], e => some e
  | ev :: rest, e =>
    match valueChanged c ev.1 ev.2 e with
    | none => none
    | some e => handleEvents c rest e

end FormulaControlArea

/-- The constructor of `FormulaModulatorEditor` (with that of its base class)
up to the `switch` on the persisted tab: the document receives the stored
formula, the main editor is made visible and the persisted tab is shown.  `ed`
tells whether the `SurgeGUIEditor` pointer is non-null, `tp` is the content of
the uninitialised array `tp`. -/
def FormulaModulatorEditor.constructViews {τ : Sorts} (ed : Bool)
    (s : SurgeStorage τ) (ls : LFOStorage τ) (fs : FormulaModulatorStorage) (lid scene : Int)
    (tp : Nat → pdata) : FormulaModulatorEditor τ :=
  let e : FormulaModulatorEditor τ :=
    { mainDocument := [], caretPos := 0, applyButton_enabled := false, editor := ed,
      storage := s, log := [],
      derived :=
        { lfos := ls, formulastorage := fs, lfo_id := lid, scene := scene,
          updateDebuggerCounter := 0, mainEditor_visible := false,
          preludeDisplay_visible := false, controlArea := none,
          debugPanel := { isOpen := false, visible := false, tp := tp, lfoDebugger := none,
                          rows := [] } } }
  let e := CodeEditorContainerWithApply.insertText 0 fs.formulaString e
  let e : FormulaModulatorEditor τ := { e with caretPos := fs.formulaString.length }
  let e : FormulaModulatorEditor τ := { e with derived := { e.derived with
    mainEditor_visible := true } }
  if e.storage.editState.codeOrPrelude = 0 then FormulaModulatorEditor.showModulatorCode e
  else if e.storage.editState.codeOrPrelude = 1 then FormulaModulatorEditor.showPreludeCode e
  else e

/-- The constructor of `FormulaModulatorEditor` (with that of its base class),
followed by the first `rebuild()` of the control area: after the tab is shown,
a persisted open debugger is opened and initialised. -/
def FormulaModulatorEditor.construct {τ : Sorts} (c : Collab τ) (ed : Bool)
    (s : SurgeStorage τ) (ls : LFOStorage τ) (fs : FormulaModulatorStorage) (lid scene : Int)
    (tp : Nat → pdata) : Option (FormulaModulatorEditor τ) :=
  let e := FormulaModulatorEditor.constructViews ed s ls fs lid scene tp
  let r : Option (FormulaModulatorEditor τ) :=
    if e.storage.editState.debuggerOpen then
      match ExpandingFormulaDebugger.initializeLfoDebugger c
          (ExpandingFormulaDebugger.setOpen true e) with
      | none => none
      | some e => some (e.call .repaint)
    else some e
  match r with
  | none => none
  | some e =>
    some { e with derived := { e.derived with controlArea := some (FormulaControlArea.rebuild e) } }

/-- The invariant of the formula editor: the `SurgeGUIEditor` and the control
area exist, and an open debugger panel has an evaluation state. -/
def FormulaModulatorEditor.debuggerInvariant {τ : Sorts} (e : FormulaModulatorEditor τ) : Prop :=
  e.editor = true ∧ e.derived.controlArea.isSome = true ∧
    (e.derived.debugPanel.isOpen = true → e.derived.debugPanel.lfoDebugger.isSome = true)

/-! ## `WavetableScriptEditor`, its control area and its preview -/

/-- The members of `OscillatorStorage` used by the wavetable editor. -/
structure OscillatorStorage (τ : Sorts) where
  wavetable_formula : Text
  wavetable_formula_res_base : Int
  wavetable_formula_nframes : Int
  wavetable_display_name : Text
  wt : τ.Wtb

/-- The members of `WavetablePreviewComponent`; `width` and `height` are the
size of the component. -/
structure WavetablePreviewComponent (τ : Sorts) where
  frameNumber : Int
  points : List τ.Flt
  frameCount : Int
  mode : Int
  startX : Int
  width : Int
  height : Int

namespace WavetablePreviewComponent

variable {τ : Sorts}

/-- The constant `fsGap`. -/
def fsGap : Int := 0

/-- The constant `axisSpaceX`. -/
def axisSpaceX : Int := 0

/-- The local variable `paintWidth` of `adjustStartX`. -/
def paintWidth (r : WavetablePreviewComponent τ) : Int :=
  r.frameCount * (r.height + fsGap) - fsGap + 2 + axisSpaceX - r.width

/-- The member function `adjustStartX`. -/
def adjustStartX (delta : Int) (r : WavetablePreviewComponent τ) : WavetablePreviewComponent τ :=
  let paintWidth := r.frameCount * (r.height + fsGap) - fsGap + 2 + axisSpaceX - r.width
  if paintWidth > 0 then
    let startX := r.startX + delta
    let startX := min 0 startX
    let startX := max (-paintWidth) startX
    { r with startX := startX }
  else { r with startX := 0 }

/-- The member function `setSingleFrame`. -/
def setSingleFrame (r : WavetablePreviewComponent τ) : WavetablePreviewComponent τ :=
  { r with mode := 0 }

/-- The member function `setFilmstrip`. -/
def setFilmstrip (r : WavetablePreviewComponent τ) : WavetablePreviewComponent τ :=
  { r with mode := 1 }

/-- What `paint` hands to the graphics context, as far as the frames are
concerned: the background rectangle of a filmstrip tile, the filled and
stroked curve through the samples of a frame (with the x position of its left
end and the width it spans), the frame label, and the line that closes a
tile.  The axis, the grid and the borders are left out. -/
inductive Draw (τ : Sorts) where
  | fillRect (x : Int) (idx : Int)
  | curve (x : Int) (span : Int) (points : List τ.Flt)
  | drawText (label : Int) (x : Int)
  | drawVerticalLine (x : Int)

/-- Recogniser of curves among the drawing commands. -/
def Draw.isCurve : Draw τ → Bool
  | .curve _ _ _ => true
  | _ => false

/-- The number shown by a frame label among the drawing commands. -/
def Draw.label : Draw τ → Option Int
  | .drawText label _ => some label
  | _ => none

/-- The graph and the text of `paint` in single-frame mode (`mode == 0`). -/
def paintSingleFrame (r : WavetablePreviewComponent τ) : List (Draw τ) :=
  (if r.points.isEmpty then [] else [Draw.curve axisSpaceX (r.width - axisSpaceX) r.points]) ++
    [Draw.drawText r.frameNumber (axisSpaceX + 4)]

/-- One round of the loop of `paint` in filmstrip mode, for the tile with
index `idx`; the state carries `xpos`, the evaluator and the drawing commands
issued so far.  `getFrame` is the member function of the evaluator. -/
def paintTile {E : Type} (getFrame : Int → E → Option (List τ.Flt) × E)
    (r : WavetablePreviewComponent τ) (st : Int × E × List (Draw τ)) (idx : Nat) :
    Int × E × List (Draw τ) :=
  let xpos := st.1
  let ev := st.2.1
  let out := st.2.2
  if xpos + r.height < axisSpaceX ∨ xpos > r.width - axisSpaceX then
    (xpos + (r.height + fsGap), ev, out)
  else
    let out := out ++ [Draw.fillRect (xpos + axisSpaceX) idx]
    let cpointOpt := getFrame idx ev
    match cpointOpt.1 with
    | none => (xpos + (r.height + fsGap), cpointOpt.2, out)
    | some cpoint =>
      let out := if cpoint.isEmpty then out
        else out ++ [Draw.curve (xpos + axisSpaceX) r.height cpoint]
      let out := out ++ [Draw.drawText (idx + 1) (xpos + axisSpaceX + 4),
        Draw.drawVerticalLine (xpos + r.height + axisSpaceX)]
      (xpos + (r.height + fsGap), cpointOpt.2, out)

/-- The loop of `paint` in filmstrip mode over the first `n` tiles. -/
def paintTiles {E : Type} (getFrame : Int → E → Option (List τ.Flt) × E)
    (r : WavetablePreviewComponent τ) (ev : E) (n : Nat) : Int × E × List (Draw τ) :=
  (List.range n).foldl (paintTile getFrame r) (r.startX, ev, [])

/-- The frames part of `paint` in filmstrip mode: the drawing commands and the
evaluator after the loop over all `frameCount` tiles. -/
def paintFilmstrip {E : Type} (getFrame : Int → E → Option (List τ.Flt) × E)
    (r : WavetablePreviewComponent τ) (ev : E) : List (Draw τ) × E :=
  let st := paintTiles getFrame r ev r.frameCount.toNat
  (st.2.2, st.2.1)

/-- The frames part of the member function `paint`. -/
def paint {E : Type} (getFrame : Int → E → Option (List τ.Flt) × E)
    (r : WavetablePreviewComponent τ) (ev : E) : List (Draw τ) × E :=
  if r.mode = 0 then (paintSingleFrame r, ev) else paintFilmstrip getFrame r ev

end WavetablePreviewComponent

/-- The widgets of `WavetableScriptControlArea` that the event handlers touch,
as they exist after `rebuild()`: the number fields hold their `int` value, the
render mode switch its integer value. -/
structure WavetableScriptControlArea where
  applyS_enabled : Bool
  currentFrameN : Int
  framesN : Int
  resolutionN : Int
  renderModeS : Int
  currentFrameN_visible : Bool
  currentFrameL_visible : Bool
deriving DecidableEq, Repr

/-- The members that `WavetableScriptEditor` adds to its base class, with the
oscillator storage it points to. -/
structure WavetableScriptEditorPart (τ : Sorts) where
  osc : OscillatorStorage τ
  lastRes : Int
  lastFrames : Int
  lastFrame : Int
  lastRm : Int
  evaluator : τ.Evl
  mainEditor_visible : Bool
  preludeDisplay_visible : Bool
  controlArea : Option WavetableScriptControlArea
  rendererComponent : WavetablePreviewComponent τ

/-- The override `WavetableScriptEditor::setApplyEnabled`. -/
def WavetableScriptEditorPart.setApplyEnabled {τ : Sorts} (b : Bool)
    (d : WavetableScriptEditorPart τ) : WavetableScriptEditorPart τ :=
  match d.controlArea with
  | some ca => { d with controlArea := some { ca with applyS_enabled := b } }
  | none => d

instance {τ : Sorts} : ApplyTarget (WavetableScriptEditorPart τ) where
  setApplyEnabled := WavetableScriptEditorPart.setApplyEnabled

/-- The wavetable script editor: the container with the wavetable part. -/
abbrev WavetableScriptEditor (τ : Sorts) :=
  CodeEditorContainerWithApply τ (WavetableScriptEditorPart τ)

namespace WavetableScriptEditor

variable {τ : Sorts}

/-- The value of `respt` after the loop `for (int i = 1; i < resi; ++i) respt *= 2;`
started at 32 (without the overflow of `int`). -/
def respt (resi : Int) : Int :=
  Nat.iterate (fun r => r * 2) (resi - 1).toNat 32

/-- The value of the local variable `respt` of `rerenderFromUIState`, computed
by the same loop from the resolution field. -/
def rerenderFromUIState_respt (ca : WavetableScriptControlArea) : Int :=
  respt ca.resolutionN

/-- The value of the local variable `respt` of `generateWavetable`, computed by
the same loop from the resolution field. -/
def generateWavetable_respt (ca : WavetableScriptControlArea) : Int :=
  respt ca.resolutionN

/-- The evaluator as `setupEvaluator` leaves it: storage, script, resolution
and frame count set in this order. -/
def configured (c : Collab τ) (e : WavetableScriptEditor τ) (ca : WavetableScriptControlArea) :
    τ.Evl :=
  c.wt_setFrameCount ca.framesN
    (c.wt_setResolution (respt ca.resolutionN)
      (c.wt_setScript e.mainDocument (c.wt_setStorage e.storage e.derived.evaluator)))

/-- The member function `setupEvaluator`; it fails on a null control area. -/
def setupEvaluator (c : Collab τ) (e : WavetableScriptEditor τ) :
    Option (WavetableScriptEditor τ) :=
  match e.derived.controlArea with
  | none => none
  | some ca =>
    let resi := ca.resolutionN
    let respt := respt resi
    let e := e.call .setStorage
    let ev := c.wt_setStorage e.storage e.derived.evaluator
    let e := e.call (.setScript e.mainDocument)
    let ev := c.wt_setScript e.mainDocument ev
    let e := e.call (.setResolution respt)
    let ev := c.wt_setResolution respt ev
    let e := e.call (.setFrameCount ca.framesN)
    let ev := c.wt_setFrameCount ca.framesN ev
    some { e with derived := { e.derived with evaluator := ev } }

/-- The member function `rerenderFromUIState`; it fails on a null control
area. -/
def rerenderFromUIState (c : Collab τ) (e : WavetableScriptEditor τ) :
    Option (WavetableScriptEditor τ) :=
  match e.derived.controlArea with
  | none => none
  | some ca =>
    let resi := ca.resolutionN
    let nfr := ca.framesN
    let rm := ca.renderModeS
    let cfr := e.derived.rendererComponent.frameNumber
    if rm = e.derived.lastRm ∧
        ((rm = 0 ∧ resi = e.derived.lastRes ∧ nfr = e.derived.lastFrames ∧
            cfr = e.derived.lastFrame) ∨
          (rm = 1 ∧ resi = e.derived.lastRes ∧ nfr = e.derived.lastFrames)) then
      some e
    else
      let e : WavetableScriptEditor τ := { e with derived := { e.derived with
        lastRes := resi, lastFrame := cfr, lastFrames := nfr, lastRm := rm } }
      match setupEvaluator c e with
      | none => none
      | some e =>
        let e : WavetableScriptEditor τ :=
          if rm = 0 then
            let e := e.call (.getFrame cfr)
            let rs := c.wt_getFrame cfr e.derived.evaluator
            let e : WavetableScriptEditor τ := { e with derived := { e.derived with
              evaluator := rs.2 } }
            match rs.1 with
            | some pts => { e with derived := { e.derived with
                rendererComponent := { e.derived.rendererComponent with points := pts } } }
            | none => { e with derived := { e.derived with
                rendererComponent := { e.derived.rendererComponent with points := [] } } }
          else
            { e with derived := { e.derived with rendererComponent :=
              ({ e.derived.rendererComponent with frameCount := nfr }).adjustStartX 0 } }
        some (e.call .repaint)

/-- The override `WavetableScriptEditor::setApplyEnabled`, on the editor. -/
def setApplyEnabled (b : Bool) (e : WavetableScriptEditor τ) : WavetableScriptEditor τ :=
  { e with derived := ApplyTarget.setApplyEnabled b e.derived }

/-- The assignments of `applyCode` after the removal of trailing whitespace:
the document is stored as the wavetable script, the number fields as resolution
base and frame count, and `lastFrames` is reset. -/
def storeScript (ca : WavetableScriptControlArea) (e : WavetableScriptEditor τ) :
    WavetableScriptEditor τ :=
  let e : WavetableScriptEditor τ := { e with derived := { e.derived with
    osc := { e.derived.osc with
      wavetable_formula := e.mainDocument
      wavetable_formula_res_base := ca.resolutionN
      wavetable_formula_nframes := ca.framesN } } }
  { e with derived := { e.derived with lastFrames := -1 } }

/-- The statements of `applyCode` after `rerenderFromUIState`, from
`editor->repaintFrame()` on; they fail on a null `SurgeGUIEditor`. -/
def finishApply (e : WavetableScriptEditor τ) : Option (WavetableScriptEditor τ) :=
  if !e.editor then none
  else
    let e := e.call .repaintFrame
    let e := setApplyEnabled false e
    let e := e.call .grabKeyboardFocus
    some (e.call .repaint)

/-- The member function `applyCode`; it fails on a null control area and on a
null `SurgeGUIEditor`. -/
def applyCode (c : Collab τ) (e : WavetableScriptEditor τ) :
    Option (WavetableScriptEditor τ) :=
  let e := e.removeTrailingWhitespaceFromDocument
  match e.derived.controlArea with
  | none => none
  | some ca =>
    match setupEvaluator c (storeScript ca e) with
    | none => none
    | some e =>
      match rerenderFromUIState c e with
      | none => none
      | some e => finishApply e

/-- The member function `showModulatorCode`. -/
def showModulatorCode (e : WavetableScriptEditor τ) : WavetableScriptEditor τ :=
  { e with
    derived := { e.derived with preludeDisplay_visible := false, mainEditor_visible := true }
    storage := { e.storage with editState := { e.storage.editState with codeOrPrelude := 0 } } }

/-- The member function `showPreludeCode`. -/
def showPreludeCode (e : WavetableScriptEditor τ) : WavetableScriptEditor τ :=
  { e with
    derived := { e.derived with preludeDisplay_visible := true, mainEditor_visible := false }
    storage := { e.storage with editState := { e.storage.editState with codeOrPrelude := 1 } } }

/-- The member function `generateWavetable`; it fails on a null control area
and on a null `SurgeGUIEditor`. -/
def generateWavetable (c : Collab τ) (e : WavetableScriptEditor τ) :
    Option (WavetableScriptEditor τ) :=
  match setupEvaluator c e with
  | none => none
  | some e =>
    let e := e.call .populateWavetable
    let r := c.wt_populateWavetable e.derived.evaluator
    let e : WavetableScriptEditor τ := { e with derived := { e.derived with evaluator := r.2 } }
    let e := e.call .lock
    let e := e.call .BuildWT
    let e : WavetableScriptEditor τ := { e with derived := { e.derived with
      osc := { e.derived.osc with wt := c.BuildWT r.1 e.derived.osc.wt } } }
    let e := e.call .getSuggestedWavetableName
    let e : WavetableScriptEditor τ := { e with derived := { e.derived with
      osc := { e.derived.osc with
        wavetable_display_name := c.wt_getSuggestedWavetableName e.derived.evaluator } } }
    let e := e.call .unlock
    let e := e.call .deleteArray
    if !e.editor then none
    else
      let e := e.call .repaintForceForWT
      some (e.call .repaintFrame)

/-- The member function `getPreCloseChickenBoxMessage`; it fails on a null
control area. -/
def getPreCloseChickenBoxMessage (e : WavetableScriptEditor τ) :
    Option (Option (String × String)) :=
  match e.derived.controlArea with
  | none => none
  | some ca =>
    if ca.applyS_enabled then
      some (some ("Close Wavetable Script Editor",
        "Do you really want to close the wavetable editor? Any " ++
        "changes that were not applied will be lost!"))
    else some none

end WavetableScriptEditor

namespace WavetableScriptControlArea

variable {τ : Sorts}

/-- The enumerator `tag_select_tab`. -/
def tag_select_tab : Nat := 0x597500
/-- The enumerator `tag_code_apply`. -/
def tag_code_apply : Nat := 0x597501
/-- The enumerator `tag_current_frame`. -/
def tag_current_frame : Nat := 0x597502
/-- The enumerator `tag_frames_value`. -/
def tag_frames_value : Nat := 0x597503
/-- The enumerator `tag_res_value`. -/
def tag_res_value : Nat := 0x597504
/-- The enumerator `tag_generate_wt`. -/
def tag_generate_wt : Nat := 0x597505
/-- The enumerator `tag_select_rendermode`. -/
def tag_select_rendermode : Nat := 0x597506

/-- The member function `valueChanged` of the control area, for a control with
the given tag and value; it fails where a null pointer is dereferenced. -/
def valueChanged (c : Collab τ) (tag : Nat) (value : τ.Flt) (e : WavetableScriptEditor τ) :
    Option (WavetableScriptEditor τ) :=
  match e.derived.controlArea with
  | none => none
  | some ca =>
    if tag = tag_select_tab then
      if c.gt_half value then some (WavetableScriptEditor.showPreludeCode e)
      else some (WavetableScriptEditor.showModulatorCode e)
    else if tag = tag_code_apply then WavetableScriptEditor.applyCode c e
    else if tag = tag_current_frame then
      let currentFrame := ca.currentFrameN
      let maxFrames := ca.framesN
      let r : Int × WavetableScriptControlArea :=
        if currentFrame > maxFrames then (maxFrames, { ca with currentFrameN := maxFrames })
        else (currentFrame, ca)
      let e : WavetableScriptEditor τ := { e with derived := { e.derived with
        controlArea := some r.2
        rendererComponent := { e.derived.rendererComponent with frameNumber := r.1 } } }
      WavetableScriptEditor.rerenderFromUIState c e
    else if tag = tag_frames_value then some (WavetableScriptEditor.setApplyEnabled true e)
    else if tag = tag_res_value then some (WavetableScriptEditor.setApplyEnabled true e)
    else if tag = tag_generate_wt then
      match WavetableScriptEditor.applyCode c e with
      | none => none
      | some e => WavetableScriptEditor.generateWavetable c e
    else if tag = tag_select_rendermode then
      let rm := ca.renderModeS
      if rm = 1 then
        let ca : WavetableScriptControlArea :=
          { ca with currentFrameN_visible := false, currentFrameL_visible := false }
        let e : WavetableScriptEditor τ := { e with derived := { e.derived with
          controlArea := some ca } }
        match WavetableScriptEditor.rerenderFromUIState c e with
        | none => none
        | some e => some { e with derived := { e.derived with
            rendererComponent := e.derived.rendererComponent.setFilmstrip } }
      else
        let ca : WavetableScriptControlArea :=
          { ca with currentFrameN_visible := true, currentFrameL_visible := true }
        let e : WavetableScriptEditor τ := { e with derived := { e.derived with
          controlArea := some ca } }
        match WavetableScriptEditor.rerenderFromUIState c e with
        | none => none
        | some e => some { e with derived := { e.derived with
            rendererComponent := e.derived.rendererComponent.setSingleFrame } }
    else some e

/-- The widgets built by `rebuild()`: Apply disabled, the current-frame field
at 1, the frames and resolution fields at the stored settings, the render mode
switch at the mode of the preview, the current-frame field hidden in filmstrip
mode. -/
def rebuild (e : WavetableScriptEditor τ) : WavetableScriptControlArea :=
  { applyS_enabled := false
    currentFrameN := 1
    framesN := e.derived.osc.wavetable_formula_nframes
    resolutionN := e.derived.osc.wavetable_formula_res_base
    renderModeS := e.derived.rendererComponent.mode
    currentFrameN_visible := !(e.derived.rendererComponent.mode == 1)
    currentFrameL_visible := !(e.derived.rendererComponent.mode == 1) }

/-- The stops of the context menu of the frames field, in the order of the
`addStop` calls. -/
def frameStops : List Int := [10, 16, 20, 32, 50, 64, 100, 128, 200, 256]

/-- The test `i >= 1 && i <= 256` of the type-in handler. -/
def typeinInRange (i : Int) : Bool :=
  decide (i ≥ 1) && decide (i ≤ 256)

/-- The lambda `handleTypein` of `controlModifierClicked`, installed for the
frames field: the returned flag and the editor afterwards.  `atoi` is the C
library function; the control is the frames number field. -/
def handleTypein (c : Collab τ) (atoi : Text → Int) (s : Text) (e : WavetableScriptEditor τ) :
    Option (Bool × WavetableScriptEditor τ) :=
  let i := atoi s
  if typeinInRange i then
    match e.derived.controlArea with
    | none => none
    | some ca =>
      let v := c.intScaledToFloat i 256 1
      let e := e.call (.setValue v)
      let e : WavetableScriptEditor τ := { e with derived := { e.derived with
        controlArea := some { ca with framesN := c.framesFieldInt v } } }
      match valueChanged c tag_frames_value v e with
      | none => none
      | some e => some (true, e.call .repaint)
  else some (false, e)

end WavetableScriptControlArea

/-- The constructor of `WavetableScriptEditor` (with that of its base class),
followed by the first `rebuild()` of the control area. -/
def WavetableScriptEditor.construct {τ : Sorts} (c : Collab τ) (ed : Bool) (s : SurgeStorage τ)
    (os : OscillatorStorage τ) : WavetableScriptEditor τ :=
  let e : WavetableScriptEditor τ :=
    { mainDocument := [], caretPos := 0, applyButton_enabled := false, editor := ed,
      storage := s, log := [],
      derived :=
        { osc := os, lastRes := -1, lastFrames := -1, lastFrame := -1, lastRm := -1,
          evaluator := c.wt_make, mainEditor_visible := false, preludeDisplay_visible := false,
          controlArea := none,
          rendererComponent := { frameNumber := 1, points := [], frameCount := 1, mode := 1,
                                 startX := 0, width := 0, height := 0 } } }
  let text := if os.wavetable_formula = [] then c.defaultWavetableScript else os.wavetable_formula
  let e := CodeEditorContainerWithApply.insertText 0 text e
  let e : WavetableScriptEditor τ := { e with caretPos := text.length }
  let e : WavetableScriptEditor τ := { e with derived := { e.derived with
    mainEditor_visible := true } }
  let e : WavetableScriptEditor τ :=
    if e.storage.editState.codeOrPrelude = 0 then WavetableScriptEditor.showModulatorCode e
    else if e.storage.editState.codeOrPrelude = 1 then WavetableScriptEditor.showPreludeCode e
    else e
  let e := e.call .setStorage
  let e : WavetableScriptEditor τ := { e with derived := { e.derived with
    evaluator := c.wt_setStorage e.storage e.derived.evaluator } }
  { e with derived := { e.derived with controlArea := some (WavetableScriptControlArea.rebuild e) } }

/-! ## The search box, the key handlers and the debug table -/

namespace juce

/-- The string from `start` up to, not including, `stop`: `String::substring`;
a negative `start` counts as 0. -/
def substring (s : Text) (start stop : Int) : Text :=
  let start := max 0 start
  if stop ≤ start then [] else (s.drop start.toNat).take (stop - start).toNat

/-- The string without the whitespace at its two ends: `String::trim`. -/
def trim (s : Text) : Text :=
  trimEnd (s.dropWhile isWhitespace)

/-- Whether `haystack` starts with `needle` when case is ignored:
`compareIgnoreCaseUpTo (needle, needle.length()) == 0`, which compares the
upper-case forms character by character.  `toUpperCase` is
`CharacterFunctions::toUpperCase`. -/
def startsWithIgnoreCase (toUpperCase : Char → Char) (haystack needle : Text) : Bool :=
  decide (needle.length ≤ haystack.length) &&
    ((haystack.take needle.length).map toUpperCase == needle.map toUpperCase)

/-- The scan of `CharacterFunctions::indexOfIgnoreCase`: the first index,
counted from `index`, at which the rest of the haystack starts with the
needle, or -1. -/
def indexOfIgnoreCaseFrom (toUpperCase : Char → Char) : Text → Text → Nat → Int
  | [], needle, index => if startsWithIgnoreCase toUpperCase [] needle then index else -1
  | c :: t, needle, index =>
    if startsWithIgnoreCase toUpperCase (c :: t) needle then index
    else indexOfIgnoreCaseFrom toUpperCase t needle (index + 1)

/-- The index of the first occurrence of `other` at or after `startIndex`,
case ignored, or -1: `String::indexOfIgnoreCase (startIndex, other)`. -/
def indexOfIgnoreCase (toUpperCase : Char → Char) (text : Text) (startIndex : Int)
    (other : Text) : Int :=
  if other.isEmpty then -1
  else if startIndex.toNat > text.length then -1
  else
    let found := indexOfIgnoreCaseFrom toUpperCase (text.drop startIndex.toNat) other 0
    if found ≥ 0 then found + startIndex else found

/-- The requests that the key handlers make to the code editor component. -/
inductive EditorOp where
  | insertTextAtCaret (t : Text)
  | moveCaretLeft
  | moveCaretRight
deriving DecidableEq, Repr

end juce

/-- The members of `CodeEditorSearch` used by `search` and `showResult`, with
the text of the search field (`query`), the text of the result label, the
highlighted region of the code editor and whether the highlight colour of a
match is set.  `startCaretPosition` is the character offset of the saved caret
position. -/
structure CodeEditorSearch where
  result : List Int
  resultCurrent : Int
  resultTotal : Int
  startCaretPosition : Int
  query : Text
  labelResult : String
  highlightedRegion : Int × Int
  highlightColors : Bool
deriving DecidableEq, Repr

namespace CodeEditorSearch

/-- The member function `showResult`; it fails when `result` is read outside
its bounds.  The remainder is that of `%` on `int`. -/
def showResult (increment : Int) (s : CodeEditorSearch) : Option CodeEditorSearch :=
  let id := s.resultCurrent + 1
  let r : CodeEditorSearch × Int :=
    if s.resultTotal = 0 then ({ s with highlightColors := false }, 0)
    else ({ s with highlightColors := true }, id)
  let s := r.1
  let id := r.2
  let s := { s with labelResult := toString id ++ "/" ++ toString s.resultTotal }
  if s.resultTotal = 0 then some s
  else
    let resultCurrent := Int.tmod (s.resultCurrent + increment + s.resultTotal) s.resultTotal
    if resultCurrent < 0 then none
    else
      match s.result[resultCurrent.toNat]? with
      | none => none
      | some start =>
        some { s with resultCurrent := resultCurrent,
                      highlightedRegion := (start, start + s.query.length) }

/-- The local variables of the loop of `search`, with the members it
writes. -/
structure Loop where
  count : Nat
  res : Int
  result : List Int
  resultCurrent : Int
  firstFound : Bool
deriving DecidableEq, Repr

/-- The loop `while (res != -1 && count < 128)` of `search`, run for at most
`fuel` rounds; it fails when `result` is written outside its bounds and when
the rounds do not suffice. -/
def searchLoop (toUpperCase : Char → Char) (txt query : Text) (caretPos : Int) :
    Nat → Loop → Option Loop
  | 0, st => if st.res ≠ -1 ∧ st.count < 128 then none else some st
  | fuel + 1, st =>
    if st.res ≠ -1 ∧ st.count < 128 then
      if st.count < st.result.length then
        let result := st.result.set st.count st.res
        let found : Int × Bool :=
          if caretPos ≤ st.res ∧ !st.firstFound then (st.count, true)
          else (st.resultCurrent, st.firstFound)
        let pos := st.res + 1
        let res := juce.indexOfIgnoreCase toUpperCase txt pos query
        searchLoop toUpperCase txt query caretPos fuel
          { count := st.count + 1, res := res, result := result, resultCurrent := found.1,
            firstFound := found.2 }
      else none
    else some st

/-- The member function `search` on the document text `txt`, up to the call
of `showResult`: the loop is given 128 rounds. -/
def searchFill (toUpperCase : Char → Char) (txt : Text) (s : CodeEditorSearch) :
    Option CodeEditorSearch :=
  let caretPos := s.startCaretPosition
  let res := juce.indexOfIgnoreCase toUpperCase txt 0 s.query
  match searchLoop toUpperCase txt s.query caretPos 128
      { count := 0, res := res, result := s.result, resultCurrent := 0, firstFound := false } with
  | none => none
  | some st =>
    some { s with result := st.result, resultCurrent := st.resultCurrent, resultTotal := st.count }

/-- The member function `search` on the document text `txt`. -/
def search (toUpperCase : Char → Char) (txt : Text) (s : CodeEditorSearch) :
    Option CodeEditorSearch :=
  match searchFill toUpperCase txt s with
  | none => none
  | some s => showResult 0 s

/-- The start offsets at which the query occurs in the text, case ignored, in
increasing order. -/
def occurrences (toUpperCase : Char → Char) (txt query : Text) : List Nat :=
  (List.range (txt.length + 1)).filter
    (fun i => juce.startsWithIgnoreCase toUpperCase (txt.drop i) query)

/-- The invariant of the loop of `search` before round `k`, for the list
`occ` of all occurrences: `k` matches are recorded, `res` is the next
occurrence or -1, the first `k` entries of `result` are the first `k`
occurrences, and `resultCurrent` is the first recorded match at or after the
caret, if `firstFound` says there is one, and 0 otherwise. -/
def loopInvariant (occ : List Nat) (caretPos : Int) (k : Nat) (st : Loop) : Prop :=
  st.count = k ∧ k ≤ 128 ∧ k ≤ occ.length ∧ st.result.length = 128 ∧
  st.res = (match occ[k]? with
    | some i => (i : Int)
    | none => -1) ∧
  (∀ i, i < k → st.result[i]? = (occ[i]?).map Int.ofNat) ∧
  (st.firstFound = true → ∃ rc : Nat, st.resultCurrent = rc ∧ rc < k ∧
    (∃ a : Nat, occ[rc]? = some a ∧ caretPos ≤ a) ∧
    ∀ (j a : Nat), j < rc → occ[j]? = some a → (a : Int) < caretPos) ∧
  (st.firstFound = false → st.resultCurrent = 0 ∧
    ∀ (j a : Nat), j < k → occ[j]? = some a → (a : Int) < caretPos)

end CodeEditorSearch

namespace SurgeCodeEditorComponent

/-- The loop of `handleReturnKey` over the characters of the line from index
`i` on, with the value of `tabs` so far: the value of `tabs` after the loop. -/
def returnKeyLoop (tabSize : Nat) (txt : Text) : Text → Int → Nat → Nat
  | [], _, tabs => tabs
  | c :: rest, i, tabs =>
    if c = ' ' then returnKeyLoop tabSize txt rest (i + 1) (tabs + 1)
    else if c = '\t' then returnKeyLoop tabSize txt rest (i + 1) (tabs + tabSize)
    else
      let trimmedTxt := juce.trim txt
      let indent : Bool :=
        if juce.substring txt i (i + 8) = ['f', 'u', 'n', 'c', 't', 'i', 'o', 'n'] then true
        else if juce.substring txt i (i + 2) = ['i', 'f'] ∧
            juce.substring trimmedTxt (trimmedTxt.length - 4) trimmedTxt.length
              = ['t', 'h', 'e', 'n'] then true
        else if juce.substring trimmedTxt 0 4 = ['e', 'l', 's', 'e'] then true
        else if juce.substring trimmedTxt (trimmedTxt.length - 2) trimmedTxt.length = ['d', 'o'] ∨
            juce.substring trimmedTxt 0 5 = ['w', 'h', 'i', 'l', 'e'] then true
        else false
      tabs + (if indent then tabSize else 0)

/-- The value of `tabs` that `handleReturnKey` computes for the text `txt` of
the caret's line; `tabSize` is `getTabSize()`. -/
def returnKeyTabs (tabSize : Nat) (txt : Text) : Nat :=
  returnKeyLoop tabSize txt txt 0 0

/-- The member function `handleReturnKey`: the two insertions it requests. -/
def handleReturnKey (tabSize : Nat) (txt : Text) : List juce.EditorOp :=
  [.insertTextAtCaret ['\n'], .insertTextAtCaret (List.replicate (returnKeyTabs tabSize txt) ' ')]

/-- The width of the leading spaces and tabs of a line, a tab counting
`tabSize`. -/
def leadingWidth (tabSize : Nat) : Text → Nat
  | [] => 0
  | c :: rest =>
    if c = ' ' then 1 + leadingWidth tabSize rest
    else if c = '\t' then tabSize + leadingWidth tabSize rest
    else 0

/-- The first word of a line: the characters after its leading whitespace up
to the next whitespace. -/
def firstWord (txt : Text) : Text :=
  (txt.dropWhile juce.isWhitespace).takeWhile (fun c => !juce.isWhitespace c)

/-- The last word of a line: the characters before its trailing whitespace
back to the previous whitespace. -/
def lastWord (txt : Text) : Text :=
  ((juce.trimEnd txt).reverse.takeWhile (fun c => !juce.isWhitespace c)).reverse

/-- The condition under which `handleReturnKey` adds one tab size, as tests on
prefixes and suffixes: the line has a character that is neither space nor tab,
and from the first such character on it starts with `function`, or it starts
with `if` there and the trimmed line ends with `then`, or the trimmed line
starts with `else`, ends with `do` or starts with `while`. -/
def addsIndent (txt : Text) : Bool :=
  let body := txt.dropWhile (fun c => c = ' ' || c = '\t')
  let t := juce.trim txt
  !body.isEmpty &&
    (['f', 'u', 'n', 'c', 't', 'i', 'o', 'n'].isPrefixOf body ||
      (['i', 'f'].isPrefixOf body && ['t', 'h', 'e', 'n'].isSuffixOf t) ||
      ['e', 'l', 's', 'e'].isPrefixOf t ||
      ['d', 'o'].isSuffixOf t ||
      ['w', 'h', 'i', 'l', 'e'].isPrefixOf t)

end SurgeCodeEditorComponent

namespace CodeEditorContainerWithApply

variable {τ : Sorts} {D : Type}

/-- The branch of `keyPressed` for Ctrl/Cmd+D: the editor afterwards and the
flag `doSel`.  `sel` is the highlighted region of the main editor, given by
its start and its end. -/
def keyPressedDuplicate [ApplyTarget D] (sel : Nat × Nat)
    (e : CodeEditorContainerWithApply τ D) : CodeEditorContainerWithApply τ D × Bool :=
  let ls := juce.lines e.mainDocument
  let pos := juce.setPosition ls e.caretPos
  let txt := (e.mainDocument.drop sel.1).take (sel.2 - sel.1)
  let r : Text × Bool := if txt.isEmpty then (ls.getD pos.line [], false) else (txt, true)
  let txt := r.1
  let doSel := r.2
  let m : Bool × Int :=
    if txt.contains '\n' then
      let count := min 2 (txt.count '\n')
      let count := if txt.getLast? ≠ some '\n' then count + 1 else count
      (decide (count > 1), -(pos.indexInLine : Int))
    else (false, 0)
  let isMultiline := m.1
  let offset := m.2
  let target := juce.setPosition ls ((pos.characterPos : Int) + (if isMultiline then 0 else offset))
  let e := insertText target.characterPos txt e
  let caret := juce.setPosition (juce.lines e.mainDocument) ((pos.characterPos : Int) + txt.length)
  ({ e with caretPos := caret.characterPos }, doSel)

end CodeEditorContainerWithApply

/-- The member function `DebugDataModel::getText`; it fails on a row number
outside `rows`.  `format3` is `fmt::format` with three decimals. -/
def DebugDataModel.getText {τ : Sorts} (format3 : τ.Flt → String) (rows : List (DebugRow τ))
    (rowNumber : Int) (columnId : Int) : Option String :=
  if rowNumber < 0 then none
  else
    match rows[rowNumber.toNat]? with
    | none => none
    | some r =>
      if columnId = 1 then some r.label
      else if columnId = 2 then
        if !r.hasValue then some ""
        else
          match r.value with
          | .inl fv => some (format3 fv)
          | .inr sv => some sv
      else some ""

/-- The member function `setCurrentFrame`; it fails on a null control area. -/
def WavetableScriptEditor.setCurrentFrame {τ : Sorts} (value : Int)
    (e : WavetableScriptEditor τ) : Option (WavetableScriptEditor τ) :=
  match e.derived.controlArea with
  | none => none
  | some ca =>
    let frameNumber := e.derived.rendererComponent.frameNumber
    let maxFrames := ca.framesN
    let frameNumber := frameNumber + value
    let frameNumber :=
      if frameNumber < 1 then 1
      else if frameNumber > maxFrames then maxFrames
      else frameNumber
    some { e with derived := { e.derived with
      rendererComponent := { e.derived.rendererComponent with frameNumber := frameNumber }
      controlArea := some { ca with currentFrameN := frameNumber } } }

/-- The member function `mouseDrag` of the preview for an event at `(x, y)`:
the editor afterwards and the new value of `lastDrag`. -/
def WavetablePreviewComponent.mouseDrag {τ : Sorts} (x y : Int) (lastDrag : Int)
    (e : WavetableScriptEditor τ) : Option (WavetableScriptEditor τ × Int) :=
  let currentDrag := x + -y
  let delta := (currentDrag - lastDrag) * 2
  if e.derived.rendererComponent.mode = 0 then
    let value : Int := if delta > 0 then 1 else if delta < 0 then -1 else 0
    match WavetableScriptEditor.setCurrentFrame value e with
    | none => none
    | some e => some (e.call .repaint, currentDrag)
  else
    if delta ≠ 0 then
      let e : WavetableScriptEditor τ := { e with derived := { e.derived with
        rendererComponent := e.derived.rendererComponent.adjustStartX delta } }
      some (e.call .repaint, currentDrag)
    else some (e, currentDrag)

/-! ## The wavetable script evaluator of the specification -/

/-- Modelled from the spec: the state of the wavetable script evaluator
(`LuaWTEvaluator`, declared outside `LuaEditors.cpp`): the script text, the
resolution, the frame count, and the frame cache of section 3, a mapping from
frame index to a previously computed sample sequence. -/
structure SpecEvaluator (F : Type) where
  script : Text
  resolution : Int
  frameCount : Int
  cache : List (Int × List F)

namespace SpecEvaluator

variable {F : Type}

/-- Modelled from the spec: `setScript` stores the script text; the frame
cache is invalidated wholesale when the text changes (section 3). -/
def setScript (s : Text) (ev : SpecEvaluator F) : SpecEvaluator F :=
  if s = ev.script then ev else { ev with script := s, cache := [] }

/-- Modelled from the spec: `setResolution` stores the resolution; the frame
cache is invalidated wholesale when it changes (section 3). -/
def setResolution (n : Int) (ev : SpecEvaluator F) : SpecEvaluator F :=
  if n = ev.resolution then ev else { ev with resolution := n, cache := [] }

/-- Modelled from the spec: `setFrameCount` stores the frame count; the frame
cache is invalidated wholesale when it changes (section 3). -/
def setFrameCount (n : Int) (ev : SpecEvaluator F) : SpecEvaluator F :=
  if n = ev.frameCount then ev else { ev with frameCount := n, cache := [] }

/-- Modelled from the spec: `getFrame` of section 4.2.  `frameOf script i r` is
the sample sequence that the compiled script yields for frame index `i` at
resolution `r` (absent when compilation or evaluation fails), a pure function
of its inputs.  An index outside the frame count yields no frame; a cached
frame is returned as it is; a computed frame is entered into the cache. -/
def getFrame (frameOf : Text → Int → Int → Option (List F)) (idx : Int) (ev : SpecEvaluator F) :
    Option (List F) × SpecEvaluator F :=
  if idx < 0 ∨ idx ≥ ev.frameCount then (none, ev)
  else
    match ev.cache.lookup idx with
    | some v => (some v, ev)
    | none =>
      match frameOf ev.script idx ev.resolution with
      | some v => (some v, { ev with cache := (idx, v) :: ev.cache })
      | none => (none, ev)

/-- Modelled from the spec: the invariant of the frame cache (section 3):
every entry is exact for the current script and resolution. -/
def Exact (frameOf : Text → Int → Int → Option (List F)) (ev : SpecEvaluator F) : Prop :=
  ∀ p ∈ ev.cache, frameOf ev.script p.1 ev.resolution = some p.2

/-- Two evaluator states with the same script, resolution and frame count. -/
def SameConfig (a b : SpecEvaluator F) : Prop :=
  a.script = b.script ∧ a.resolution = b.resolution ∧ a.frameCount = b.frameCount

end SpecEvaluator

/-! ## Call counting and sample data -/

/-- The number of `process_block` calls in a call log. -/
def processBlockCalls {τ : Sorts} (log : List (Call τ)) : Nat :=
  log.countP Call.isProcessBlock

/-- The number of `attack` calls in a call log. -/
def attackCalls {τ : Sorts} (log : List (Call τ)) : Nat :=
  log.countP Call.isAttack

/-- The number of `valueAt` calls in a call log. -/
def valueAtCalls {τ : Sorts} (log : List (Call τ)) : Nat :=
  log.countP Call.isValueAt

/-- Sample carriers: `float` values are integers, the modulation source keeps
a block counter, the wavetable evaluator keeps its script, resolution and frame
count. -/
abbrev sampleSorts : Sorts :=
  { Flt := Int, Par := Unit, Reg := Unit, Src := Int, Pat := Unit,
    Evl := Text × Int × Int, Wdt := Unit, Wtb := Unit }

/-- A sample evaluator state with all registers zero. -/
def sampleEvaluatorState : EvaluatorState sampleSorts :=
  { rate := 0, amp := 0, phase := 0, deform := 0, tempo := 0, songpos := 0, del := 0, a := 0,
    h := 0, dec := 0, s := 0, r := 0, velocity := 0, more := () }

/-- Sample collaborators: `process_block` advances the block counter of the
modulation source, `attack` resets it, the wavetable evaluator yields no frame
for the script `(`. -/
def sampleCollab : Collab sampleSorts :=
  { pdata_f := fun i => i
    times120 := fun x => x * 120
    fne := fun x y => x != y
    gt_half := fun x => decide (x > 0)
    lm_keytrigger := 1
    n_lfos_voice := 6
    value_to_normalized := fun _ x => x
    make_LFOModulationSource := { formulastate := sampleEvaluatorState, isVoice := false, more := 0 }
    assign := fun _ _ _ _ l => l
    setIsVoice := fun b l => { l with isVoice := b }
    attack := fun _ _ _ _ l => { l with more := 0 }
    process_block := fun _ _ _ _ l => { l with more := l.more + 1 }
    getIntPhase := fun m => m
    getPhase := fun _ => 0
    setupEvaluatorStateFrom := fun s _ _ => s
    valueAt := fun _ _ _ _ _ s => s
    createDebugDataOfModState := fun s =>
      [{ depth := 0, label := "rate", hasValue := true, isInternal := false, value := .inl s.rate }]
    wt_setStorage := fun _ ev => ev
    wt_setScript := fun t ev => (t, ev.2.1, ev.2.2)
    wt_setResolution := fun n ev => (ev.1, n, ev.2.2)
    wt_setFrameCount := fun n ev => (ev.1, ev.2.1, n)
    wt_getFrame := fun idx ev =>
      (if ev.1 = ['('] then none else some (List.replicate ev.2.1.toNat idx), ev)
    wt_populateWavetable := fun ev => ((), ev)
    wt_getSuggestedWavetableName := fun _ => []
    BuildWT := fun _ w => w
    wt_make := ([], 0, 0)
    defaultWavetableScript := ['r', 'e', 't', 'u', 'r', 'n']
    intScaledToFloat := fun v _ vmin => v - vmin
    framesFieldInt := fun f => f + 1 }

/-- A sample parameter with the given value and scene id. -/
def sampleParameter (v : Int) (id : Nat) : Parameter sampleSorts :=
  { val := ⟨v⟩, param_id_in_scene := id, more := () }

/-- Sample LFO parameters with pairwise distinct scene ids 0 to 11. -/
def sampleLfos : LFOStorage sampleSorts :=
  { rate := sampleParameter 10 0, shape := sampleParameter 11 1,
    start_phase := sampleParameter 12 2, magnitude := sampleParameter 13 3,
    deform := sampleParameter 14 4, trigmode := sampleParameter 0 5,
    delay := sampleParameter 16 6, attack := sampleParameter 17 7,
    hold := sampleParameter 18 8, decay := sampleParameter 19 9,
    sustain := sampleParameter 20 10, release := sampleParameter 21 11 }

/-- The sample LFO parameters after the user has moved the rate from 10 to
99. -/
def sampleLfosRateChanged : LFOStorage sampleSorts :=
  { sampleLfos with rate := sampleParameter 99 0 }

/-- A sample storage. -/
def sampleStorage : SurgeStorage sampleSorts :=
  { temposyncratio := 1, songpos := 0, patch_isDirty := false,
    editState := { codeOrPrelude := 0, debuggerOpen := false }, patch := () }

/-- A sample formula control area, as built by `rebuild()` with the panel
closed. -/
def sampleFormulaControlArea : FormulaControlArea :=
  { applyS_enabled := false, showS_labels := ["Show"], stepS_visible := false,
    initS_visible := false }

/-- A sample formula editor right after construction with a closed debugger:
no evaluation state exists, the document holds `doc` and the stored formula is
`stored`. -/
def sampleFormulaEditor (doc stored : Text) : FormulaModulatorEditor sampleSorts :=
  { mainDocument := doc, caretPos := doc.length, applyButton_enabled := false, editor := true,
    storage := sampleStorage, log := [],
    derived :=
      { lfos := sampleLfos, formulastorage := { formulaString := stored }, lfo_id := 0, scene := 0,
        updateDebuggerCounter := 0, mainEditor_visible := true, preludeDisplay_visible := false,
        controlArea := some sampleFormulaControlArea,
        debugPanel := { isOpen := false, visible := false, tp := fun _ => ⟨0⟩,
                        lfoDebugger := none, rows := [] } } }

/-- A sample sequence of control events: Show, Step, Apply, the prelude tab,
Init. -/
def sampleEvents : List (Nat × Int) :=
  [(FormulaControlArea.tag_debugger_show, 0), (FormulaControlArea.tag_debugger_step, 0),
   (FormulaControlArea.tag_code_apply, 0), (FormulaControlArea.tag_select_tab, 1),
   (FormulaControlArea.tag_debugger_init, 0)]

/-- A sample storage with the persisted tab `cp` and the persisted debugger
flag `dbg`. -/
def sampleStorageWith (cp : Int) (dbg : Bool) : SurgeStorage sampleSorts :=
  { sampleStorage with editState := { codeOrPrelude := cp, debuggerOpen := dbg } }

/-- A sample oscillator storage with an empty script. -/
def sampleOscillatorStorage : OscillatorStorage sampleSorts :=
  { wavetable_formula := [], wavetable_formula_res_base := 5, wavetable_formula_nframes := 100,
    wavetable_display_name := [], wt := () }

/-- A sample wavetable control area: Apply disabled, frame 1 of 10 shown in
single-frame mode, resolution field 2. -/
def sampleWavetableControlArea : WavetableScriptControlArea :=
  { applyS_enabled := false, currentFrameN := 1, framesN := 10, resolutionN := 2,
    renderModeS := 0, currentFrameN_visible := true, currentFrameL_visible := true }

/-- A sample wavetable editor: the document holds `doc`, the stored script is
`stored` with resolution base 5 and 100 frames, and the preview shows two
points of an earlier frame. -/
def sampleWavetableEditor (doc stored : Text) : WavetableScriptEditor sampleSorts :=
  { mainDocument := doc, caretPos := doc.length, applyButton_enabled := false, editor := true,
    storage := sampleStorage, log := [],
    derived :=
      { osc := { wavetable_formula := stored, wavetable_formula_res_base := 5,
                 wavetable_formula_nframes := 100, wavetable_display_name := [], wt := () },
        lastRes := -1, lastFrames := -1, lastFrame := -1, lastRm := -1,
        evaluator := (stored, 512, 100), mainEditor_visible := true,
        preludeDisplay_visible := false, controlArea := some sampleWavetableControlArea,
        rendererComponent := { frameNumber := 1, points := [1, 2], frameCount := 1, mode := 0,
                               startX := 0, width := 400, height := 125 } } }

/-- The sample wavetable editor with resolution field 26 and frames field
256. -/
def sampleLargeWavetableEditor : WavetableScriptEditor sampleSorts :=
  let e := sampleWavetableEditor ['x'] ['y']
  { e with derived := { e.derived with
      controlArea := some { sampleWavetableControlArea with resolutionN := 26, framesN := 256 } } }

/-- The sample wavetable editor in single-frame mode showing frame number
`n` of 10. -/
def sampleWavetableEditorAt (n : Int) : WavetableScriptEditor sampleSorts :=
  let e := sampleWavetableEditor ['x'] ['y']
  { e with derived := { e.derived with
      controlArea := some { sampleWavetableControlArea with currentFrameN := n }
      rendererComponent := { e.derived.rendererComponent with frameNumber := n } } }

/-- A sample preview in filmstrip mode: 10 tiles of height 30 in a component
of width 400. -/
def sampleFilmstrip : WavetablePreviewComponent sampleSorts :=
  { frameNumber := 1, points := [], frameCount := 10, mode := 1, startX := 0, width := 400,
    height := 30 }

/-- A sample evaluator for `paint` that records the frame indices it is asked
for and yields two samples per frame. -/
def sampleRecordingGetFrame (idx : Int) (asked : List Int) : Option (List Int) × List Int :=
  (some [idx, idx], asked ++ [idx])

/-- A sample frame function: the script `(` has no frames, every other script
yields `r` samples of value `i` for frame `i`. -/
def sampleFrameOf (script : Text) (i r : Int) : Option (List Int) :=
  if script = ['('] then none else some (List.replicate r.toNat i)

/-- A sample evaluator of the specification with an empty cache: script `x`,
resolution 2, 10 frames. -/
def sampleSpecEvaluator : SpecEvaluator Int :=
  { script := ['x'], resolution := 2, frameCount := 10, cache := [] }

/-- A sample modulation source that has been advanced by five blocks. -/
def sampleSource : LFOModulationSource sampleSorts :=
  { formulastate := sampleEvaluatorState, isVoice := true, more := 5 }

/-- The sample formula editor with an open debugger that holds
`sampleSource`. -/
def sampleOpenFormulaEditor (doc stored : Text) : FormulaModulatorEditor sampleSorts :=
  let e := sampleFormulaEditor doc stored
  { e with derived := { e.derived with
      controlArea := some { applyS_enabled := false, showS_labels := ["Hide"],
                            stepS_visible := true, initS_visible := true }
      debugPanel := { e.derived.debugPanel with isOpen := true, visible := true,
                                                lfoDebugger := some sampleSource } } }

/-- A sample search box: three matches of a two-character query at the
offsets 1, 3 and 5, the first of them current. -/
def sampleSearch : CodeEditorSearch :=
  { result := [1, 3, 5] ++ List.replicate 125 0, resultCurrent := 0, resultTotal := 3,
    startCaretPosition := 0, query := ['a', 'b'], labelResult := "1/3",
    highlightedRegion := (1, 3), highlightColors := true }

/-- A sample search box before its first search, with the query `ab` and the
saved caret at offset 3. -/
def sampleEmptySearch : CodeEditorSearch :=
  { result := List.replicate 128 0, resultCurrent := 0, resultTotal := 0,
    startCaretPosition := 3, query := ['a', 'b'], labelResult := "",
    highlightedRegion := (0, 0), highlightColors := false }

/-- The sample formula editor with the document `doc` and the caret at the
character offset `caret`. -/
def sampleEditorWithCaret (doc : Text) (caret : Nat) : FormulaModulatorEditor sampleSorts :=
  { sampleFormulaEditor doc [] with caretPos := caret }

/-! ## Theorems -/

section FormulaDebugger

open ExpandingFormulaDebugger CodeEditorContainerWithApply FormulaControlArea

variable {τ : Sorts}

/-- With distinct scene ids every copied entry of `tp` holds the value of its
parameter after the assignments of `initializeLfoDebugger`. -/
theorem initializeTp_spec (c : Collab τ) (lfodata : LFOStorage τ) (tp : Nat → pdata)
    (h : (copiedIds lfodata).Nodup) :
    initializeTp c lfodata tp lfodata.delay.param_id_in_scene = ⟨lfodata.delay.val.i⟩ ∧
    initializeTp c lfodata tp lfodata.attack.param_id_in_scene = ⟨lfodata.attack.val.i⟩ ∧
    initializeTp c lfodata tp lfodata.hold.param_id_in_scene = ⟨lfodata.hold.val.i⟩ ∧
    initializeTp c lfodata tp lfodata.decay.param_id_in_scene = ⟨lfodata.decay.val.i⟩ ∧
    initializeTp c lfodata tp lfodata.sustain.param_id_in_scene = ⟨lfodata.sustain.val.i⟩ ∧
    initializeTp c lfodata tp lfodata.release.param_id_in_scene = ⟨lfodata.release.val.i⟩ ∧
    initializeTp c lfodata tp lfodata.magnitude.param_id_in_scene = ⟨lfodata.magnitude.val.i⟩ ∧
    initializeTp c lfodata tp lfodata.rate.param_id_in_scene = ⟨lfodata.rate.val.i⟩ ∧
    initializeTp c lfodata tp lfodata.shape.param_id_in_scene = ⟨lfodata.shape.val.i⟩ ∧
    initializeTp c lfodata tp lfodata.start_phase.param_id_in_scene =
      ⟨lfodata.start_phase.val.i⟩ ∧
    initializeTp c lfodata tp lfodata.deform.param_id_in_scene = ⟨lfodata.deform.val.i⟩ := by
  simp only [copiedIds, List.nodup_cons, List.mem_cons, List.mem_singleton, not_or,
    List.not_mem_nil, not_false_eq_true, List.nodup_nil, and_true] at h
  simp only [initializeTp, Function.update_apply]
  simp [h]

/-- The last assignment of `initializeLfoDebugger` to `tp` sets the trigger
mode entry to `lm_keytrigger`. -/
theorem initializeTp_trigmode (c : Collab τ) (lfodata : LFOStorage τ) (tp : Nat → pdata) :
    initializeTp c lfodata tp lfodata.trigmode.param_id_in_scene = ⟨c.lm_keytrigger⟩ := by
  simp [initializeTp]

/-- What a step does when an evaluation state exists: it succeeds, calls
`process_block` once and no `attack`, and leaves `tp`, the open flag, the
control area and the pointer to the GUI editor alone. -/
theorem stepLfoDebugger_spec (c : Collab τ) (e : FormulaModulatorEditor τ)
    (l : LFOModulationSource τ) (h : e.derived.debugPanel.lfoDebugger = some l) :
    ∃ e' l', stepLfoDebugger c e = some e' ∧
      e'.derived.debugPanel.lfoDebugger = some l' ∧
      l' = c.process_block e.storage e.derived.lfos e.derived.debugPanel.tp
        e.derived.formulastorage { l with formulastate :=
          (c.setupEvaluatorStateFrom l.formulastate e.storage.patch e.derived.scene) } ∧
      (∃ new, e'.log = e.log ++ new ∧ processBlockCalls new = 1 ∧ attackCalls new = 0) ∧
      e'.derived.debugPanel.tp = e.derived.debugPanel.tp ∧
      e'.derived.debugPanel.isOpen = e.derived.debugPanel.isOpen ∧
      e'.derived.debugPanel.visible = e.derived.debugPanel.visible ∧
      e'.derived.controlArea = e.derived.controlArea ∧
      e'.storage = e.storage ∧
      e'.editor = e.editor := by
  cases hed : e.editor <;>
  simp [stepLfoDebugger, updateDebuggerWithOptionalStep, call, h, hed,
    processBlockCalls, attackCalls, List.countP_cons, Call.isProcessBlock, Call.isAttack]

/-- What Init does: it always succeeds, installs a modulation source that does
not depend on the one held before, writes the `tp` entries, and calls `attack`
once and `process_block` once. -/
theorem initializeLfoDebugger_spec (c : Collab τ) (e : FormulaModulatorEditor τ) :
    ∃ e' l', initializeLfoDebugger c e = some e' ∧
      e'.derived.debugPanel.lfoDebugger = some l' ∧
      (∀ old, (initializeLfoDebugger c (withLfoDebugger old e)).bind
        (fun r => r.derived.debugPanel.lfoDebugger) = some l') ∧
      (∃ new, e'.log = e.log ++ new ∧ processBlockCalls new = 1 ∧ attackCalls new = 1) ∧
      e'.derived.debugPanel.tp = initializeTp c e.derived.lfos e.derived.debugPanel.tp ∧
      e'.derived.debugPanel.isOpen = e.derived.debugPanel.isOpen ∧
      e'.derived.debugPanel.visible = e.derived.debugPanel.visible ∧
      e'.derived.controlArea = e.derived.controlArea ∧
      e'.storage = e.storage ∧
      e'.editor = e.editor := by
  cases hed : e.editor <;>
  simp [initializeLfoDebugger, stepLfoDebugger, updateDebuggerWithOptionalStep, call, hed,
    withLfoDebugger, processBlockCalls, attackCalls, List.countP_cons, Call.isProcessBlock,
    Call.isAttack]

/-- The registers that a refresh hands to the evaluator: those of the
modulation source with rate, amplitude, phase and deform taken from the `tp`
entries of rate, magnitude, start phase and deform, and tempo and song position
taken from the storage. -/
theorem refreshDebuggerView_spec (c : Collab τ) (e : FormulaModulatorEditor τ)
    (l : LFOModulationSource τ) (h : e.derived.debugPanel.lfoDebugger = some l) :
    ∃ e' fs, refreshDebuggerView c e = some e' ∧
      fs = { l.formulastate with
        rate := c.pdata_f (e.derived.debugPanel.tp e.derived.lfos.rate.param_id_in_scene).i
        amp := c.pdata_f (e.derived.debugPanel.tp e.derived.lfos.magnitude.param_id_in_scene).i
        phase :=
          c.pdata_f (e.derived.debugPanel.tp e.derived.lfos.start_phase.param_id_in_scene).i
        deform := c.pdata_f (e.derived.debugPanel.tp e.derived.lfos.deform.param_id_in_scene).i
        tempo := c.times120 e.storage.temposyncratio
        songpos := e.storage.songpos } ∧
      e'.derived.debugPanel.lfoDebugger = some { l with formulastate :=
        (c.valueAt (c.getIntPhase l.more) (c.getPhase l.more) e.storage e.derived.formulastorage
          l.more (c.setupEvaluatorStateFrom fs e.storage.patch e.derived.scene)) } ∧
      (∃ new, e'.log = e.log ++ new ∧ processBlockCalls new = 0 ∧ attackCalls new = 0 ∧
        valueAtCalls new = 1 ∧
        Call.setupEvaluatorStateFrom fs e.derived.scene ∈ new ∧
        Call.valueAt (c.getIntPhase l.more) (c.getPhase l.more)
          (c.setupEvaluatorStateFrom fs e.storage.patch e.derived.scene) ∈ new) ∧
      e'.derived.debugPanel.tp = e.derived.debugPanel.tp ∧
      e'.derived.debugPanel.isOpen = e.derived.debugPanel.isOpen ∧
      e'.derived.controlArea = e.derived.controlArea ∧
      e'.derived.lfos = e.derived.lfos ∧
      e'.derived.formulastorage = e.derived.formulastorage ∧
      e'.mainDocument = e.mainDocument ∧
      e'.storage = e.storage ∧
      e'.editor = e.editor := by
  cases hed : e.editor <;>
  simp [refreshDebuggerView, updateDebuggerWithOptionalStep, call, h, hed,
    processBlockCalls, attackCalls, valueAtCalls, List.countP_cons, Call.isProcessBlock,
    Call.isAttack, Call.isValueAt]

/-- The block of the Show case commutes with replacing the evaluation
state. -/
theorem debuggerShowBlock_withLfoDebugger (ca : FormulaControlArea)
    (old : Option (LFOModulationSource τ)) (e : FormulaModulatorEditor τ) :
    debuggerShowBlock ca (withLfoDebugger old e) = withLfoDebugger old (debuggerShowBlock ca e) := by
  cases ho : e.derived.debugPanel.isOpen <;>
  simp [debuggerShowBlock, withLfoDebugger, setOpen, call, ho]

/-- C5 (counterexample): with no evaluation state yet, one Step event calls
`process_block` twice, not once. -/
theorem C5_step_without_state_steps_twice :
    (valueChanged sampleCollab tag_debugger_step 0 (sampleFormulaEditor [] [])).map
        (fun e => processBlockCalls e.log) = some 2 ∧
      (valueChanged sampleCollab tag_debugger_step 0 (sampleFormulaEditor [] [])).map
        (fun e => processBlockCalls e.log) ≠ some 1 ∧
      (sampleFormulaEditor [] []).derived.debugPanel.lfoDebugger = none ∧
      processBlockCalls (sampleFormulaEditor [] []).log = 0 := by
  refine ⟨?_, ?_, rfl, rfl⟩ <;> decide

/-- C5 (amended): handling one `tag_debugger_step` event always succeeds; it
calls `process_block` exactly once when an evaluation state exists, and exactly
twice when none exists (Init, which itself steps once, runs first). -/
theorem C5_step_event_process_block_calls (c : Collab τ) (value : τ.Flt)
    (e : FormulaModulatorEditor τ) (ca : FormulaControlArea)
    (hca : e.derived.controlArea = some ca) :
    ∃ e', valueChanged c tag_debugger_step value e = some e' ∧
      ∃ new, e'.log = e.log ++ new ∧
        processBlockCalls new = if e.derived.debugPanel.lfoDebugger.isSome then 1 else 2 := by
  cases hl : e.derived.debugPanel.lfoDebugger with
  | some l =>
    obtain ⟨e', l', h1, -, -, ⟨new, hnew, hpb, -⟩, -⟩ := stepLfoDebugger_spec c e l hl
    refine ⟨e', ?_, new, hnew, by simpa using hpb⟩
    simp [valueChanged, hca, tag_debugger_step, tag_select_tab, tag_code_apply,
      tag_debugger_show, tag_debugger_init, hl, h1]
  | none =>
    obtain ⟨e1, l1, h1, hl1, -, ⟨new1, hnew1, hpb1, -⟩, -⟩ := initializeLfoDebugger_spec c e
    obtain ⟨e2, l2, h2, -, -, ⟨new2, hnew2, hpb2, -⟩, -⟩ := stepLfoDebugger_spec c e1 l1 hl1
    refine ⟨e2, ?_, new1 ++ new2, ?_, ?_⟩
    · simp [valueChanged, hca, tag_debugger_step, tag_select_tab, tag_code_apply,
        tag_debugger_show, tag_debugger_init, hl, h1, h2]
    · rw [hnew2, hnew1, List.append_assoc]
    · simp [processBlockCalls] at hpb1 hpb2 ⊢
      omega

/-- C5 (witness): the amended statement at the sample editor without an
evaluation state. -/
theorem C5_step_event_process_block_calls_witness :
    (sampleFormulaEditor [] []).derived.controlArea = some sampleFormulaControlArea ∧
    ∃ e', valueChanged sampleCollab tag_debugger_step 0 (sampleFormulaEditor [] []) = some e' ∧
      ∃ new, e'.log = (sampleFormulaEditor [] []).log ++ new ∧
        processBlockCalls new =
          if (sampleFormulaEditor [] []).derived.debugPanel.lfoDebugger.isSome then 1 else 2 :=
  ⟨rfl, C5_step_event_process_block_calls sampleCollab 0 (sampleFormulaEditor [] [])
    sampleFormulaControlArea rfl⟩

/-- C6 (counterexample): Init on the sample editor calls `process_block` once,
not zero times. -/
theorem C6_init_calls_process_block :
    (initializeLfoDebugger sampleCollab (sampleFormulaEditor [] [])).map
        (fun e => processBlockCalls e.log) = some 1 ∧
      (initializeLfoDebugger sampleCollab (sampleFormulaEditor [] [])).map
        (fun e => processBlockCalls e.log) ≠ some 0 ∧
      processBlockCalls (sampleFormulaEditor [] []).log = 0 := by
  refine ⟨?_, ?_, rfl⟩ <;> decide

/-- C6 (amended): `initializeLfoDebugger` always succeeds and takes the
debugger to a state with an evaluation state that is created afresh (it does
not depend on the one held before), attacked once and advanced by exactly one
block: during Init `attack` and `process_block` are each called once. -/
theorem C6_init_creates_attacks_and_steps_once (c : Collab τ) (e : FormulaModulatorEditor τ) :
    ∃ e' l', initializeLfoDebugger c e = some e' ∧
      e'.derived.debugPanel.lfoDebugger = some l' ∧
      (∀ old, (initializeLfoDebugger c (withLfoDebugger old e)).bind
        (fun r => r.derived.debugPanel.lfoDebugger) = some l') ∧
      ∃ new, e'.log = e.log ++ new ∧ attackCalls new = 1 ∧ processBlockCalls new = 1 := by
  obtain ⟨e', l', h1, h2, h3, ⟨new, hnew, hpb, hat⟩, -⟩ := initializeLfoDebugger_spec c e
  exact ⟨e', l', h1, h2, h3, new, hnew, hat, hpb⟩

/-- C7 (counterexample): on the sample editor with an open debugger whose
modulation source has been advanced by five blocks, one Show/Hide event
replaces the source by one that was attacked and advanced by one block. -/
theorem C7_show_event_recreates_state :
    (valueChanged sampleCollab tag_debugger_show 0 (sampleOpenFormulaEditor [] [])).map
        (fun e => (e.derived.debugPanel.lfoDebugger.map (fun l => l.more),
          attackCalls e.log, processBlockCalls e.log)) = some (some 1, 1, 1) ∧
      (valueChanged sampleCollab tag_debugger_show 0 (sampleOpenFormulaEditor [] [])).map
        (fun e => e.derived.debugPanel.lfoDebugger.map (fun l => l.more))
        ≠ some ((sampleOpenFormulaEditor [] []).derived.debugPanel.lfoDebugger.map
            (fun l => l.more)) ∧
      (sampleOpenFormulaEditor [] []).derived.debugPanel.lfoDebugger.map (fun l => l.more)
        = some 5 ∧
      (sampleOpenFormulaEditor [] []).log = [] := by
  refine ⟨?_, ?_, rfl, rfl⟩ <;> decide

/-- C7 (amended): handling a `tag_debugger_show` event toggles the panel's
open flag, the persisted `debuggerOpen` flag, the panel's visibility and the
label and visibility of the Show, Step and Init controls, and then runs Init:
the evaluation state is re-created (independently of the one held before),
`tp` is written again, and `attack` and `process_block` are each called
once. -/
theorem C7_show_event_toggles_and_reinitializes (c : Collab τ) (value : τ.Flt)
    (e : FormulaModulatorEditor τ) (ca : FormulaControlArea)
    (hca : e.derived.controlArea = some ca) :
    ∃ e' l', valueChanged c tag_debugger_show value e = some e' ∧
      e'.derived.debugPanel.isOpen = !e.derived.debugPanel.isOpen ∧
      e'.storage.editState.debuggerOpen = !e.derived.debugPanel.isOpen ∧
      e'.derived.debugPanel.visible = !e.derived.debugPanel.isOpen ∧
      e'.derived.controlArea = some { ca with
        showS_labels := if e.derived.debugPanel.isOpen then ["Show"] else ["Hide"]
        stepS_visible := !e.derived.debugPanel.isOpen
        initS_visible := !e.derived.debugPanel.isOpen } ∧
      e'.derived.debugPanel.lfoDebugger = some l' ∧
      (∀ old, (valueChanged c tag_debugger_show value (withLfoDebugger old e)).bind
        (fun r => r.derived.debugPanel.lfoDebugger) = some l') ∧
      e'.derived.debugPanel.tp = initializeTp c e.derived.lfos e.derived.debugPanel.tp ∧
      ∃ new, e'.log = e.log ++ new ∧ attackCalls new = 1 ∧ processBlockCalls new = 1 := by
  obtain ⟨e', l', h1, h2, h3, ⟨new, hnew, hpb, hat⟩, htp, hop, hvis, hctl, hst, -⟩ :=
    initializeLfoDebugger_spec c (debuggerShowBlock ca e)
  have hv : ∀ e0 : FormulaModulatorEditor τ, e0.derived.controlArea = some ca →
      valueChanged c tag_debugger_show value e0
        = initializeLfoDebugger c (debuggerShowBlock ca e0) := by
    intro e0 h0
    simp [valueChanged, h0, tag_debugger_show, tag_select_tab, tag_code_apply]
  refine ⟨e', l', by rw [hv e hca, h1], ?_, ?_, ?_, ?_, h2, ?_, ?_, ?_⟩
  · rw [hop]; cases ho : e.derived.debugPanel.isOpen <;> simp [debuggerShowBlock, setOpen, call, ho]
  · rw [hst]; cases ho : e.derived.debugPanel.isOpen <;> simp [debuggerShowBlock, setOpen, call, ho]
  · rw [hvis]; cases ho : e.derived.debugPanel.isOpen <;>
      simp [debuggerShowBlock, setOpen, call, ho]
  · rw [hctl]; cases ho : e.derived.debugPanel.isOpen <;>
      simp [debuggerShowBlock, setOpen, call, ho]
  · intro old
    rw [hv (withLfoDebugger old e) (by simpa [withLfoDebugger] using hca),
      debuggerShowBlock_withLfoDebugger]
    exact h3 old
  · rw [htp]; cases ho : e.derived.debugPanel.isOpen <;>
      simp [debuggerShowBlock, setOpen, call, ho]
  · refine ⟨[Call.resized, Call.repaint] ++ new, ?_, ?_, ?_⟩
    · rw [hnew]
      cases ho : e.derived.debugPanel.isOpen <;> simp [debuggerShowBlock, setOpen, call, ho]
    · simpa [attackCalls, List.countP_cons, Call.isAttack] using hat
    · simpa [processBlockCalls, List.countP_cons, Call.isProcessBlock] using hpb

/-- C7 (witness): the amended statement at the sample editor with an open
debugger. -/
theorem C7_show_event_toggles_and_reinitializes_witness :
    (sampleOpenFormulaEditor [] []).derived.controlArea
        = some { applyS_enabled := false, showS_labels := ["Hide"], stepS_visible := true,
                 initS_visible := true } ∧
    ∃ e', valueChanged sampleCollab tag_debugger_show 0 (sampleOpenFormulaEditor [] []) = some e' ∧
      e'.derived.debugPanel.isOpen = false ∧
      ∃ new, e'.log = (sampleOpenFormulaEditor [] []).log ++ new ∧ attackCalls new = 1 ∧
        processBlockCalls new = 1 := by
  refine ⟨rfl, ?_⟩
  obtain ⟨e', l', h1, h2, -, -, -, -, -, -, h9⟩ :=
    C7_show_event_toggles_and_reinitializes sampleCollab 0 (sampleOpenFormulaEditor [] [])
      _ rfl
  exact ⟨e', h1, by simpa [sampleOpenFormulaEditor] using h2, h9⟩

/-- C8: `refreshDebuggerView` never calls `process_block`; the registers it
hands to the evaluator have rate, amplitude, phase and deform read from the
`tp` entries of rate, magnitude, start phase and deform, tempo equal to
`temposyncratio * 120` and song position from the storage; `valueAt` is
evaluated once, at the integer phase and phase of the modulation source, and
the source keeps everything but `formulastate`, so its phase registers are
unchanged. -/
theorem C8_refresh_does_not_advance (c : Collab τ) (e : FormulaModulatorEditor τ)
    (l : LFOModulationSource τ) (h : e.derived.debugPanel.lfoDebugger = some l) :
    ∃ e' fs l', refreshDebuggerView c e = some e' ∧
      fs.rate = c.pdata_f (e.derived.debugPanel.tp e.derived.lfos.rate.param_id_in_scene).i ∧
      fs.amp = c.pdata_f (e.derived.debugPanel.tp e.derived.lfos.magnitude.param_id_in_scene).i ∧
      fs.phase =
        c.pdata_f (e.derived.debugPanel.tp e.derived.lfos.start_phase.param_id_in_scene).i ∧
      fs.deform = c.pdata_f (e.derived.debugPanel.tp e.derived.lfos.deform.param_id_in_scene).i ∧
      fs.tempo = c.times120 e.storage.temposyncratio ∧
      fs.songpos = e.storage.songpos ∧
      (∃ new, e'.log = e.log ++ new ∧ processBlockCalls new = 0 ∧ valueAtCalls new = 1 ∧
        Call.setupEvaluatorStateFrom fs e.derived.scene ∈ new ∧
        Call.valueAt (c.getIntPhase l.more) (c.getPhase l.more)
          (c.setupEvaluatorStateFrom fs e.storage.patch e.derived.scene) ∈ new) ∧
      e'.derived.debugPanel.lfoDebugger = some l' ∧
      l'.formulastate = c.valueAt (c.getIntPhase l.more) (c.getPhase l.more) e.storage
        e.derived.formulastorage l.more
        (c.setupEvaluatorStateFrom fs e.storage.patch e.derived.scene) ∧
      l'.more = l.more ∧ l'.isVoice = l.isVoice ∧
      c.getIntPhase l'.more = c.getIntPhase l.more ∧ c.getPhase l'.more = c.getPhase l.more := by
  obtain ⟨e', fs, h1, hfs, hl, ⟨new, hnew, hpb, -, hva, hm1, hm2⟩, -⟩ :=
    refreshDebuggerView_spec c e l h
  refine ⟨e', fs, _, h1, ?_, ?_, ?_, ?_, ?_, ?_, ⟨new, hnew, hpb, hva, hm1, hm2⟩, hl,
    rfl, rfl, rfl, rfl, rfl⟩ <;> rw [hfs]

/-- C8 (witness): the statement at the sample editor with an open debugger. -/
theorem C8_refresh_does_not_advance_witness :
    (sampleOpenFormulaEditor [] []).derived.debugPanel.lfoDebugger = some sampleSource ∧
    ∃ e' l', refreshDebuggerView sampleCollab (sampleOpenFormulaEditor [] []) = some e' ∧
      processBlockCalls e'.log = 0 ∧
      e'.derived.debugPanel.lfoDebugger = some l' ∧ l'.more = 5 := by
  refine ⟨rfl, ?_⟩
  obtain ⟨e', fs, l', h1, -, -, -, -, -, -, ⟨new, hnew, hpb, -⟩, hl, -, hmore, -⟩ :=
    C8_refresh_does_not_advance sampleCollab (sampleOpenFormulaEditor [] []) sampleSource rfl
  refine ⟨e', l', h1, ?_, hl, by simpa [sampleSource] using hmore⟩
  rw [hnew]
  simpa [sampleOpenFormulaEditor, sampleFormulaEditor, processBlockCalls] using hpb

/-- C10: with pairwise distinct scene ids, after `initializeLfoDebugger` the
`tp` entry of each of delay, attack, hold, decay, sustain, release, magnitude,
rate, shape, start phase and deform equals the value the parameter had at Init,
the trigger mode entry is `lm_keytrigger`, and `tp` is a copy: replacing the
live LFO parameters afterwards leaves it as it is, also across a following Step
or Refresh. -/
theorem C10_init_takes_snapshot (c : Collab τ) (e : FormulaModulatorEditor τ)
    (h : (copiedIds e.derived.lfos).Nodup) :
    ∃ e', initializeLfoDebugger c e = some e' ∧
      e'.derived.debugPanel.tp e.derived.lfos.delay.param_id_in_scene
        = ⟨e.derived.lfos.delay.val.i⟩ ∧
      e'.derived.debugPanel.tp e.derived.lfos.attack.param_id_in_scene
        = ⟨e.derived.lfos.attack.val.i⟩ ∧
      e'.derived.debugPanel.tp e.derived.lfos.hold.param_id_in_scene
        = ⟨e.derived.lfos.hold.val.i⟩ ∧
      e'.derived.debugPanel.tp e.derived.lfos.decay.param_id_in_scene
        = ⟨e.derived.lfos.decay.val.i⟩ ∧
      e'.derived.debugPanel.tp e.derived.lfos.sustain.param_id_in_scene
        = ⟨e.derived.lfos.sustain.val.i⟩ ∧
      e'.derived.debugPanel.tp e.derived.lfos.release.param_id_in_scene
        = ⟨e.derived.lfos.release.val.i⟩ ∧
      e'.derived.debugPanel.tp e.derived.lfos.magnitude.param_id_in_scene
        = ⟨e.derived.lfos.magnitude.val.i⟩ ∧
      e'.derived.debugPanel.tp e.derived.lfos.rate.param_id_in_scene
        = ⟨e.derived.lfos.rate.val.i⟩ ∧
      e'.derived.debugPanel.tp e.derived.lfos.shape.param_id_in_scene
        = ⟨e.derived.lfos.shape.val.i⟩ ∧
      e'.derived.debugPanel.tp e.derived.lfos.start_phase.param_id_in_scene
        = ⟨e.derived.lfos.start_phase.val.i⟩ ∧
      e'.derived.debugPanel.tp e.derived.lfos.deform.param_id_in_scene
        = ⟨e.derived.lfos.deform.val.i⟩ ∧
      e'.derived.debugPanel.tp e.derived.lfos.trigmode.param_id_in_scene
        = ⟨c.lm_keytrigger⟩ ∧
      ∀ lfos, (withLfos lfos e').derived.debugPanel.tp = e'.derived.debugPanel.tp ∧
        (∃ e2, stepLfoDebugger c (withLfos lfos e') = some e2 ∧
          e2.derived.debugPanel.tp = e'.derived.debugPanel.tp) ∧
        (∃ e2, refreshDebuggerView c (withLfos lfos e') = some e2 ∧
          e2.derived.debugPanel.tp = e'.derived.debugPanel.tp) := by
  obtain ⟨e', l', h1, h2, -, -, htp, -⟩ := initializeLfoDebugger_spec c e
  obtain ⟨t1, t2, t3, t4, t5, t6, t7, t8, t9, t10, t11⟩ :=
    initializeTp_spec c e.derived.lfos e.derived.debugPanel.tp h
  refine ⟨e', h1, ?_, ?_, ?_, ?_, ?_, ?_, ?_, ?_, ?_, ?_, ?_, ?_, ?_⟩
  any_goals rw [htp]
  · exact t1
  · exact t2
  · exact t3
  · exact t4
  · exact t5
  · exact t6
  · exact t7
  · exact t8
  · exact t9
  · exact t10
  · exact t11
  · exact initializeTp_trigmode c e.derived.lfos e.derived.debugPanel.tp
  · rw [← htp]
    intro lfos
    have hl : (withLfos lfos e').derived.debugPanel.lfoDebugger = some l' := by
      simpa [withLfos] using h2
    obtain ⟨e2, -, hs, -, -, -, hs2, -⟩ := stepLfoDebugger_spec c (withLfos lfos e') l' hl
    obtain ⟨e3, -, hr, -, -, -, hr2, -⟩ := refreshDebuggerView_spec c (withLfos lfos e') l' hl
    exact ⟨rfl, ⟨e2, hs, hs2⟩, ⟨e3, hr, hr2⟩⟩

/-- C10 (witness): the statement at the sample editor, whose LFO parameters
have the scene ids 0 to 11. -/
theorem C10_init_takes_snapshot_witness :
    (copiedIds (sampleFormulaEditor [] []).derived.lfos).Nodup ∧
    ∃ e', initializeLfoDebugger sampleCollab (sampleFormulaEditor [] []) = some e' ∧
      e'.derived.debugPanel.tp 0 = ⟨10⟩ ∧ e'.derived.debugPanel.tp 5 = ⟨1⟩ := by
  have hn : (copiedIds (sampleFormulaEditor [] []).derived.lfos).Nodup := by decide
  refine ⟨hn, ?_⟩
  obtain ⟨e', h1, -, -, -, -, -, -, -, h8, -, -, -, h12, -⟩ :=
    C10_init_takes_snapshot sampleCollab (sampleFormulaEditor [] []) hn
  exact ⟨e', h1, h8, h12⟩

end FormulaDebugger

section DirtyCheck

open ExpandingFormulaDebugger CodeEditorContainerWithApply FormulaModulatorEditor

variable {τ : Sorts}

/-- A use of `CK` never clears `anyUpdate`. -/
theorem CK_snd_of_true (x : Parameter τ) (st : (Nat → pdata) × Bool) (h : st.2 = true) :
    (CK x st).2 = true := by
  unfold CK; split <;> simp [h]

/-- A use of `CK` on an entry that differs sets `anyUpdate`. -/
theorem CK_snd_of_ne (x : Parameter τ) (st : (Nat → pdata) × Bool)
    (h : (st.1 x.param_id_in_scene).i ≠ x.val.i) : (CK x st).2 = true := by
  simp [CK, h]

/-- A use of `CK` on an entry that agrees changes nothing. -/
theorem CK_of_eq (x : Parameter τ) (st : (Nat → pdata) × Bool)
    (h : (st.1 x.param_id_in_scene).i = x.val.i) : CK x st = st := by
  simp [CK, h]

/-- After a use of `CK` the entry of its parameter holds the parameter's
value. -/
theorem CK_fst_self (x : Parameter τ) (st : (Nat → pdata) × Bool) :
    (CK x st).1 x.param_id_in_scene = ⟨x.val.i⟩ := by
  unfold CK
  split
  · simp
  · rename_i h
    simp only [ne_eq, Decidable.not_not] at h
    cases hv : st.1 x.param_id_in_scene
    simp [hv] at h
    simp [h]

/-- A use of `CK` leaves the entries of other ids alone. -/
theorem CK_fst_other (x : Parameter τ) (st : (Nat → pdata) × Bool) (j : Nat)
    (h : j ≠ x.param_id_in_scene) : (CK x st).1 j = st.1 j := by
  unfold CK
  split
  · simp [Function.update_apply, h]
  · rfl

/-- The four uses of `CK` report an update exactly when one of the four
entries differs from the value of its parameter. -/
theorem checkParams_snd (lfodata : LFOStorage τ) (tp : Nat → pdata) :
    (checkParams lfodata tp).2 =
      (decide ((tp lfodata.rate.param_id_in_scene).i ≠ lfodata.rate.val.i) ||
       decide ((tp lfodata.magnitude.param_id_in_scene).i ≠ lfodata.magnitude.val.i) ||
       decide ((tp lfodata.start_phase.param_id_in_scene).i ≠ lfodata.start_phase.val.i) ||
       decide ((tp lfodata.deform.param_id_in_scene).i ≠ lfodata.deform.val.i)) := by
  dsimp only [checkParams]
  by_cases h1 : (tp lfodata.rate.param_id_in_scene).i = lfodata.rate.val.i
  · rw [CK_of_eq lfodata.rate (tp, false) h1]
    by_cases h2 : (tp lfodata.magnitude.param_id_in_scene).i = lfodata.magnitude.val.i
    · rw [CK_of_eq lfodata.magnitude (tp, false) h2]
      by_cases h3 : (tp lfodata.start_phase.param_id_in_scene).i = lfodata.start_phase.val.i
      · rw [CK_of_eq lfodata.start_phase (tp, false) h3]
        by_cases h4 : (tp lfodata.deform.param_id_in_scene).i = lfodata.deform.val.i
        · rw [CK_of_eq lfodata.deform (tp, false) h4]; simp [h1, h2, h3, h4]
        · rw [CK_snd_of_ne lfodata.deform (tp, false) h4]; simp [h4]
      · rw [CK_snd_of_true _ _ (CK_snd_of_ne _ _ h3)]; simp [h3]
    · rw [CK_snd_of_true _ _ (CK_snd_of_true _ _ (CK_snd_of_ne _ _ h2))]; simp [h2]
  · rw [CK_snd_of_true _ _ (CK_snd_of_true _ _ (CK_snd_of_true _ _ (CK_snd_of_ne _ _ h1)))]
    simp [h1]

/-- When no entry differs the four uses of `CK` leave `tp` as it is. -/
theorem checkParams_fst_of_clean (lfodata : LFOStorage τ) (tp : Nat → pdata)
    (h : (checkParams lfodata tp).2 = false) : (checkParams lfodata tp).1 = tp := by
  rw [checkParams_snd] at h
  simp only [Bool.or_eq_false_iff, decide_eq_false_iff_not, ne_eq, Decidable.not_not] at h
  obtain ⟨⟨⟨h1, h2⟩, h3⟩, h4⟩ := h
  dsimp only [checkParams]
  rw [CK_of_eq lfodata.rate (tp, false) h1, CK_of_eq lfodata.magnitude (tp, false) h2,
    CK_of_eq lfodata.start_phase (tp, false) h3, CK_of_eq lfodata.deform (tp, false) h4]

/-- With distinct ids, after the four uses of `CK` each of the four entries
holds the value of its parameter. -/
theorem checkParams_fst (lfodata : LFOStorage τ) (tp : Nat → pdata)
    (hd : [lfodata.rate.param_id_in_scene, lfodata.magnitude.param_id_in_scene,
      lfodata.start_phase.param_id_in_scene, lfodata.deform.param_id_in_scene].Nodup) :
    (checkParams lfodata tp).1 lfodata.rate.param_id_in_scene = ⟨lfodata.rate.val.i⟩ ∧
    (checkParams lfodata tp).1 lfodata.magnitude.param_id_in_scene
      = ⟨lfodata.magnitude.val.i⟩ ∧
    (checkParams lfodata tp).1 lfodata.start_phase.param_id_in_scene
      = ⟨lfodata.start_phase.val.i⟩ ∧
    (checkParams lfodata tp).1 lfodata.deform.param_id_in_scene = ⟨lfodata.deform.val.i⟩ := by
  simp only [List.nodup_cons, List.mem_cons, List.mem_singleton, not_or, List.not_mem_nil,
    not_false_eq_true, List.nodup_nil, and_true] at hd
  obtain ⟨⟨h12, h13, h14⟩, ⟨h23, h24⟩, h34⟩ := hd
  dsimp only [checkParams]
  refine ⟨?_, ?_, ?_, ?_⟩
  · rw [CK_fst_other _ _ _ h14, CK_fst_other _ _ _ h13, CK_fst_other _ _ _ h12, CK_fst_self]
  · rw [CK_fst_other _ _ _ h24, CK_fst_other _ _ _ h23, CK_fst_self]
  · rw [CK_fst_other _ _ _ h34, CK_fst_self]
  · rw [CK_fst_self]

/-- The flag computed by the tempo test and the six uses of `CKENV`. -/
theorem checkEnvelope_snd (c : Collab τ) (lfodata : LFOStorage τ) (ratio : τ.Flt)
    (fs : EvaluatorState τ) (anyUpdate : Bool) :
    (checkEnvelope c lfodata ratio fs anyUpdate).2 =
      (anyUpdate || c.fne fs.tempo (c.times120 ratio) ||
        c.fne fs.del (c.value_to_normalized lfodata.delay (c.pdata_f lfodata.delay.val.i)) ||
        c.fne fs.a (c.value_to_normalized lfodata.attack (c.pdata_f lfodata.attack.val.i)) ||
        c.fne fs.h (c.value_to_normalized lfodata.hold (c.pdata_f lfodata.hold.val.i)) ||
        c.fne fs.dec (c.value_to_normalized lfodata.decay (c.pdata_f lfodata.decay.val.i)) ||
        c.fne fs.s (c.value_to_normalized lfodata.sustain (c.pdata_f lfodata.sustain.val.i)) ||
        c.fne fs.r (c.value_to_normalized lfodata.release (c.pdata_f lfodata.release.val.i))) := by
  simp only [checkEnvelope, CKENV]
  cases anyUpdate <;>
  cases c.fne fs.tempo (c.times120 ratio) <;>
  cases c.fne fs.del (c.value_to_normalized lfodata.delay (c.pdata_f lfodata.delay.val.i)) <;>
  cases c.fne fs.a (c.value_to_normalized lfodata.attack (c.pdata_f lfodata.attack.val.i)) <;>
  cases c.fne fs.h (c.value_to_normalized lfodata.hold (c.pdata_f lfodata.hold.val.i)) <;>
  cases c.fne fs.dec (c.value_to_normalized lfodata.decay (c.pdata_f lfodata.decay.val.i)) <;>
  cases c.fne fs.s (c.value_to_normalized lfodata.sustain (c.pdata_f lfodata.sustain.val.i)) <;>
  cases c.fne fs.r (c.value_to_normalized lfodata.release (c.pdata_f lfodata.release.val.i)) <;>
  simp

/-- The registers after the tempo test and the six uses of `CKENV`: each
envelope register holds the normalized value of its parameter when the two
differed and is unchanged otherwise; the tempo register is not assigned. -/
theorem checkEnvelope_fst (c : Collab τ) (lfodata : LFOStorage τ) (ratio : τ.Flt)
    (fs : EvaluatorState τ) (anyUpdate : Bool) :
    (checkEnvelope c lfodata ratio fs anyUpdate).1 = { fs with
      del := (CKENV c fs.del lfodata.delay false).1
      a := (CKENV c fs.a lfodata.attack false).1
      h := (CKENV c fs.h lfodata.hold false).1
      dec := (CKENV c fs.dec lfodata.decay false).1
      s := (CKENV c fs.s lfodata.sustain false).1
      r := (CKENV c fs.r lfodata.release false).1 } := by
  simp only [checkEnvelope, CKENV]
  congr 1 <;> split <;> rfl

/-- After a use of `CKENV`, under a comparison that never tells a value from
itself, the register does not differ from the normalized value. -/
theorem CKENV_fst_clean (c : Collab τ) (hrefl : ∀ x, c.fne x x = false) (tgt : τ.Flt)
    (y : Parameter τ) (b : Bool) :
    c.fne (CKENV c tgt y b).1 (c.value_to_normalized y (c.pdata_f y.val.i)) = false := by
  simp only [CKENV]
  split
  · exact hrefl _
  · rename_i h
    simpa using h

/-- A use of `CKENV` on a register that does not differ leaves it alone. -/
theorem CKENV_fst_of_clean (c : Collab τ) (tgt : τ.Flt) (y : Parameter τ) (b : Bool)
    (h : c.fne tgt (c.value_to_normalized y (c.pdata_f y.val.i)) = false) :
    (CKENV c tgt y b).1 = tgt := by
  simp [CKENV, h]

/-- The flag `anyUpdate` of `updateDebuggerIfNeeded` is the condition that
some tracked value differs from the snapshot. -/
theorem anyUpdate_eq_trackedValueDiffers (c : Collab τ) (e : FormulaModulatorEditor τ)
    (l : LFOModulationSource τ) :
    (checkEnvelope c e.derived.lfos e.storage.temposyncratio l.formulastate
      (checkParams e.derived.lfos e.derived.debugPanel.tp).2).2 = trackedValueDiffers c e l := by
  rw [checkEnvelope_snd, checkParams_snd]
  rfl

/-- The body of `updateDebuggerIfNeeded` when the panel is open and the
modulation source exists. -/
theorem updateDebuggerIfNeeded_open (c : Collab τ) (e : FormulaModulatorEditor τ)
    (l : LFOModulationSource τ) (ho : e.derived.debugPanel.isOpen = true)
    (hl : e.derived.debugPanel.lfoDebugger = some l) :
    updateDebuggerIfNeeded c e =
      if trackedValueDiffers c e l then
        (refreshDebuggerView c (afterChecks c e l)).bind
          (fun e2 => if e2.editor then some (withCounterAdvanced (e2.call .repaintFrame)) else none)
      else some (withCounterAdvanced (afterChecks c e l)) := by
  rw [← anyUpdate_eq_trackedValueDiffers]
  cases hany : (checkEnvelope c e.derived.lfos e.storage.temposyncratio l.formulastate
    (checkParams e.derived.lfos e.derived.debugPanel.tp).2).2
  · simp [updateDebuggerIfNeeded, ho, hl, hany, afterChecks, withCounterAdvanced]
  · simp only [updateDebuggerIfNeeded, ho, hl, hany, if_true, afterChecks]
    generalize refreshDebuggerView c _ = r
    cases r with
    | none => rfl
    | some e2 => cases h2 : e2.editor <;> simp [h2, withCounterAdvanced]

/-- When no tracked value differs the uses of `CK` and `CKENV` change
nothing. -/
theorem afterChecks_of_clean (c : Collab τ) (e : FormulaModulatorEditor τ)
    (l : LFOModulationSource τ) (hl : e.derived.debugPanel.lfoDebugger = some l)
    (hd : trackedValueDiffers c e l = false) : afterChecks c e l = e := by
  have hany := anyUpdate_eq_trackedValueDiffers c e l
  rw [hd] at hany
  have hp : (checkParams e.derived.lfos e.derived.debugPanel.tp).2 = false := by
    rw [checkEnvelope_snd] at hany
    simp only [Bool.or_eq_false_iff] at hany
    exact hany.1.1.1.1.1.1.1
  have htp := checkParams_fst_of_clean _ _ hp
  have hfs : (checkEnvelope c e.derived.lfos e.storage.temposyncratio l.formulastate
      (checkParams e.derived.lfos e.derived.debugPanel.tp).2).1 = l.formulastate := by
    rw [checkEnvelope_snd] at hany
    simp only [Bool.or_eq_false_iff] at hany
    obtain ⟨⟨⟨⟨⟨⟨⟨-, -⟩, h1⟩, h2⟩, h3⟩, h4⟩, h5⟩, h6⟩ := hany
    rw [checkEnvelope_fst, CKENV_fst_of_clean c _ _ _ h1, CKENV_fst_of_clean c _ _ _ h2,
      CKENV_fst_of_clean c _ _ _ h3, CKENV_fst_of_clean c _ _ _ h4,
      CKENV_fst_of_clean c _ _ _ h5, CKENV_fst_of_clean c _ _ _ h6]
  simp only [afterChecks, htp, hfs]
  rw [← hl]

/-- A call of `updateDebuggerIfNeeded` with the panel closed, or with no
tracked value differing, only advances the counter. -/
theorem updateDebuggerIfNeeded_of_clean (c : Collab τ) (e : FormulaModulatorEditor τ)
    (h : e.derived.debugPanel.isOpen = false ∨
      ∃ l, e.derived.debugPanel.lfoDebugger = some l ∧ trackedValueDiffers c e l = false) :
    updateDebuggerIfNeeded c e = some (withCounterAdvanced e) := by
  rcases h with h | ⟨l, hl, hd⟩
  · simp [updateDebuggerIfNeeded, h, withCounterAdvanced]
  · cases ho : e.derived.debugPanel.isOpen
    · simp [updateDebuggerIfNeeded, ho, withCounterAdvanced]
    · rw [updateDebuggerIfNeeded_open c e l ho hl, hd, afterChecks_of_clean c e l hl hd]
      simp

/-- A call of `updateDebuggerIfNeeded` with the panel open and a tracked value
differing: the snapshot is brought up to date, the view is refreshed once and
the frame is repainted. -/
theorem updateDebuggerIfNeeded_of_dirty (c : Collab τ) (e : FormulaModulatorEditor τ)
    (l : LFOModulationSource τ) (ho : e.derived.debugPanel.isOpen = true)
    (hl : e.derived.debugPanel.lfoDebugger = some l) (hed : e.editor = true)
    (hd : trackedValueDiffers c e l = true) :
    ∃ e2, refreshDebuggerView c (afterChecks c e l) = some e2 ∧
      updateDebuggerIfNeeded c e = some (withCounterAdvanced (e2.call .repaintFrame)) := by
  obtain ⟨e2, fs, h2, -, -, -, -, -, -, -, -, -, -, hed2⟩ :=
    refreshDebuggerView_spec c (afterChecks c e l) _ rfl
  refine ⟨e2, h2, ?_⟩
  rw [updateDebuggerIfNeeded_open c e l ho hl, hd, h2]
  have : e2.editor = true := by rw [hed2]; exact hed
  simp [this]

/-- The condition of the dirty check does not look at the counter. -/
theorem trackedValueDiffers_withCounterAdvanced (c : Collab τ) (e : FormulaModulatorEditor τ)
    (l : LFOModulationSource τ) :
    trackedValueDiffers c (withCounterAdvanced e) l = trackedValueDiffers c e l := rfl

/-- After a call of `updateDebuggerIfNeeded` that refreshed the view, no
tracked value differs from the snapshot, provided the four checked ids are
distinct, the evaluator leaves the tracked registers alone and the comparison
never tells a value from itself. -/
theorem trackedValueDiffers_after_refresh (c : Collab τ) (e e2 : FormulaModulatorEditor τ)
    (l : LFOModulationSource τ)
    (hd : [e.derived.lfos.rate.param_id_in_scene, e.derived.lfos.magnitude.param_id_in_scene,
      e.derived.lfos.start_phase.param_id_in_scene,
      e.derived.lfos.deform.param_id_in_scene].Nodup)
    (hsetup : ∀ s p sc, trackedRegisters (c.setupEvaluatorStateFrom s p sc) = trackedRegisters s)
    (hvalue : ∀ ip ph st f m s, trackedRegisters (c.valueAt ip ph st f m s) = trackedRegisters s)
    (hrefl : ∀ x, c.fne x x = false)
    (h2 : refreshDebuggerView c (afterChecks c e l) = some e2) :
    ∃ l', e2.derived.debugPanel.lfoDebugger = some l' ∧ trackedValueDiffers c e2 l' = false := by
  obtain ⟨e2', fs, h2', hfs, hl', -, htp, -, -, hlfos, -, -, hst, -⟩ :=
    refreshDebuggerView_spec c (afterChecks c e l) _ rfl
  rw [h2] at h2'
  cases h2'
  refine ⟨_, hl', ?_⟩
  obtain ⟨t1, t2, t3, t4⟩ := checkParams_fst e.derived.lfos e.derived.debugPanel.tp hd
  have hreg := (hvalue (c.getIntPhase l.more) (c.getPhase l.more) (afterChecks c e l).storage
    (afterChecks c e l).derived.formulastorage l.more
    (c.setupEvaluatorStateFrom fs (afterChecks c e l).storage.patch
      (afterChecks c e l).derived.scene)).trans
    (hsetup fs (afterChecks c e l).storage.patch (afterChecks c e l).derived.scene)
  simp only [trackedRegisters, List.cons.injEq, and_true] at hreg
  obtain ⟨r0, r1, r2, r3, r4, r5, r6⟩ := hreg
  have hfs' := checkEnvelope_fst c e.derived.lfos e.storage.temposyncratio l.formulastate
    (checkParams e.derived.lfos e.derived.debugPanel.tp).2
  simp only [trackedValueDiffers, htp, hlfos, hst]
  simp only [afterChecks, t1, t2, t3, t4, ne_eq, not_true_eq_false, decide_False, Bool.false_or]
  simp only [afterChecks] at r0 r1 r2 r3 r4 r5 r6
  rw [r0, r1, r2, r3, r4, r5, r6, hfs]
  simp only [afterChecks, hfs', hrefl, CKENV_fst_clean c hrefl, Bool.or_self]

/-- C9 (counterexample): with the panel closed `updateDebuggerIfNeeded` leaves
the snapshot as it is.  On the sample editor the panel is shown and hidden
again (which leaves a snapshot with rate 10), then the rate parameter is moved
to 99; after the call the `tp` entry of rate is still 10. -/
theorem C9_closed_panel_keeps_stale_snapshot :
    (((FormulaControlArea.valueChanged sampleCollab FormulaControlArea.tag_debugger_show 0
        (sampleFormulaEditor [] [])).bind
      (FormulaControlArea.valueChanged sampleCollab FormulaControlArea.tag_debugger_show 0)).bind
      (fun e => updateDebuggerIfNeeded sampleCollab (withLfos sampleLfosRateChanged e))).map
        (fun e => (e.derived.debugPanel.isOpen,
          (e.derived.debugPanel.tp e.derived.lfos.rate.param_id_in_scene).i,
          e.derived.lfos.rate.val.i)) = some (false, 10, 99) ∧
    (((FormulaControlArea.valueChanged sampleCollab FormulaControlArea.tag_debugger_show 0
        (sampleFormulaEditor [] [])).bind
      (FormulaControlArea.valueChanged sampleCollab FormulaControlArea.tag_debugger_show 0)).bind
      (fun e => updateDebuggerIfNeeded sampleCollab (withLfos sampleLfosRateChanged e))).map
        (fun e => decide ((e.derived.debugPanel.tp e.derived.lfos.rate.param_id_in_scene).i
          = e.derived.lfos.rate.val.i)) = some false := by
  constructor <;> decide

/-- C9 (amended): `updateDebuggerIfNeeded` refreshes the view (one `valueAt`
evaluation, no `process_block`) if and only if the panel is open and some
tracked value differs from the snapshot; otherwise it calls nothing.  The LFO
parameters and the storage are unchanged, and with the panel closed the
snapshot stays as it is.  Given distinct ids of the four checked parameters,
an evaluator that leaves the tracked registers alone and a comparison that
never tells a value from itself: after a call made with the panel open no
tracked value differs from the snapshot, and in both cases an immediately
following call performs no refresh and calls nothing. -/
theorem C9_dirty_check (c : Collab τ) (e : FormulaModulatorEditor τ)
    (l : LFOModulationSource τ) (hl : e.derived.debugPanel.lfoDebugger = some l)
    (hed : e.editor = true) :
    ∃ e' l', updateDebuggerIfNeeded c e = some e' ∧
      e'.derived.debugPanel.lfoDebugger = some l' ∧
      (∃ new, e'.log = e.log ++ new ∧ processBlockCalls new = 0 ∧
        (valueAtCalls new = 1 ↔
          (e.derived.debugPanel.isOpen = true ∧ trackedValueDiffers c e l = true)) ∧
        (¬ (e.derived.debugPanel.isOpen = true ∧ trackedValueDiffers c e l = true) → new = [])) ∧
      e'.derived.lfos = e.derived.lfos ∧ e'.storage = e.storage ∧
      e'.derived.debugPanel.isOpen = e.derived.debugPanel.isOpen ∧
      (e.derived.debugPanel.isOpen = false →
        e'.derived.debugPanel.tp = e.derived.debugPanel.tp ∧ l' = l) ∧
      ([e.derived.lfos.rate.param_id_in_scene, e.derived.lfos.magnitude.param_id_in_scene,
          e.derived.lfos.start_phase.param_id_in_scene,
          e.derived.lfos.deform.param_id_in_scene].Nodup →
        (∀ s p sc, trackedRegisters (c.setupEvaluatorStateFrom s p sc) = trackedRegisters s) →
        (∀ ip ph st f m s, trackedRegisters (c.valueAt ip ph st f m s) = trackedRegisters s) →
        (∀ x, c.fne x x = false) →
        (e.derived.debugPanel.isOpen = true → trackedValueDiffers c e' l' = false) ∧
        ∃ e2, updateDebuggerIfNeeded c e' = some e2 ∧ e2.log = e'.log) := by
  by_cases hdirty : e.derived.debugPanel.isOpen = true ∧ trackedValueDiffers c e l = true
  · obtain ⟨ho, hdf⟩ := hdirty
    obtain ⟨e2, h2, hu⟩ := updateDebuggerIfNeeded_of_dirty c e l ho hl hed hdf
    obtain ⟨e2', fs, h2', -, hl2, ⟨new, hnew, hpb, -, hva, -⟩, -, hop, -, hlfos, -, -, hst, -⟩ :=
      refreshDebuggerView_spec c (afterChecks c e l) _ rfl
    rw [h2] at h2'
    cases h2'
    have hop' : e2.derived.debugPanel.isOpen = true := by rw [hop]; exact ho
    refine ⟨_, _, hu, hl2, ⟨new ++ [Call.repaintFrame], ?_, ?_, ?_, ?_⟩, hlfos, hst, ?_, ?_, ?_⟩
    · simp only [withCounterAdvanced, call, hnew, List.append_assoc]
      rfl
    · simpa [processBlockCalls, Call.isProcessBlock] using hpb
    · simp only [ho, hdf, and_self, iff_true]
      simpa [valueAtCalls, Call.isValueAt] using hva
    · intro hneg
      exact absurd ⟨ho, hdf⟩ hneg
    · simpa [withCounterAdvanced, call, ho] using hop'
    · intro hcl
      rw [ho] at hcl
      exact absurd hcl (by decide)
    · intro hd hsetup hvalue hrefl
      obtain ⟨l', hl', hclean⟩ :=
        trackedValueDiffers_after_refresh c e e2 l hd hsetup hvalue hrefl h2
      rw [hl2] at hl'
      cases hl'
      exact ⟨fun _ => hclean,
        _, updateDebuggerIfNeeded_of_clean c _ (Or.inr ⟨_, hl2, hclean⟩), rfl⟩
  · have hclean : e.derived.debugPanel.isOpen = false ∨
        ∃ l, e.derived.debugPanel.lfoDebugger = some l ∧ trackedValueDiffers c e l = false := by
      cases ho : e.derived.debugPanel.isOpen
      · exact Or.inl rfl
      · refine Or.inr ⟨l, hl, ?_⟩
        cases hdf : trackedValueDiffers c e l
        · rfl
        · exact absurd ⟨ho, hdf⟩ hdirty
    have hu := updateDebuggerIfNeeded_of_clean c e hclean
    refine ⟨_, l, hu, hl, ⟨[], by simp [withCounterAdvanced], rfl, ?_, fun _ => rfl⟩, rfl, rfl,
      rfl, fun _ => ⟨rfl, rfl⟩, ?_⟩
    · constructor
      · intro h
        simp [valueAtCalls] at h
      · intro h
        exact absurd h hdirty
    · intro _ _ _ _
      refine ⟨?_, _, updateDebuggerIfNeeded_of_clean c _ ?_, rfl⟩
      · intro ho
        rcases hclean with hc | ⟨l0, hl0, hd0⟩
        · rw [ho] at hc
          exact absurd hc (by decide)
        · rw [hl] at hl0
          cases hl0
          exact hd0
      · rcases hclean with hc | ⟨l0, hl0, hd0⟩
        · exact Or.inl hc
        · exact Or.inr ⟨l0, hl0, hd0⟩

/-- C9 (witness): the amended statement at the sample editor with an open
debugger, where the rate parameter differs from its snapshot entry. -/
theorem C9_dirty_check_witness :
    (sampleOpenFormulaEditor [] []).derived.debugPanel.lfoDebugger = some sampleSource ∧
    (sampleOpenFormulaEditor [] []).editor = true ∧
    trackedValueDiffers sampleCollab (sampleOpenFormulaEditor [] []) sampleSource = true ∧
    ∃ e' l', updateDebuggerIfNeeded sampleCollab (sampleOpenFormulaEditor [] []) = some e' ∧
      e'.derived.debugPanel.lfoDebugger = some l' ∧
      trackedValueDiffers sampleCollab e' l' = false ∧
      ∃ e2, updateDebuggerIfNeeded sampleCollab e' = some e2 ∧ e2.log = e'.log := by
  refine ⟨rfl, rfl, by decide, ?_⟩
  obtain ⟨e', l', h1, h2, -, -, -, -, -, h8⟩ :=
    C9_dirty_check sampleCollab (sampleOpenFormulaEditor [] []) sampleSource rfl rfl
  obtain ⟨h9, h10⟩ := h8 (by decide) (fun _ _ _ => rfl) (fun _ _ _ _ _ _ => rfl)
    (fun x => by simp [sampleCollab])
  exact ⟨e', l', h1, h2, h9 rfl, h10⟩

end DirtyCheck

section ApplyCode

open CodeEditorContainerWithApply

variable {τ : Sorts} {D : Type}

/-- What the listener callbacks leave alone. -/
theorem codeDocumentTextInserted_frame [ApplyTarget D] (t : Text) (i : Int)
    (e : CodeEditorContainerWithApply τ D) :
    (codeDocumentTextInserted t i e).editor = e.editor ∧
    (codeDocumentTextInserted t i e).storage = e.storage ∧
    (codeDocumentTextInserted t i e).log = e.log ∧
    (codeDocumentTextInserted t i e).mainDocument = e.mainDocument ∧
    (codeDocumentTextInserted t i e).derived = ApplyTarget.setApplyEnabled true e.derived :=
  ⟨rfl, rfl, rfl, rfl, rfl⟩

/-- The frame of `replaceSection`: the GUI editor pointer, the storage and the
call log are untouched and the derived part is either untouched or has had
`setApplyEnabled(true)` applied. -/
theorem replaceSection_frame [ApplyTarget D]
    (hidem : ∀ d : D, ApplyTarget.setApplyEnabled true (ApplyTarget.setApplyEnabled true d)
      = ApplyTarget.setApplyEnabled true d)
    (a b : Nat) (t : Text) (e : CodeEditorContainerWithApply τ D) :
    (replaceSection a b t e).editor = e.editor ∧
    (replaceSection a b t e).storage = e.storage ∧
    (replaceSection a b t e).log = e.log ∧
    ((replaceSection a b t e).derived = e.derived ∨
      (replaceSection a b t e).derived = ApplyTarget.setApplyEnabled true e.derived) := by
  unfold replaceSection deleteSection insertText
  by_cases h1 : t.isEmpty = true <;> by_cases h2 : b ≤ a <;>
    simp [h1, h2, codeDocumentTextInserted, codeDocumentTextDeleted, hidem]

/-- The frame of one round of the loop of
`removeTrailingWhitespaceFromDocument`. -/
theorem removeTrailingWhitespaceLine_frame [ApplyTarget D]
    (hidem : ∀ d : D, ApplyTarget.setApplyEnabled true (ApplyTarget.setApplyEnabled true d)
      = ApplyTarget.setApplyEnabled true d)
    (caretLine : Nat) (st : CodeEditorContainerWithApply τ D × Nat) (i : Nat) :
    (removeTrailingWhitespaceLine caretLine st i).1.editor = st.1.editor ∧
    (removeTrailingWhitespaceLine caretLine st i).1.storage = st.1.storage ∧
    (removeTrailingWhitespaceLine caretLine st i).1.log = st.1.log ∧
    ((removeTrailingWhitespaceLine caretLine st i).1.derived = st.1.derived ∨
      (removeTrailingWhitespaceLine caretLine st i).1.derived
        = ApplyTarget.setApplyEnabled true st.1.derived) := by
  have hc : (∃ n, removeTrailingWhitespaceLine caretLine st i = (st.1, n)) ∨
      (∃ a b t n, removeTrailingWhitespaceLine caretLine st i
        = (replaceSection a b t st.1, n)) := by
    simp only [removeTrailingWhitespaceLine]
    split_ifs <;> first | exact Or.inl ⟨_, rfl⟩ | exact Or.inr ⟨_, _, _, _, rfl⟩
  rcases hc with ⟨n, hn⟩ | ⟨a, b, t, n, hn⟩
  · rw [hn]
    exact ⟨rfl, rfl, rfl, Or.inl rfl⟩
  · rw [hn]
    exact replaceSection_frame hidem a b t st.1

/-- The frame of the loop of `removeTrailingWhitespaceFromDocument`. -/
theorem removeTrailingWhitespaceLoop_frame [ApplyTarget D]
    (hidem : ∀ d : D, ApplyTarget.setApplyEnabled true (ApplyTarget.setApplyEnabled true d)
      = ApplyTarget.setApplyEnabled true d)
    (caretLine : Nat) (is : List Nat) (st : CodeEditorContainerWithApply τ D × Nat) :
    (is.foldl (removeTrailingWhitespaceLine caretLine) st).1.editor = st.1.editor ∧
    (is.foldl (removeTrailingWhitespaceLine caretLine) st).1.storage = st.1.storage ∧
    (is.foldl (removeTrailingWhitespaceLine caretLine) st).1.log = st.1.log ∧
    ((is.foldl (removeTrailingWhitespaceLine caretLine) st).1.derived = st.1.derived ∨
      (is.foldl (removeTrailingWhitespaceLine caretLine) st).1.derived
        = ApplyTarget.setApplyEnabled true st.1.derived) := by
  induction is generalizing st with
  | nil => exact ⟨rfl, rfl, rfl, Or.inl rfl⟩
  | cons i is ih =>
    obtain ⟨h1, h2, h3, h4⟩ := removeTrailingWhitespaceLine_frame hidem caretLine st i
    obtain ⟨k1, k2, k3, k4⟩ := ih (removeTrailingWhitespaceLine caretLine st i)
    simp only [List.foldl_cons]
    refine ⟨k1.trans h1, k2.trans h2, k3.trans h3, ?_⟩
    rcases k4 with k4 | k4 <;> rcases h4 with h4 | h4
    · exact Or.inl (k4.trans h4)
    · exact Or.inr (k4.trans h4)
    · exact Or.inr (k4.trans (by rw [h4]))
    · exact Or.inr (k4.trans (by rw [h4, hidem]))

/-- The frame of `removeTrailingWhitespaceFromDocument`: it touches the
document, the caret and, through the listener, the Apply controls only. -/
theorem removeTrailingWhitespaceFromDocument_frame [ApplyTarget D]
    (hidem : ∀ d : D, ApplyTarget.setApplyEnabled true (ApplyTarget.setApplyEnabled true d)
      = ApplyTarget.setApplyEnabled true d)
    (e : CodeEditorContainerWithApply τ D) :
    e.removeTrailingWhitespaceFromDocument.editor = e.editor ∧
    e.removeTrailingWhitespaceFromDocument.storage = e.storage ∧
    e.removeTrailingWhitespaceFromDocument.log = e.log ∧
    (e.removeTrailingWhitespaceFromDocument.derived = e.derived ∨
      e.removeTrailingWhitespaceFromDocument.derived
        = ApplyTarget.setApplyEnabled true e.derived) := by
  simp only [removeTrailingWhitespaceFromDocument]
  exact removeTrailingWhitespaceLoop_frame hidem _ _ (e, 0)

/-- The override of `setApplyEnabled` in the formula editor writes the enabled
flag of the Apply switch, when there is a control area, and nothing else. -/
theorem formula_setApplyEnabled_eq (b : Bool)
    (d : FormulaModulatorEditorPart τ) :
    ApplyTarget.setApplyEnabled b d
      = { d with controlArea := d.controlArea.map (fun ca => { ca with applyS_enabled := b }) } := by
  cases d with
  | mk _ _ _ _ _ _ _ ca _ => cases ca <;> rfl

/-- The override of `setApplyEnabled` in the wavetable editor writes the
enabled flag of the Apply switch, when there is a control area, and nothing
else. -/
theorem wavetable_setApplyEnabled_eq (b : Bool)
    (d : WavetableScriptEditorPart τ) :
    ApplyTarget.setApplyEnabled b d
      = { d with controlArea := d.controlArea.map (fun ca => { ca with applyS_enabled := b }) } := by
  cases d with
  | mk _ _ _ _ _ _ _ _ ca _ => cases ca <;> rfl

/-- Enabling Apply twice is enabling it once (formula editor). -/
theorem formula_setApplyEnabled_idem (b : Bool)
    (d : FormulaModulatorEditorPart τ) :
    ApplyTarget.setApplyEnabled b (ApplyTarget.setApplyEnabled b d)
      = ApplyTarget.setApplyEnabled b d := by
  cases d with
  | mk _ _ _ _ _ _ _ ca _ => cases ca <;> rfl

/-- Enabling Apply twice is enabling it once (wavetable editor). -/
theorem wavetable_setApplyEnabled_idem (b : Bool)
    (d : WavetableScriptEditorPart τ) :
    ApplyTarget.setApplyEnabled b (ApplyTarget.setApplyEnabled b d)
      = ApplyTarget.setApplyEnabled b d := by
  cases d with
  | mk _ _ _ _ _ _ _ _ ca _ => cases ca <;> rfl

/-- In the formula editor the removal of trailing whitespace leaves the
derived part as it is up to the enabled flag of the Apply switch. -/
theorem formula_removeTrailingWhitespace_derived (e : FormulaModulatorEditor τ) :
    ∃ ca', e.removeTrailingWhitespaceFromDocument.derived = { e.derived with controlArea := ca' } ∧
      (ca' = e.derived.controlArea ∨
        ca' = e.derived.controlArea.map (fun ca => { ca with applyS_enabled := true })) := by
  obtain ⟨-, -, -, h⟩ := removeTrailingWhitespaceFromDocument_frame
    (formula_setApplyEnabled_idem true) e
  rcases h with h | h
  · exact ⟨e.derived.controlArea, by rw [h], Or.inl rfl⟩
  · exact ⟨_, by rw [h, formula_setApplyEnabled_eq], Or.inr rfl⟩

/-- In the wavetable editor the removal of trailing whitespace leaves the
derived part as it is up to the enabled flag of the Apply switch. -/
theorem wavetable_removeTrailingWhitespace_derived (e : WavetableScriptEditor τ) :
    ∃ ca', e.removeTrailingWhitespaceFromDocument.derived = { e.derived with controlArea := ca' } ∧
      (ca' = e.derived.controlArea ∨
        ca' = e.derived.controlArea.map (fun ca => { ca with applyS_enabled := true })) := by
  obtain ⟨-, -, -, h⟩ := removeTrailingWhitespaceFromDocument_frame
    (wavetable_setApplyEnabled_idem true) e
  rcases h with h | h
  · exact ⟨e.derived.controlArea, by rw [h], Or.inl rfl⟩
  · exact ⟨_, by rw [h, wavetable_setApplyEnabled_eq], Or.inr rfl⟩

/-- The frame of `updateDebuggerIfNeeded`: with a GUI editor, and an
evaluation state whenever the panel is open, it succeeds and leaves the
document, the formula storage, the control area, the storage and the open flag
alone. -/
theorem updateDebuggerIfNeeded_frame (c : Collab τ)
    (e : FormulaModulatorEditor τ) (hed : e.editor = true)
    (hdbg : e.derived.debugPanel.isOpen = true → ∃ l, e.derived.debugPanel.lfoDebugger = some l) :
    ∃ e', FormulaModulatorEditor.updateDebuggerIfNeeded c e = some e' ∧
      e'.mainDocument = e.mainDocument ∧
      e'.derived.formulastorage = e.derived.formulastorage ∧
      e'.derived.controlArea = e.derived.controlArea ∧
      e'.storage = e.storage ∧
      e'.editor = e.editor ∧
      e'.derived.debugPanel.isOpen = e.derived.debugPanel.isOpen := by
  cases ho : e.derived.debugPanel.isOpen
  · exact ⟨_, updateDebuggerIfNeeded_of_clean c e (Or.inl ho),
      rfl, rfl, rfl, rfl, rfl, by simp [FormulaModulatorEditor.withCounterAdvanced, ho]⟩
  · obtain ⟨l, hl⟩ := hdbg ho
    cases hd : FormulaModulatorEditor.trackedValueDiffers c e l
    · exact ⟨_, updateDebuggerIfNeeded_of_clean c e (Or.inr ⟨l, hl, hd⟩),
        rfl, rfl, rfl, rfl, rfl, by simp [FormulaModulatorEditor.withCounterAdvanced, ho]⟩
    · obtain ⟨e2, h2, hu⟩ :=
        updateDebuggerIfNeeded_of_dirty c e l ho hl hed hd
      obtain ⟨e2', fs, h2', -, -, -, -, hop, hca, -, hfs, hdoc, hst, hed2⟩ :=
        refreshDebuggerView_spec c (FormulaModulatorEditor.afterChecks c e l) _ rfl
      rw [h2] at h2'
      cases h2'
      exact ⟨_, hu, hdoc, hfs, hca, hst, hed2, by
        simpa [FormulaModulatorEditor.withCounterAdvanced, call,
          FormulaModulatorEditor.afterChecks, ho] using hop⟩

/-- What `FormulaModulatorEditor::applyCode` does to the script, the document
and the Apply switch. -/
theorem formula_applyCode_spec (c : Collab τ) (e : FormulaModulatorEditor τ)
    (hed : e.editor = true)
    (hdbg : e.derived.debugPanel.isOpen = true → ∃ l, e.derived.debugPanel.lfoDebugger = some l) :
    ∃ e', FormulaModulatorEditor.applyCode c e = some e' ∧
      e'.derived.formulastorage.formulaString = e.removeTrailingWhitespaceFromDocument.mainDocument ∧
      e'.mainDocument = e.removeTrailingWhitespaceFromDocument.mainDocument ∧
      e'.derived.controlArea =
        e.derived.controlArea.map (fun ca => { ca with applyS_enabled := false }) ∧
      e'.storage.patch_isDirty = true := by
  obtain ⟨h1, h2, h3, -⟩ := removeTrailingWhitespaceFromDocument_frame
    (formula_setApplyEnabled_idem true) e
  obtain ⟨ca', hder, hca'⟩ := formula_removeTrailingWhitespace_derived e
  have hed0 : e.removeTrailingWhitespaceFromDocument.editor = true := by rw [h1]; exact hed
  obtain ⟨e', hu, hdoc, hfs, hca, hst, -, -⟩ :=
    updateDebuggerIfNeeded_frame c
      (FormulaModulatorEditor.storeFormula e.removeTrailingWhitespaceFromDocument)
      (by simpa [FormulaModulatorEditor.storeFormula, call] using hed0)
      (by simpa [FormulaModulatorEditor.storeFormula, call, hder] using hdbg)
  have hfin : FormulaModulatorEditor.finishApply e' =
      { e' with
        log := e'.log ++ [Call.repaintFrame,
          Call.copyTextToClipboard e'.derived.formulastorage.formulaString,
          Call.grabKeyboardFocus]
        derived := { e'.derived with controlArea :=
          (e'.derived.controlArea.map (fun ca => { ca with applyS_enabled := false })) } } := by
    simp [FormulaModulatorEditor.finishApply, call, FormulaModulatorEditor.setApplyEnabled,
      formula_setApplyEnabled_eq]
  refine ⟨FormulaModulatorEditor.finishApply e', ?_, ?_, ?_, ?_, ?_⟩
  · simp [FormulaModulatorEditor.applyCode, hed0, hu]
  · rw [hfin]
    simp only [hfs]
    rfl
  · rw [hfin]
    simp only [hdoc]
    rfl
  · rw [hfin]
    simp only [hca, FormulaModulatorEditor.storeFormula, call, hder]
    rcases hca' with hc | hc
    · rw [hc]
    · rw [hc]
      cases e.derived.controlArea <;> rfl
  · rw [hfin]
    simp only [hst]
    rfl

/-- The frame of `setupEvaluator`: with a control area it succeeds and touches
the evaluator and the call log only. -/
theorem setupEvaluator_frame (c : Collab τ) (e : WavetableScriptEditor τ)
    (ca : WavetableScriptControlArea) (hca : e.derived.controlArea = some ca) :
    ∃ e', WavetableScriptEditor.setupEvaluator c e = some e' ∧
      e'.mainDocument = e.mainDocument ∧
      e'.derived.osc = e.derived.osc ∧
      e'.derived.controlArea = e.derived.controlArea ∧
      e'.editor = e.editor ∧
      e'.storage = e.storage := by
  simp [WavetableScriptEditor.setupEvaluator, hca, call]

/-- The frame of `rerenderFromUIState`: with a control area it succeeds and
leaves the document, the oscillator storage, the control area, the storage
and the GUI editor pointer alone. -/
theorem rerenderFromUIState_frame (c : Collab τ)
    (e : WavetableScriptEditor τ) (ca : WavetableScriptControlArea)
    (hca : e.derived.controlArea = some ca) :
    ∃ e', WavetableScriptEditor.rerenderFromUIState c e = some e' ∧
      e'.mainDocument = e.mainDocument ∧
      e'.derived.osc = e.derived.osc ∧
      e'.derived.controlArea = e.derived.controlArea ∧
      e'.editor = e.editor ∧
      e'.storage = e.storage := by
  simp only [WavetableScriptEditor.rerenderFromUIState, hca]
  split
  · exact ⟨e, rfl, rfl, rfl, hca.symm ▸ rfl, rfl, rfl⟩
  · simp only [WavetableScriptEditor.setupEvaluator, hca, call]
    split
    · split <;> simp [hca]
    · simp [hca]

/-- What `WavetableScriptEditor::applyCode` does to the script, the settings,
the document and the Apply switch. -/
theorem wavetable_applyCode_spec (c : Collab τ) (e : WavetableScriptEditor τ)
    (ca : WavetableScriptControlArea) (hca : e.derived.controlArea = some ca)
    (hed : e.editor = true) :
    ∃ e', WavetableScriptEditor.applyCode c e = some e' ∧
      e'.derived.osc = { e.derived.osc with
        wavetable_formula := e.removeTrailingWhitespaceFromDocument.mainDocument
        wavetable_formula_res_base := ca.resolutionN
        wavetable_formula_nframes := ca.framesN } ∧
      e'.mainDocument = e.removeTrailingWhitespaceFromDocument.mainDocument ∧
      e'.derived.controlArea = some { ca with applyS_enabled := false } := by
  obtain ⟨h1, h2, h3, -⟩ := removeTrailingWhitespaceFromDocument_frame
    (wavetable_setApplyEnabled_idem true) e
  obtain ⟨ca', hder, hca'⟩ := wavetable_removeTrailingWhitespace_derived e
  have hed0 : e.removeTrailingWhitespaceFromDocument.editor = true := by rw [h1]; exact hed
  obtain ⟨ca0, hca0, hres, hfr, hoff⟩ : ∃ ca0,
      e.removeTrailingWhitespaceFromDocument.derived.controlArea = some ca0 ∧
      ca0.resolutionN = ca.resolutionN ∧ ca0.framesN = ca.framesN ∧
      ({ ca0 with applyS_enabled := false } : WavetableScriptControlArea)
        = { ca with applyS_enabled := false } := by
    rw [hder]
    rcases hca' with hc | hc
    · exact ⟨ca, by rw [hc, hca], rfl, rfl, rfl⟩
    · exact ⟨{ ca with applyS_enabled := true }, by rw [hc, hca]; rfl, rfl, rfl, rfl⟩
  have hosc0 : e.removeTrailingWhitespaceFromDocument.derived.osc = e.derived.osc := by
    rw [hder]
  obtain ⟨e1, hs1, hdoc1, hosc1, hca1, hed1, -⟩ :=
    setupEvaluator_frame c
      (WavetableScriptEditor.storeScript ca0 e.removeTrailingWhitespaceFromDocument) ca0
      (by simpa [WavetableScriptEditor.storeScript] using hca0)
  have hca1' : e1.derived.controlArea = some ca0 := by
    rw [hca1]; simpa [WavetableScriptEditor.storeScript] using hca0
  obtain ⟨e2, hs2, hdoc2, hosc2, hca2, hed2, -⟩ :=
    rerenderFromUIState_frame c e1 ca0 hca1'
  have hed2' : e2.editor = true := by
    rw [hed2, hed1]; simpa [WavetableScriptEditor.storeScript] using hed0
  obtain ⟨e3, hfin, he3⟩ : ∃ e3, WavetableScriptEditor.finishApply e2 = some e3 ∧ e3 =
      { e2 with
        log := e2.log ++ [Call.repaintFrame, Call.grabKeyboardFocus, Call.repaint]
        derived := { e2.derived with controlArea :=
          (e2.derived.controlArea.map (fun ca => { ca with applyS_enabled := false })) } } := by
    refine ⟨_, ?_, rfl⟩
    simp [WavetableScriptEditor.finishApply, call, WavetableScriptEditor.setApplyEnabled,
      wavetable_setApplyEnabled_eq, hed2']
  refine ⟨e3, ?_, ?_, ?_, ?_⟩
  · simp only [WavetableScriptEditor.applyCode, hca0, hs1, hs2]
    exact hfin
  · rw [he3]
    simp only [hosc2, hosc1, WavetableScriptEditor.storeScript, hosc0, hres, hfr]
  · rw [he3]
    simp only [hdoc2, hdoc1, WavetableScriptEditor.storeScript]
  · rw [he3]
    simp only [hca2, hca1', Option.map_some', hoff]

/-- C1: after `applyCode` the stored script equals the editor document as it
stands after the removal of trailing whitespace: in the wavetable editor
`wavetable_formula` is that text, `wavetable_formula_res_base` the resolution
field and `wavetable_formula_nframes` the frames field; in the formula editor
the formula string is that text. -/
theorem C1_applyCode_stores_document (c : Collab τ) (w : WavetableScriptEditor τ)
    (f : FormulaModulatorEditor τ) (ca : WavetableScriptControlArea)
    (hca : w.derived.controlArea = some ca) (hw : w.editor = true) (hf : f.editor = true)
    (hdbg : f.derived.debugPanel.isOpen = true → ∃ l, f.derived.debugPanel.lfoDebugger = some l) :
    (∃ w', WavetableScriptEditor.applyCode c w = some w' ∧
      w'.derived.osc.wavetable_formula = w.removeTrailingWhitespaceFromDocument.mainDocument ∧
      w'.derived.osc.wavetable_formula = w'.mainDocument ∧
      w'.derived.osc.wavetable_formula_res_base = ca.resolutionN ∧
      w'.derived.osc.wavetable_formula_nframes = ca.framesN ∧
      w'.derived.controlArea.map (fun a => (a.resolutionN, a.framesN))
        = some (ca.resolutionN, ca.framesN)) ∧
    (∃ f', FormulaModulatorEditor.applyCode c f = some f' ∧
      f'.derived.formulastorage.formulaString
        = f.removeTrailingWhitespaceFromDocument.mainDocument ∧
      f'.derived.formulastorage.formulaString = f'.mainDocument) := by
  obtain ⟨w', hw1, hw2, hw3, hw4⟩ := wavetable_applyCode_spec c w ca hca hw
  obtain ⟨f', hf1, hf2, hf3, -⟩ := formula_applyCode_spec c f hf hdbg
  refine ⟨⟨w', hw1, ?_, ?_, ?_, ?_, ?_⟩, ⟨f', hf1, hf2, ?_⟩⟩
  · rw [hw2]
  · rw [hw2, hw3]
  · rw [hw2]
  · rw [hw2]
  · rw [hw4]; rfl
  · rw [hf2, hf3]

/-- C1 (witness): the statement at the sample editors, whose documents end in
whitespace that the call removes. -/
theorem C1_applyCode_stores_document_witness :
    (sampleWavetableEditor ['x', ' ', '\n'] ['y']).derived.controlArea
      = some sampleWavetableControlArea ∧
    (sampleWavetableEditor ['x', ' ', '\n'] ['y']).editor = true ∧
    (sampleFormulaEditor ['x', ' ', '\n'] ['y']).editor = true ∧
    (∃ w', WavetableScriptEditor.applyCode sampleCollab
        (sampleWavetableEditor ['x', ' ', '\n'] ['y']) = some w' ∧
      w'.derived.osc.wavetable_formula = ['x', '\n'] ∧
      w'.derived.osc.wavetable_formula_res_base = 2 ∧
      w'.derived.osc.wavetable_formula_nframes = 10) ∧
    (∃ f', FormulaModulatorEditor.applyCode sampleCollab
        (sampleFormulaEditor ['x', ' ', '\n'] ['y']) = some f' ∧
      f'.derived.formulastorage.formulaString = ['x', '\n']) := by
  obtain ⟨⟨w', hw1, hw2, -, hw3, hw4, -⟩, ⟨f', hf1, hf2, -⟩⟩ :=
    C1_applyCode_stores_document sampleCollab (sampleWavetableEditor ['x', ' ', '\n'] ['y'])
      (sampleFormulaEditor ['x', ' ', '\n'] ['y']) sampleWavetableControlArea rfl rfl rfl
      (fun h => absurd h (by decide))
  refine ⟨rfl, rfl, rfl, ⟨w', hw1, ?_, hw3, hw4⟩, ⟨f', hf1, ?_⟩⟩
  · rw [hw2]; decide
  · rw [hf2]; decide

/-- C2: a text insertion or deletion in the main document, and a change of
the frames or the resolution number field, change nothing but the enabled
state of Apply: the listener callbacks enable the Apply button and the Apply
switch, the two `valueChanged` cases enable the Apply switch, and the stored
formula, the stored wavetable script and the stored resolution and frame count
stay as they are. -/
theorem C2_edits_only_enable_apply (c : Collab τ) (newText : Text) (i j : Int) (value : τ.Flt)
    (f : FormulaModulatorEditor τ) (w : WavetableScriptEditor τ)
    (ca : WavetableScriptControlArea) (hca : w.derived.controlArea = some ca) :
    (codeDocumentTextInserted newText i f = { f with
        applyButton_enabled := true
        derived := { f.derived with controlArea :=
          (f.derived.controlArea.map (fun a => { a with applyS_enabled := true })) } } ∧
      codeDocumentTextDeleted i j f = codeDocumentTextInserted newText i f ∧
      (codeDocumentTextInserted newText i f).derived.formulastorage = f.derived.formulastorage) ∧
    (codeDocumentTextInserted newText i w = { w with
        applyButton_enabled := true
        derived := { w.derived with controlArea := some { ca with applyS_enabled := true } } } ∧
      codeDocumentTextDeleted i j w = codeDocumentTextInserted newText i w ∧
      (codeDocumentTextInserted newText i w).derived.osc = w.derived.osc) ∧
    (WavetableScriptControlArea.valueChanged c WavetableScriptControlArea.tag_frames_value value w
        = some { w with
            derived := { w.derived with controlArea := some { ca with applyS_enabled := true } } } ∧
      WavetableScriptControlArea.valueChanged c WavetableScriptControlArea.tag_res_value value w
        = WavetableScriptControlArea.valueChanged c WavetableScriptControlArea.tag_frames_value
            value w) := by
  refine ⟨⟨?_, rfl, ?_⟩, ⟨?_, rfl, ?_⟩, ?_, ?_⟩
  · simp [codeDocumentTextInserted, formula_setApplyEnabled_eq]
  · simp [codeDocumentTextInserted, formula_setApplyEnabled_eq]
  · simp [codeDocumentTextInserted, wavetable_setApplyEnabled_eq, hca]
  · simp [codeDocumentTextInserted, wavetable_setApplyEnabled_eq]
  · simp [WavetableScriptControlArea.valueChanged, hca,
      WavetableScriptControlArea.tag_frames_value, WavetableScriptControlArea.tag_select_tab,
      WavetableScriptControlArea.tag_code_apply, WavetableScriptControlArea.tag_current_frame,
      WavetableScriptEditor.setApplyEnabled, wavetable_setApplyEnabled_eq]
  · simp [WavetableScriptControlArea.valueChanged, hca,
      WavetableScriptControlArea.tag_frames_value, WavetableScriptControlArea.tag_select_tab,
      WavetableScriptControlArea.tag_code_apply, WavetableScriptControlArea.tag_current_frame,
      WavetableScriptControlArea.tag_res_value]

/-- C2 (witness): the statement at the sample editors: after a change of the
frames field the stored frame count is still 100 and Apply is enabled. -/
theorem C2_edits_only_enable_apply_witness :
    (sampleWavetableEditor ['x'] ['y']).derived.controlArea = some sampleWavetableControlArea ∧
    (WavetableScriptControlArea.valueChanged sampleCollab
        WavetableScriptControlArea.tag_frames_value 0 (sampleWavetableEditor ['x'] ['y'])).map
      (fun e => (e.derived.osc.wavetable_formula, e.derived.osc.wavetable_formula_nframes,
        e.derived.controlArea.map (fun a => a.applyS_enabled)))
      = some (['y'], 100, some true) := by
  refine ⟨rfl, ?_⟩
  rw [(C2_edits_only_enable_apply sampleCollab [] 0 0 0 (sampleFormulaEditor ['x'] ['y'])
    (sampleWavetableEditor ['x'] ['y']) sampleWavetableControlArea rfl).2.2.1]
  rfl

/-- C4: a successful Apply clears the dirty flag.  After `applyCode` (also
when the removal of trailing whitespace edits the document, and so enables
Apply, during the call) the Apply switch is disabled and
`getPreCloseChickenBoxMessage` returns no message; and in every state with a
control area `getPreCloseChickenBoxMessage` returns a message if and only if
the Apply switch is enabled. -/
theorem C4_apply_clears_dirty_flag (c : Collab τ) (w : WavetableScriptEditor τ)
    (f : FormulaModulatorEditor τ) (wca : WavetableScriptControlArea)
    (fca : FormulaControlArea)
    (hwca : w.derived.controlArea = some wca) (hfca : f.derived.controlArea = some fca)
    (hw : w.editor = true) (hf : f.editor = true)
    (hdbg : f.derived.debugPanel.isOpen = true → ∃ l, f.derived.debugPanel.lfoDebugger = some l) :
    (∃ w', WavetableScriptEditor.applyCode c w = some w' ∧
      w'.derived.controlArea.map (fun a => a.applyS_enabled) = some false ∧
      WavetableScriptEditor.getPreCloseChickenBoxMessage w' = some none) ∧
    (∃ f', FormulaModulatorEditor.applyCode c f = some f' ∧
      f'.derived.controlArea.map (fun a => a.applyS_enabled) = some false ∧
      FormulaModulatorEditor.getPreCloseChickenBoxMessage f' = some none) ∧
    (∀ (e : WavetableScriptEditor τ) (a : WavetableScriptControlArea),
      e.derived.controlArea = some a →
      ((∃ m, WavetableScriptEditor.getPreCloseChickenBoxMessage e = some (some m)) ↔
        a.applyS_enabled = true)) ∧
    (∀ (e : FormulaModulatorEditor τ) (a : FormulaControlArea),
      e.derived.controlArea = some a →
      ((∃ m, FormulaModulatorEditor.getPreCloseChickenBoxMessage e = some (some m)) ↔
        a.applyS_enabled = true)) := by
  obtain ⟨w', hw1, -, -, hw4⟩ := wavetable_applyCode_spec c w wca hwca hw
  obtain ⟨f', hf1, -, -, hf4, -⟩ := formula_applyCode_spec c f hf hdbg
  rw [hfca] at hf4
  refine ⟨⟨w', hw1, ?_, ?_⟩, ⟨f', hf1, ?_, ?_⟩, ?_, ?_⟩
  · rw [hw4]; rfl
  · simp [WavetableScriptEditor.getPreCloseChickenBoxMessage, hw4]
  · rw [hf4]; rfl
  · simp [FormulaModulatorEditor.getPreCloseChickenBoxMessage, hf4]
  · intro e a ha
    cases hb : a.applyS_enabled <;>
      simp [WavetableScriptEditor.getPreCloseChickenBoxMessage, ha, hb]
  · intro e a ha
    cases hb : a.applyS_enabled <;>
      simp [FormulaModulatorEditor.getPreCloseChickenBoxMessage, ha, hb]

/-- C4 (witness): the statement at the sample editors with documents that end
in whitespace: the removal enables Apply during the call, and Apply is disabled
when the call returns. -/
theorem C4_apply_clears_dirty_flag_witness :
    (removeTrailingWhitespaceFromDocument
      (sampleWavetableEditor ['x', ' ', '\n'] ['y'])).derived.controlArea.map
        (fun a => a.applyS_enabled) = some true ∧
    (removeTrailingWhitespaceFromDocument
      (sampleFormulaEditor ['x', ' ', '\n'] ['y'])).derived.controlArea.map
        (fun a => a.applyS_enabled) = some true ∧
    (∃ w', WavetableScriptEditor.applyCode sampleCollab
        (sampleWavetableEditor ['x', ' ', '\n'] ['y']) = some w' ∧
      WavetableScriptEditor.getPreCloseChickenBoxMessage w' = some none) ∧
    (∃ f', FormulaModulatorEditor.applyCode sampleCollab
        (sampleFormulaEditor ['x', ' ', '\n'] ['y']) = some f' ∧
      FormulaModulatorEditor.getPreCloseChickenBoxMessage f' = some none) := by
  obtain ⟨⟨w', hw1, -, hw3⟩, ⟨f', hf1, -, hf3⟩, -⟩ :=
    C4_apply_clears_dirty_flag sampleCollab (sampleWavetableEditor ['x', ' ', '\n'] ['y'])
      (sampleFormulaEditor ['x', ' ', '\n'] ['y']) sampleWavetableControlArea
      sampleFormulaControlArea rfl rfl rfl rfl (fun h => absurd h (by decide))
  exact ⟨by decide, by decide, ⟨w', hw1, hw3⟩, ⟨f', hf1, hf3⟩⟩

end ApplyCode

section Preview

open CodeEditorContainerWithApply WavetablePreviewComponent

variable {τ : Sorts}

/-- The log and the evaluator after `setupEvaluator`. -/
theorem setupEvaluator_spec (c : Collab τ) (e : WavetableScriptEditor τ)
    (ca : WavetableScriptControlArea) (hca : e.derived.controlArea = some ca) :
    ∃ e', WavetableScriptEditor.setupEvaluator c e = some e' ∧
      e'.log = e.log ++ [Call.setStorage, Call.setScript e.mainDocument,
        Call.setResolution (WavetableScriptEditor.respt ca.resolutionN),
        Call.setFrameCount ca.framesN] ∧
      e'.derived.evaluator = WavetableScriptEditor.configured c e ca ∧
      e'.derived.rendererComponent = e.derived.rendererComponent ∧
      e'.derived.osc = e.derived.osc ∧
      e'.derived.controlArea = e.derived.controlArea ∧
      e'.editor = e.editor := by
  simp [WavetableScriptEditor.setupEvaluator, hca, call, WavetableScriptEditor.configured]

/-- A call of `rerenderFromUIState` whose UI values equal those of the last
render changes nothing. -/
theorem rerenderFromUIState_suppressed (c : Collab τ) (e : WavetableScriptEditor τ)
    (ca : WavetableScriptControlArea) (hca : e.derived.controlArea = some ca)
    (hmode : ca.renderModeS = 0 ∨ ca.renderModeS = 1)
    (hrm : ca.renderModeS = e.derived.lastRm) (hres : ca.resolutionN = e.derived.lastRes)
    (hfr : ca.framesN = e.derived.lastFrames)
    (hcfr : ca.renderModeS = 0 → e.derived.rendererComponent.frameNumber = e.derived.lastFrame) :
    WavetableScriptEditor.rerenderFromUIState c e = some e := by
  simp only [WavetableScriptEditor.rerenderFromUIState, hca]
  rw [if_pos]
  refine ⟨hrm, ?_⟩
  rcases hmode with h | h
  · exact Or.inl ⟨h, hres, hfr, hcfr h⟩
  · exact Or.inr ⟨h, hres, hfr⟩

/-- A call of `rerenderFromUIState` that renders in single-frame mode. -/
theorem rerenderFromUIState_single (c : Collab τ) (e : WavetableScriptEditor τ)
    (ca : WavetableScriptControlArea) (hca : e.derived.controlArea = some ca)
    (hrm : ca.renderModeS = 0)
    (hnew : ¬ (ca.renderModeS = e.derived.lastRm ∧ ca.resolutionN = e.derived.lastRes ∧
      ca.framesN = e.derived.lastFrames ∧
      e.derived.rendererComponent.frameNumber = e.derived.lastFrame)) :
    ∃ e', WavetableScriptEditor.rerenderFromUIState c e = some e' ∧
      e'.log = e.log ++ [Call.setStorage, Call.setScript e.mainDocument,
        Call.setResolution (WavetableScriptEditor.respt ca.resolutionN),
        Call.setFrameCount ca.framesN,
        Call.getFrame e.derived.rendererComponent.frameNumber, Call.repaint] ∧
      e'.derived.evaluator = (c.wt_getFrame e.derived.rendererComponent.frameNumber
        (WavetableScriptEditor.configured c e ca)).2 ∧
      e'.derived.rendererComponent = { e.derived.rendererComponent with
        points := ((c.wt_getFrame e.derived.rendererComponent.frameNumber
          (WavetableScriptEditor.configured c e ca)).1.getD []) } ∧
      e'.derived.lastRm = ca.renderModeS ∧ e'.derived.lastRes = ca.resolutionN ∧
      e'.derived.lastFrames = ca.framesN ∧
      e'.derived.lastFrame = e.derived.rendererComponent.frameNumber ∧
      e'.derived.controlArea = e.derived.controlArea := by
  have hcond : ¬ (ca.renderModeS = e.derived.lastRm ∧
      ((ca.renderModeS = 0 ∧ ca.resolutionN = e.derived.lastRes ∧
          ca.framesN = e.derived.lastFrames ∧
          e.derived.rendererComponent.frameNumber = e.derived.lastFrame) ∨
        (ca.renderModeS = 1 ∧ ca.resolutionN = e.derived.lastRes ∧
          ca.framesN = e.derived.lastFrames))) := by
    rintro ⟨h1, h2 | h2⟩
    · exact hnew ⟨h1, h2.2.1, h2.2.2.1, h2.2.2.2⟩
    · rw [hrm] at h2
      exact absurd h2.1 (by decide)
  simp only [WavetableScriptEditor.rerenderFromUIState, hca, if_neg hcond]
  simp only [WavetableScriptEditor.setupEvaluator, hca, call, hrm, if_true,
    WavetableScriptEditor.configured]
  cases hg : (c.wt_getFrame e.derived.rendererComponent.frameNumber
    (c.wt_setFrameCount ca.framesN (c.wt_setResolution
      (WavetableScriptEditor.respt ca.resolutionN)
      (c.wt_setScript e.mainDocument (c.wt_setStorage e.storage e.derived.evaluator))))).1 <;>
    simp [hg, hca]

/-- A call of `rerenderFromUIState` that renders in a mode other than
single-frame mode. -/
theorem rerenderFromUIState_filmstrip (c : Collab τ) (e : WavetableScriptEditor τ)
    (ca : WavetableScriptControlArea) (hca : e.derived.controlArea = some ca)
    (hrm : ca.renderModeS ≠ 0)
    (hnew : ¬ (ca.renderModeS = 1 ∧ ca.renderModeS = e.derived.lastRm ∧
      ca.resolutionN = e.derived.lastRes ∧ ca.framesN = e.derived.lastFrames)) :
    ∃ e', WavetableScriptEditor.rerenderFromUIState c e = some e' ∧
      e'.log = e.log ++ [Call.setStorage, Call.setScript e.mainDocument,
        Call.setResolution (WavetableScriptEditor.respt ca.resolutionN),
        Call.setFrameCount ca.framesN, Call.repaint] ∧
      e'.derived.evaluator = WavetableScriptEditor.configured c e ca ∧
      e'.derived.rendererComponent =
        ({ e.derived.rendererComponent with frameCount := ca.framesN }).adjustStartX 0 ∧
      e'.derived.lastRm = ca.renderModeS ∧ e'.derived.lastRes = ca.resolutionN ∧
      e'.derived.lastFrames = ca.framesN ∧
      e'.derived.lastFrame = e.derived.rendererComponent.frameNumber ∧
      e'.derived.controlArea = e.derived.controlArea := by
  have hcond : ¬ (ca.renderModeS = e.derived.lastRm ∧
      ((ca.renderModeS = 0 ∧ ca.resolutionN = e.derived.lastRes ∧
          ca.framesN = e.derived.lastFrames ∧
          e.derived.rendererComponent.frameNumber = e.derived.lastFrame) ∨
        (ca.renderModeS = 1 ∧ ca.resolutionN = e.derived.lastRes ∧
          ca.framesN = e.derived.lastFrames))) := by
    rintro ⟨h1, h2 | h2⟩
    · exact hrm h2.1
    · exact hnew ⟨h2.1, h1, h2.2.1, h2.2.2⟩
  simp only [WavetableScriptEditor.rerenderFromUIState, hca, if_neg hcond]
  simp [WavetableScriptEditor.setupEvaluator, hca, call, hrm,
    WavetableScriptEditor.configured]

/-- One round of the filmstrip loop advances `xpos` by one tile, whatever the
evaluator returns. -/
theorem paintTile_fst {E : Type} (getFrame : Int → E → Option (List τ.Flt) × E)
    (r : WavetablePreviewComponent τ) (st : Int × E × List (Draw τ)) (idx : Nat) :
    (paintTile getFrame r st idx).1 = st.1 + (r.height + fsGap) := by
  unfold paintTile
  dsimp only
  split_ifs
  · rfl
  · cases (getFrame (↑idx) st.2.1).1 <;> rfl

/-- One round of the filmstrip loop for a tile whose frame is absent issues no
curve. -/
theorem paintTile_absent {E : Type} (getFrame : Int → E → Option (List τ.Flt) × E)
    (r : WavetablePreviewComponent τ) (st : Int × E × List (Draw τ)) (idx : Nat)
    (hnone : (getFrame idx st.2.1).1 = none) :
    (paintTile getFrame r st idx).2.2 = st.2.2 ∨
      (paintTile getFrame r st idx).2.2 = st.2.2 ++ [Draw.fillRect (st.1 + axisSpaceX) idx] := by
  unfold paintTile
  dsimp only
  split_ifs
  · exact Or.inl rfl
  · rw [hnone]
    exact Or.inr rfl

/-- The x position after the first `n` tiles of the filmstrip. -/
theorem paintTiles_fst {E : Type} (getFrame : Int → E → Option (List τ.Flt) × E)
    (r : WavetablePreviewComponent τ) (ev : E) (n : Nat) :
    (paintTiles getFrame r ev n).1 = r.startX + n * (r.height + fsGap) := by
  induction n with
  | zero => simp [paintTiles]
  | succ n ih =>
    unfold paintTiles at ih ⊢
    rw [List.range_succ, List.foldl_append, List.foldl_cons, List.foldl_nil, paintTile_fst, ih]
    push_cast
    ring

/-- The loop over `n + 1` tiles is the loop over `n` tiles followed by the
round for tile `n`. -/
theorem paintTiles_succ {E : Type} (getFrame : Int → E → Option (List τ.Flt) × E)
    (r : WavetablePreviewComponent τ) (ev : E) (n : Nat) :
    paintTiles getFrame r ev (n + 1) = paintTile getFrame r (paintTiles getFrame r ev n) n := by
  unfold paintTiles
  rw [List.range_succ, List.foldl_append, List.foldl_cons, List.foldl_nil]

/-- C11: an absent frame means nothing to draw.  When `rerenderFromUIState`
renders in single-frame mode, the points of the preview become empty if the
evaluator returns no frame (nothing of the earlier frame remains, and `paint`
then issues no curve) and become the returned sequence otherwise.  In the
filmstrip loop a tile whose frame is absent gets at most its background
rectangle, no curve, and `xpos` still advances by one tile, so that after `n`
tiles `xpos` is `startX + n * (height + fsGap)` whatever the evaluator
returned. -/
theorem C11_absent_frame_draws_nothing (c : Collab τ) (e : WavetableScriptEditor τ)
    (ca : WavetableScriptControlArea) (hca : e.derived.controlArea = some ca)
    (hrm : ca.renderModeS = 0)
    (hnew : ¬ (ca.renderModeS = e.derived.lastRm ∧ ca.resolutionN = e.derived.lastRes ∧
      ca.framesN = e.derived.lastFrames ∧
      e.derived.rendererComponent.frameNumber = e.derived.lastFrame)) :
    (∃ e', WavetableScriptEditor.rerenderFromUIState c e = some e' ∧
      ((c.wt_getFrame e.derived.rendererComponent.frameNumber
          (WavetableScriptEditor.configured c e ca)).1 = none →
        e'.derived.rendererComponent.points = [] ∧
        (paintSingleFrame e'.derived.rendererComponent).countP Draw.isCurve = 0) ∧
      (∀ pts, (c.wt_getFrame e.derived.rendererComponent.frameNumber
          (WavetableScriptEditor.configured c e ca)).1 = some pts →
        e'.derived.rendererComponent.points = pts)) ∧
    (∀ (E : Type) (getFrame : Int → E → Option (List τ.Flt) × E)
        (r : WavetablePreviewComponent τ) (st : Int × E × List (Draw τ)) (idx : Nat),
      (getFrame idx st.2.1).1 = none →
        (paintTile getFrame r st idx).1 = st.1 + (r.height + fsGap) ∧
        (paintTile getFrame r st idx).2.2.countP Draw.isCurve = st.2.2.countP Draw.isCurve ∧
        ((paintTile getFrame r st idx).2.2 = st.2.2 ∨
          (paintTile getFrame r st idx).2.2 =
            st.2.2 ++ [Draw.fillRect (st.1 + axisSpaceX) idx])) ∧
    (∀ (E : Type) (getFrame : Int → E → Option (List τ.Flt) × E)
        (r : WavetablePreviewComponent τ) (ev : E) (n : Nat),
      (paintTiles getFrame r ev n).1 = r.startX + n * (r.height + fsGap)) := by
  refine ⟨?_, ?_, ?_⟩
  · obtain ⟨e', he', -, -, hr, -⟩ := rerenderFromUIState_single c e ca hca hrm hnew
    refine ⟨e', he', ?_, ?_⟩
    · intro hnone
      rw [hr, hnone]
      simp [paintSingleFrame, Draw.isCurve]
    · intro pts hpts
      rw [hr, hpts]
      rfl
  · intro E getFrame r st idx hnone
    refine ⟨paintTile_fst getFrame r st idx, ?_, paintTile_absent getFrame r st idx hnone⟩
    rcases paintTile_absent getFrame r st idx hnone with h | h
    · rw [h]
    · rw [h]
      simp [Draw.isCurve]
  · intro E getFrame r ev n
    exact paintTiles_fst getFrame r ev n

/-- Witness of C11: the sample editor with the script `(`, for which the sample
evaluator yields no frame; the two points shown before are gone. -/
theorem C11_absent_frame_draws_nothing_witness :
    (sampleWavetableEditor ['('] []).derived.rendererComponent.points = [1, 2] ∧
    ∃ e', WavetableScriptEditor.rerenderFromUIState sampleCollab
        (sampleWavetableEditor ['('] []) = some e' ∧
      e'.derived.rendererComponent.points = [] ∧
      (paintSingleFrame e'.derived.rendererComponent).countP Draw.isCurve = 0 :=
  ⟨rfl, by
    obtain ⟨⟨e', h1, h2, -⟩, -⟩ := C11_absent_frame_draws_nothing sampleCollab
      (sampleWavetableEditor ['('] []) sampleWavetableControlArea rfl rfl (by decide)
    exact ⟨e', h1, h2 rfl⟩⟩

end Preview

section Generate

open CodeEditorContainerWithApply WavetablePreviewComponent

variable {τ : Sorts}

/-- The value of `respt`: 32 doubled `resi - 1` times. -/
theorem respt_eq (resi : Int) :
    WavetableScriptEditor.respt resi = 32 * 2 ^ (resi - 1).toNat := by
  unfold WavetableScriptEditor.respt
  generalize (resi - 1).toNat = n
  induction n with
  | zero => simp
  | succ n ih =>
    rw [Function.iterate_succ_apply', ih, pow_succ]
    ring

/-- The value of `respt` for a resolution field of at most 1: the loop body
never runs. -/
theorem respt_of_le_one (resi : Int) (h : resi ≤ 1) :
    WavetableScriptEditor.respt resi = 32 := by
  unfold WavetableScriptEditor.respt
  have : (resi - 1).toNat = 0 := by omega
  rw [this]
  rfl

/-- The calls, the evaluator, the wavetable and the display name after
`generateWavetable`. -/
theorem generateWavetable_spec (c : Collab τ) (e : WavetableScriptEditor τ)
    (ca : WavetableScriptControlArea) (hca : e.derived.controlArea = some ca)
    (hed : e.editor = true) :
    ∃ e', WavetableScriptEditor.generateWavetable c e = some e' ∧
      e'.log = e.log ++ [Call.setStorage, Call.setScript e.mainDocument,
        Call.setResolution (WavetableScriptEditor.respt ca.resolutionN),
        Call.setFrameCount ca.framesN, Call.populateWavetable, Call.lock, Call.BuildWT,
        Call.getSuggestedWavetableName, Call.unlock, Call.deleteArray,
        Call.repaintForceForWT, Call.repaintFrame] ∧
      e'.derived.evaluator =
        (c.wt_populateWavetable (WavetableScriptEditor.configured c e ca)).2 ∧
      e'.derived.osc.wt =
        c.BuildWT (c.wt_populateWavetable (WavetableScriptEditor.configured c e ca)).1
          e.derived.osc.wt ∧
      e'.derived.osc.wavetable_display_name = c.wt_getSuggestedWavetableName
        (c.wt_populateWavetable (WavetableScriptEditor.configured c e ca)).2 := by
  simp [WavetableScriptEditor.generateWavetable, WavetableScriptEditor.setupEvaluator, hca, call,
    hed, WavetableScriptEditor.configured]

/-- C12: preview and Generate evaluate under the same configuration.
`setupEvaluator` sets the script to the document text, the resolution to
`respt` of the resolution field and the frame count to the frames field; a
rendering `rerenderFromUIState` applies `getFrame` (single-frame mode) or
leaves to `paint` (filmstrip mode) the evaluator so configured, and
`generateWavetable` applies `populateWavetable` to the same configured
evaluator.  The resolution is `32 * 2^(resi-1)` for `1 <= resi <= 26` (below
`2^31`) and 32 for `resi <= 1`, and the local variables `respt` of the two
callers have that same value. -/
theorem C12_preview_and_generate_same_configuration (c : Collab τ)
    (e : WavetableScriptEditor τ) (ca : WavetableScriptControlArea)
    (hca : e.derived.controlArea = some ca) (hed : e.editor = true) :
    (∃ e1, WavetableScriptEditor.setupEvaluator c e = some e1 ∧
      e1.log = e.log ++ [Call.setStorage, Call.setScript e.mainDocument,
        Call.setResolution (WavetableScriptEditor.respt ca.resolutionN),
        Call.setFrameCount ca.framesN] ∧
      e1.derived.evaluator = WavetableScriptEditor.configured c e ca) ∧
    (ca.renderModeS = 0 →
      ¬ (ca.renderModeS = e.derived.lastRm ∧ ca.resolutionN = e.derived.lastRes ∧
        ca.framesN = e.derived.lastFrames ∧
        e.derived.rendererComponent.frameNumber = e.derived.lastFrame) →
      ∃ e2, WavetableScriptEditor.rerenderFromUIState c e = some e2 ∧
        e2.log = e.log ++ [Call.setStorage, Call.setScript e.mainDocument,
          Call.setResolution (WavetableScriptEditor.respt ca.resolutionN),
          Call.setFrameCount ca.framesN,
          Call.getFrame e.derived.rendererComponent.frameNumber, Call.repaint] ∧
        e2.derived.rendererComponent.points =
          (c.wt_getFrame e.derived.rendererComponent.frameNumber
            (WavetableScriptEditor.configured c e ca)).1.getD []) ∧
    (ca.renderModeS ≠ 0 →
      ¬ (ca.renderModeS = 1 ∧ ca.renderModeS = e.derived.lastRm ∧
        ca.resolutionN = e.derived.lastRes ∧ ca.framesN = e.derived.lastFrames) →
      ∃ e2, WavetableScriptEditor.rerenderFromUIState c e = some e2 ∧
        e2.log = e.log ++ [Call.setStorage, Call.setScript e.mainDocument,
          Call.setResolution (WavetableScriptEditor.respt ca.resolutionN),
          Call.setFrameCount ca.framesN, Call.repaint] ∧
        e2.derived.evaluator = WavetableScriptEditor.configured c e ca) ∧
    (∃ e3, WavetableScriptEditor.generateWavetable c e = some e3 ∧
      e3.log = e.log ++ [Call.setStorage, Call.setScript e.mainDocument,
        Call.setResolution (WavetableScriptEditor.respt ca.resolutionN),
        Call.setFrameCount ca.framesN, Call.populateWavetable, Call.lock, Call.BuildWT,
        Call.getSuggestedWavetableName, Call.unlock, Call.deleteArray,
        Call.repaintForceForWT, Call.repaintFrame] ∧
      e3.derived.osc.wt =
        c.BuildWT (c.wt_populateWavetable (WavetableScriptEditor.configured c e ca)).1
          e.derived.osc.wt) ∧
    (1 ≤ ca.resolutionN → ca.resolutionN ≤ 26 →
      WavetableScriptEditor.respt ca.resolutionN = 32 * 2 ^ (ca.resolutionN - 1).toNat ∧
      WavetableScriptEditor.respt ca.resolutionN < 2 ^ 31) ∧
    (ca.resolutionN ≤ 1 → WavetableScriptEditor.respt ca.resolutionN = 32) ∧
    WavetableScriptEditor.rerenderFromUIState_respt ca =
      WavetableScriptEditor.respt ca.resolutionN ∧
    WavetableScriptEditor.generateWavetable_respt ca =
      WavetableScriptEditor.respt ca.resolutionN := by
  refine ⟨?_, ?_, ?_, ?_, ?_, respt_of_le_one _, rfl, rfl⟩
  · obtain ⟨e1, h1, h2, h3, -⟩ := setupEvaluator_spec c e ca hca
    exact ⟨e1, h1, h2, h3⟩
  · intro hrm hnew
    obtain ⟨e2, h1, h2, -, h4, -⟩ := rerenderFromUIState_single c e ca hca hrm hnew
    refine ⟨e2, h1, h2, ?_⟩
    rw [h4]
  · intro hrm hnew
    obtain ⟨e2, h1, h2, h3, -⟩ := rerenderFromUIState_filmstrip c e ca hca hrm hnew
    exact ⟨e2, h1, h2, h3⟩
  · obtain ⟨e3, h1, h2, -, h4, -⟩ := generateWavetable_spec c e ca hca hed
    exact ⟨e3, h1, h2, h4⟩
  · intro h1 h26
    rw [respt_eq]
    refine ⟨rfl, ?_⟩
    have hn : (ca.resolutionN - 1).toNat ≤ 25 := by omega
    generalize (ca.resolutionN - 1).toNat = n at hn
    interval_cases n <;> norm_num

/-- Witness of C12: the sample editor with document `x`, resolution field 2 and
frames field 10: both callers work on the evaluator with script `x`, resolution
64 and frame count 10. -/
theorem C12_preview_and_generate_same_configuration_witness :
    WavetableScriptEditor.configured sampleCollab (sampleWavetableEditor ['x'] ['y'])
        sampleWavetableControlArea = (['x'], 64, 10) ∧
    (∃ e1, WavetableScriptEditor.setupEvaluator sampleCollab
        (sampleWavetableEditor ['x'] ['y']) = some e1 ∧
      e1.derived.evaluator = WavetableScriptEditor.configured sampleCollab
        (sampleWavetableEditor ['x'] ['y']) sampleWavetableControlArea) ∧
    WavetableScriptEditor.generateWavetable_respt sampleWavetableControlArea =
      WavetableScriptEditor.respt sampleWavetableControlArea.resolutionN :=
  ⟨rfl, by
    obtain ⟨⟨e1, h1, -, h3⟩, -⟩ := C12_preview_and_generate_same_configuration sampleCollab
      (sampleWavetableEditor ['x'] ['y']) sampleWavetableControlArea rfl rfl
    exact ⟨e1, h1, h3⟩,
   (C12_preview_and_generate_same_configuration sampleCollab
      (sampleWavetableEditor ['x'] ['y']) sampleWavetableControlArea rfl rfl).2.2.2.2.2.2.2⟩

/-- Counterexample to C13: with resolution field 26 and frames field 256 the
request is for `2^30 * 256 = 2^38` samples, more than any `int` can count, and
`generateWavetable` still returns normally after one `populateWavetable` and
one `BuildWT`. -/
theorem C13_large_request_is_generated :
    WavetableScriptEditor.respt 26 * 256 = 2 ^ 38 ∧
    (WavetableScriptEditor.generateWavetable sampleCollab sampleLargeWavetableEditor).map
        (fun e => (e.log.countP Call.isPopulateWavetable, e.log.countP Call.isBuildWT)) =
      some (1, 1) := by
  decide

/-- C13 (amended): `generateWavetable` makes no size check.  For every
resolution field and frames field it configures the evaluator, calls
`populateWavetable` and `BuildWT`, and replaces the wavetable and the display
name of the oscillator; it reports no error. -/
theorem C13_generate_has_no_size_check (c : Collab τ) (e : WavetableScriptEditor τ)
    (ca : WavetableScriptControlArea) (hca : e.derived.controlArea = some ca)
    (hed : e.editor = true) :
    ∃ e', WavetableScriptEditor.generateWavetable c e = some e' ∧
      e'.log = e.log ++ [Call.setStorage, Call.setScript e.mainDocument,
        Call.setResolution (WavetableScriptEditor.respt ca.resolutionN),
        Call.setFrameCount ca.framesN, Call.populateWavetable, Call.lock, Call.BuildWT,
        Call.getSuggestedWavetableName, Call.unlock, Call.deleteArray,
        Call.repaintForceForWT, Call.repaintFrame] ∧
      e'.log.countP Call.isPopulateWavetable = e.log.countP Call.isPopulateWavetable + 1 ∧
      e'.log.countP Call.isBuildWT = e.log.countP Call.isBuildWT + 1 ∧
      e'.derived.osc.wt =
        c.BuildWT (c.wt_populateWavetable (WavetableScriptEditor.configured c e ca)).1
          e.derived.osc.wt ∧
      e'.derived.osc.wavetable_display_name = c.wt_getSuggestedWavetableName
        (c.wt_populateWavetable (WavetableScriptEditor.configured c e ca)).2 := by
  obtain ⟨e', h1, h2, -, h4, h5⟩ := generateWavetable_spec c e ca hca hed
  refine ⟨e', h1, h2, ?_, ?_, h4, h5⟩
  · rw [h2]
    simp [List.countP_append, List.countP_cons, Call.isPopulateWavetable]
  · rw [h2]
    simp [List.countP_append, List.countP_cons, Call.isBuildWT]

/-- Witness of C13: the sample editor with resolution field 26 and frames
field 256. -/
theorem C13_generate_has_no_size_check_witness :
    ∃ e', WavetableScriptEditor.generateWavetable sampleCollab sampleLargeWavetableEditor =
        some e' ∧
      e'.log.countP Call.isPopulateWavetable = 1 ∧ e'.log.countP Call.isBuildWT = 1 := by
  obtain ⟨e', h1, -, h3, h4, -⟩ := C13_generate_has_no_size_check sampleCollab
    sampleLargeWavetableEditor { sampleWavetableControlArea with resolutionN := 26, framesN := 256 }
    rfl rfl
  exact ⟨e', h1, h3, h4⟩

/-- C14: the lock discipline of `generateWavetable`.  The calls it makes are,
in this order: the calls of `setupEvaluator` and `populateWavetable`, then
`lock`, then `BuildWT` and the query of the suggested name that is assigned to
the display name, then `unlock`, then the release of the buffer and the two
repaints.  No call that configures or runs the evaluator is made after the
lock is taken, and the mutex is locked once and unlocked once. -/
theorem C14_generate_lock_discipline (c : Collab τ) (e : WavetableScriptEditor τ)
    (ca : WavetableScriptControlArea) (hca : e.derived.controlArea = some ca)
    (hed : e.editor = true) :
    ∃ e' before held after, WavetableScriptEditor.generateWavetable c e = some e' ∧
      e'.log = e.log ++ before ++ [Call.lock] ++ held ++ [Call.unlock] ++ after ∧
      before = [Call.setStorage, Call.setScript e.mainDocument,
        Call.setResolution (WavetableScriptEditor.respt ca.resolutionN),
        Call.setFrameCount ca.framesN, Call.populateWavetable] ∧
      held = [Call.BuildWT, Call.getSuggestedWavetableName] ∧
      after = [Call.deleteArray, Call.repaintForceForWT, Call.repaintFrame] ∧
      before.all Call.isEvaluation = true ∧
      (held ++ after).any Call.isEvaluation = false ∧
      (before ++ held ++ after).any (fun k => k.isLock || k.isUnlock) = false := by
  obtain ⟨e', h1, h2, -⟩ := generateWavetable_spec c e ca hca hed
  refine ⟨e', _, _, _, h1, ?_, rfl, rfl, rfl, ?_, ?_, ?_⟩
  · rw [h2]
    simp
  · simp [Call.isEvaluation]
  · simp [Call.isEvaluation]
  · simp [Call.isLock, Call.isUnlock]

/-- Witness of C14: the sample editor. -/
theorem C14_generate_lock_discipline_witness :
    ∃ e', WavetableScriptEditor.generateWavetable sampleCollab
        (sampleWavetableEditor ['x'] ['y']) = some e' ∧
      e'.log.countP Call.isLock = 1 ∧ e'.log.countP Call.isUnlock = 1 := by
  obtain ⟨e', b, h, a, h1, h2, hb, hh, ha, -⟩ := C14_generate_lock_discipline sampleCollab
    (sampleWavetableEditor ['x'] ['y']) sampleWavetableControlArea rfl rfl
  refine ⟨e', h1, ?_, ?_⟩
  · rw [h2, hb, hh, ha]
    decide
  · rw [h2, hb, hh, ha]
    decide

end Generate

section Determinism

open WavetablePreviewComponent

variable {τ : Sorts}

/-- A successful lookup in an association list returns an entry of the list. -/
theorem mem_of_lookup_eq_some {β : Type} (l : List (Int × β)) (a : Int) (b : β)
    (h : l.lookup a = some b) : (a, b) ∈ l := by
  induction l with
  | nil => simp at h
  | cons p l ih =>
    obtain ⟨k, v⟩ := p
    rw [List.lookup_cons] at h
    cases hk : (a == k)
    · rw [hk] at h
      exact List.mem_cons_of_mem _ (ih h)
    · rw [hk] at h
      have hak : a = k := by simpa using hk
      have hv : v = b := by simpa using h
      rw [hak, hv]
      exact List.mem_cons_self _ _

/-- On an evaluator whose cache is exact, `getFrame` returns what the frame
function yields for the current script and resolution, or nothing for an index
outside the frame count; it keeps the configuration and the exactness of the
cache. -/
theorem SpecEvaluator.getFrame_spec {F : Type} (frameOf : Text → Int → Int → Option (List F))
    (ev : SpecEvaluator F) (hex : SpecEvaluator.Exact frameOf ev) (i : Int) :
    (SpecEvaluator.getFrame frameOf i ev).1 =
        (if i < 0 ∨ i ≥ ev.frameCount then none else frameOf ev.script i ev.resolution) ∧
      SpecEvaluator.Exact frameOf (SpecEvaluator.getFrame frameOf i ev).2 ∧
      (SpecEvaluator.getFrame frameOf i ev).2.script = ev.script ∧
      (SpecEvaluator.getFrame frameOf i ev).2.resolution = ev.resolution ∧
      (SpecEvaluator.getFrame frameOf i ev).2.frameCount = ev.frameCount := by
  unfold SpecEvaluator.getFrame
  by_cases hr : i < 0 ∨ i ≥ ev.frameCount
  · rw [if_pos hr, if_pos hr]
    exact ⟨rfl, hex, rfl, rfl, rfl⟩
  · rw [if_neg hr, if_neg hr]
    cases hl : ev.cache.lookup i with
    | some v =>
      refine ⟨?_, hex, rfl, rfl, rfl⟩
      exact (hex (i, v) (mem_of_lookup_eq_some _ _ _ hl)).symm
    | none =>
      cases hf : frameOf ev.script i ev.resolution with
      | none => exact ⟨rfl, hex, rfl, rfl, rfl⟩
      | some v =>
        refine ⟨rfl, ?_, rfl, rfl, rfl⟩
        intro p hp
        rcases List.mem_cons.mp hp with h | h
        · rw [h]
          exact hf
        · exact hex p h

/-- On exact evaluators with the same configuration `getFrame` returns the
same result. -/
theorem SpecEvaluator.getFrame_congr {F : Type} (frameOf : Text → Int → Int → Option (List F))
    (a b : SpecEvaluator F) (ha : SpecEvaluator.Exact frameOf a)
    (hb : SpecEvaluator.Exact frameOf b) (hab : SpecEvaluator.SameConfig a b) (i : Int) :
    (SpecEvaluator.getFrame frameOf i a).1 = (SpecEvaluator.getFrame frameOf i b).1 ∧
      SpecEvaluator.Exact frameOf (SpecEvaluator.getFrame frameOf i a).2 ∧
      SpecEvaluator.Exact frameOf (SpecEvaluator.getFrame frameOf i b).2 ∧
      SpecEvaluator.SameConfig (SpecEvaluator.getFrame frameOf i a).2
        (SpecEvaluator.getFrame frameOf i b).2 := by
  obtain ⟨a1, a2, a3, a4, a5⟩ := SpecEvaluator.getFrame_spec frameOf a ha i
  obtain ⟨b1, b2, b3, b4, b5⟩ := SpecEvaluator.getFrame_spec frameOf b hb i
  obtain ⟨h1, h2, h3⟩ := hab
  refine ⟨?_, a2, b2, ?_, ?_, ?_⟩
  · rw [a1, b1, h1, h2, h3]
  · rw [a3, b3, h1]
  · rw [a4, b4, h2]
  · rw [a5, b5, h3]

/-- One round of the filmstrip loop issues the same drawing commands on exact
evaluators with the same configuration. -/
theorem paintTile_congr (frameOf : Text → Int → Int → Option (List τ.Flt))
    (r : WavetablePreviewComponent τ) (x : Int) (out : List (Draw τ))
    (a b : SpecEvaluator τ.Flt) (ha : SpecEvaluator.Exact frameOf a)
    (hb : SpecEvaluator.Exact frameOf b) (hab : SpecEvaluator.SameConfig a b) (idx : Nat) :
    (paintTile (SpecEvaluator.getFrame frameOf) r (x, a, out) idx).1 =
        (paintTile (SpecEvaluator.getFrame frameOf) r (x, b, out) idx).1 ∧
      (paintTile (SpecEvaluator.getFrame frameOf) r (x, a, out) idx).2.2 =
        (paintTile (SpecEvaluator.getFrame frameOf) r (x, b, out) idx).2.2 ∧
      SpecEvaluator.Exact frameOf
        (paintTile (SpecEvaluator.getFrame frameOf) r (x, a, out) idx).2.1 ∧
      SpecEvaluator.Exact frameOf
        (paintTile (SpecEvaluator.getFrame frameOf) r (x, b, out) idx).2.1 ∧
      SpecEvaluator.SameConfig
        (paintTile (SpecEvaluator.getFrame frameOf) r (x, a, out) idx).2.1
        (paintTile (SpecEvaluator.getFrame frameOf) r (x, b, out) idx).2.1 := by
  obtain ⟨h1, h2, h3, h4⟩ := SpecEvaluator.getFrame_congr frameOf a b ha hb hab idx
  unfold paintTile
  dsimp only
  split_ifs
  · exact ⟨rfl, rfl, ha, hb, hab⟩
  · rw [← h1]
    cases (SpecEvaluator.getFrame frameOf (↑idx) a).1 with
    | none => exact ⟨rfl, rfl, h2, h3, h4⟩
    | some v => exact ⟨rfl, rfl, h2, h3, h4⟩

/-- The filmstrip loop issues the same drawing commands on exact evaluators
with the same configuration. -/
theorem paintTiles_congr (frameOf : Text → Int → Int → Option (List τ.Flt))
    (r : WavetablePreviewComponent τ)
    (a b : SpecEvaluator τ.Flt) (ha : SpecEvaluator.Exact frameOf a)
    (hb : SpecEvaluator.Exact frameOf b) (hab : SpecEvaluator.SameConfig a b) (n : Nat) :
    (paintTiles (SpecEvaluator.getFrame frameOf) r a n).1 =
        (paintTiles (SpecEvaluator.getFrame frameOf) r b n).1 ∧
      (paintTiles (SpecEvaluator.getFrame frameOf) r a n).2.2 =
        (paintTiles (SpecEvaluator.getFrame frameOf) r b n).2.2 ∧
      SpecEvaluator.Exact frameOf (paintTiles (SpecEvaluator.getFrame frameOf) r a n).2.1 ∧
      SpecEvaluator.Exact frameOf (paintTiles (SpecEvaluator.getFrame frameOf) r b n).2.1 ∧
      SpecEvaluator.SameConfig (paintTiles (SpecEvaluator.getFrame frameOf) r a n).2.1
        (paintTiles (SpecEvaluator.getFrame frameOf) r b n).2.1 := by
  induction n with
  | zero => exact ⟨rfl, rfl, ha, hb, hab⟩
  | succ n ih =>
    obtain ⟨i1, i2, i3, i4, i5⟩ := ih
    rw [paintTiles_succ, paintTiles_succ]
    generalize paintTiles (SpecEvaluator.getFrame frameOf) r a n = sa at i1 i2 i3 i5 ⊢
    generalize paintTiles (SpecEvaluator.getFrame frameOf) r b n = sb at i1 i2 i4 i5 ⊢
    obtain ⟨xa, ea, oa⟩ := sa
    obtain ⟨xb, eb, ob⟩ := sb
    dsimp only at i1 i2 i3 i4 i5
    subst i1
    subst i2
    exact paintTile_congr frameOf r xa oa ea eb i3 i4 i5 n

/-- The filmstrip loop keeps the configuration of the evaluator and the
exactness of its cache. -/
theorem paintTiles_config (frameOf : Text → Int → Int → Option (List τ.Flt))
    (r : WavetablePreviewComponent τ) (a : SpecEvaluator τ.Flt)
    (ha : SpecEvaluator.Exact frameOf a) (n : Nat) :
    SpecEvaluator.Exact frameOf (paintTiles (SpecEvaluator.getFrame frameOf) r a n).2.1 ∧
      SpecEvaluator.SameConfig a (paintTiles (SpecEvaluator.getFrame frameOf) r a n).2.1 := by
  induction n with
  | zero => exact ⟨ha, rfl, rfl, rfl⟩
  | succ n ih =>
    obtain ⟨i1, i2, i3, i4⟩ := ih
    rw [paintTiles_succ]
    generalize paintTiles (SpecEvaluator.getFrame frameOf) r a n = sa at i1 i2 i3 i4 ⊢
    obtain ⟨g1, g2, g3, g4, g5⟩ := SpecEvaluator.getFrame_spec frameOf sa.2.1 i1 n
    unfold paintTile
    dsimp only
    split_ifs
    · exact ⟨i1, i2, i3, i4⟩
    · cases (SpecEvaluator.getFrame frameOf (↑n) sa.2.1).1 with
      | none => exact ⟨g2, i2.trans g3.symm, i3.trans g4.symm, i4.trans g5.symm⟩
      | some v => exact ⟨g2, i2.trans g3.symm, i3.trans g4.symm, i4.trans g5.symm⟩

/-- C15: frame evaluation is deterministic.  On the evaluator of the
specification whose cache is exact, `getFrame` returns for an index within the
frame count the sequence that the frame function yields for the script, the
index and the resolution; a second call with the same index returns the same
result, and so does a call on any other exact evaluator with the same script,
resolution and frame count.  The filmstrip painted a second time, or painted
from another exact evaluator with the same configuration, issues the same
drawing commands. -/
theorem C15_frame_evaluation_deterministic (frameOf : Text → Int → Int → Option (List τ.Flt))
    (r : WavetablePreviewComponent τ) (ev ev2 : SpecEvaluator τ.Flt)
    (hex : SpecEvaluator.Exact frameOf ev) (hex2 : SpecEvaluator.Exact frameOf ev2)
    (hsame : SpecEvaluator.SameConfig ev ev2) (i : Int) :
    (SpecEvaluator.getFrame frameOf i ev).1 =
        (if i < 0 ∨ i ≥ ev.frameCount then none else frameOf ev.script i ev.resolution) ∧
      (SpecEvaluator.getFrame frameOf i (SpecEvaluator.getFrame frameOf i ev).2).1 =
        (SpecEvaluator.getFrame frameOf i ev).1 ∧
      (SpecEvaluator.getFrame frameOf i ev2).1 = (SpecEvaluator.getFrame frameOf i ev).1 ∧
      (paintFilmstrip (SpecEvaluator.getFrame frameOf) r
          (paintFilmstrip (SpecEvaluator.getFrame frameOf) r ev).2).1 =
        (paintFilmstrip (SpecEvaluator.getFrame frameOf) r ev).1 ∧
      (paintFilmstrip (SpecEvaluator.getFrame frameOf) r ev2).1 =
        (paintFilmstrip (SpecEvaluator.getFrame frameOf) r ev).1 := by
  obtain ⟨g1, g2, g3, g4, g5⟩ := SpecEvaluator.getFrame_spec frameOf ev hex i
  refine ⟨g1, ?_, ?_, ?_, ?_⟩
  · exact ((SpecEvaluator.getFrame_congr frameOf ev _ hex g2 ⟨g3.symm, g4.symm, g5.symm⟩ i).1).symm
  · exact ((SpecEvaluator.getFrame_congr frameOf ev ev2 hex hex2 hsame i).1).symm
  · obtain ⟨p1, p2⟩ := paintTiles_config frameOf r ev hex r.frameCount.toNat
    exact ((paintTiles_congr frameOf r ev _ hex p1 p2 r.frameCount.toNat).2.1).symm
  · exact ((paintTiles_congr frameOf r ev ev2 hex hex2 hsame r.frameCount.toNat).2.1).symm

/-- Witness of C15: the sample evaluator with an empty cache, and the same
evaluator with frame 3 cached, painted as a filmstrip of 10 tiles. -/
theorem C15_frame_evaluation_deterministic_witness :
    SpecEvaluator.Exact sampleFrameOf sampleSpecEvaluator ∧
    SpecEvaluator.Exact sampleFrameOf { sampleSpecEvaluator with cache := [(3, [3, 3])] } ∧
    (SpecEvaluator.getFrame sampleFrameOf 3 sampleSpecEvaluator).1 = some [3, 3] ∧
    (SpecEvaluator.getFrame sampleFrameOf 3
        (SpecEvaluator.getFrame sampleFrameOf 3 sampleSpecEvaluator).2).1 =
      (SpecEvaluator.getFrame sampleFrameOf 3 sampleSpecEvaluator).1 ∧
    (paintFilmstrip (SpecEvaluator.getFrame sampleFrameOf) sampleFilmstrip
        { sampleSpecEvaluator with cache := [(3, [3, 3])] }).1 =
      (paintFilmstrip (SpecEvaluator.getFrame sampleFrameOf) sampleFilmstrip
        sampleSpecEvaluator).1 := by
  have h1 : SpecEvaluator.Exact sampleFrameOf sampleSpecEvaluator := by
    intro p hp
    simp [sampleSpecEvaluator] at hp
  have h2 : SpecEvaluator.Exact sampleFrameOf
      { sampleSpecEvaluator with cache := [(3, [3, 3])] } := by
    intro p hp
    have hp3 : p = (3, [3, 3]) := by simpa using hp
    rw [hp3]
    decide
  obtain ⟨-, h4, -, -, h5⟩ := @C15_frame_evaluation_deterministic sampleSorts sampleFrameOf
    sampleFilmstrip sampleSpecEvaluator { sampleSpecEvaluator with cache := [(3, [3, 3])] }
    h1 h2 ⟨rfl, rfl, rfl⟩ 3
  exact ⟨h1, h2, by decide, h4, h5⟩

end Determinism

section FrameIndex

open WavetablePreviewComponent

/-- C16 (divergence): in single-frame mode with frame number 10 of 10 shown,
`rerenderFromUIState` asks the evaluator for index 10, the frame number
itself, not 9; the filmstrip asks for the indices 0 to 9 and labels their
tiles 1 to 10, so its tile labelled 10 shows index 9.  On the evaluator of the
specification with 10 frames index 10 is outside the frame count and yields
no frame, while index 9 does. -/
theorem C16_single_frame_queries_frame_number :
    (sampleWavetableEditorAt 10).derived.rendererComponent.frameNumber = 10 ∧
    (sampleWavetableEditorAt 10).derived.controlArea.map (fun ca => ca.framesN) = some 10 ∧
    (WavetableScriptEditor.rerenderFromUIState sampleCollab (sampleWavetableEditorAt 10)).map
        (fun e => e.log.filterMap Call.getFrameIndex) = some [10] ∧
    (paintFilmstrip sampleRecordingGetFrame sampleFilmstrip []).2 =
      [0, 1, 2, 3, 4, 5, 6, 7, 8, 9] ∧
    (paintFilmstrip sampleRecordingGetFrame sampleFilmstrip []).1.filterMap Draw.label =
      [1, 2, 3, 4, 5, 6, 7, 8, 9, 10] ∧
    (SpecEvaluator.getFrame sampleFrameOf 10 sampleSpecEvaluator).1 = none ∧
    (SpecEvaluator.getFrame sampleFrameOf 9 sampleSpecEvaluator).1 = some [9, 9] := by
  refine ⟨rfl, rfl, ?_, ?_, ?_, ?_, ?_⟩ <;> decide

end FrameIndex

section Suppression

open WavetablePreviewComponent

variable {τ : Sorts}

/-- The member function `adjustStartX` keeps the frame number. -/
theorem adjustStartX_frameNumber (delta : Int) (r : WavetablePreviewComponent τ) :
    (r.adjustStartX delta).frameNumber = r.frameNumber := by
  unfold adjustStartX
  dsimp only
  split_ifs <;> rfl

/-- C18: equality-based re-render suppression.  With the render mode switch at
one of its two values: if render mode, resolution field and frames field (and,
in single-frame mode, the frame number) equal the values of the last render,
`rerenderFromUIState` returns the editor as it is, with no call made, so in
filmstrip mode a change of the frame number alone renders nothing; otherwise
it renders and leaves `lastRm`, `lastRes`, `lastFrames` and `lastFrame` equal
to the values of the UI, which it does not change; and a second call right
after any call changes nothing. -/
theorem C18_rerender_suppression (c : Collab τ) (e : WavetableScriptEditor τ)
    (ca : WavetableScriptControlArea) (hca : e.derived.controlArea = some ca)
    (hmode : ca.renderModeS = 0 ∨ ca.renderModeS = 1) :
    ((ca.renderModeS = e.derived.lastRm ∧ ca.resolutionN = e.derived.lastRes ∧
        ca.framesN = e.derived.lastFrames ∧
        (ca.renderModeS = 0 → e.derived.rendererComponent.frameNumber = e.derived.lastFrame)) →
      WavetableScriptEditor.rerenderFromUIState c e = some e) ∧
    (¬ (ca.renderModeS = e.derived.lastRm ∧ ca.resolutionN = e.derived.lastRes ∧
        ca.framesN = e.derived.lastFrames ∧
        (ca.renderModeS = 0 → e.derived.rendererComponent.frameNumber = e.derived.lastFrame)) →
      ∃ e', WavetableScriptEditor.rerenderFromUIState c e = some e' ∧
        e'.log ≠ e.log ∧
        e'.derived.controlArea = some ca ∧
        e'.derived.rendererComponent.frameNumber = e.derived.rendererComponent.frameNumber ∧
        e'.derived.lastRm = ca.renderModeS ∧ e'.derived.lastRes = ca.resolutionN ∧
        e'.derived.lastFrames = ca.framesN ∧
        e'.derived.lastFrame = e'.derived.rendererComponent.frameNumber) ∧
    (∃ e', WavetableScriptEditor.rerenderFromUIState c e = some e' ∧
      WavetableScriptEditor.rerenderFromUIState c e' = some e') := by
  have hsup : (ca.renderModeS = e.derived.lastRm ∧ ca.resolutionN = e.derived.lastRes ∧
        ca.framesN = e.derived.lastFrames ∧
        (ca.renderModeS = 0 → e.derived.rendererComponent.frameNumber = e.derived.lastFrame)) →
      WavetableScriptEditor.rerenderFromUIState c e = some e := fun h =>
    rerenderFromUIState_suppressed c e ca hca hmode h.1 h.2.1 h.2.2.1 h.2.2.2
  have hren : ¬ (ca.renderModeS = e.derived.lastRm ∧ ca.resolutionN = e.derived.lastRes ∧
        ca.framesN = e.derived.lastFrames ∧
        (ca.renderModeS = 0 → e.derived.rendererComponent.frameNumber = e.derived.lastFrame)) →
      ∃ e', WavetableScriptEditor.rerenderFromUIState c e = some e' ∧
        e'.log ≠ e.log ∧
        e'.derived.controlArea = some ca ∧
        e'.derived.rendererComponent.frameNumber = e.derived.rendererComponent.frameNumber ∧
        e'.derived.lastRm = ca.renderModeS ∧ e'.derived.lastRes = ca.resolutionN ∧
        e'.derived.lastFrames = ca.framesN ∧
        e'.derived.lastFrame = e'.derived.rendererComponent.frameNumber := by
    intro hnew
    rcases hmode with hrm | hrm
    · obtain ⟨e', h1, h2, -, h4, h5, h6, h7, h8, h9⟩ :=
        rerenderFromUIState_single c e ca hca hrm
          (fun h => hnew ⟨h.1, h.2.1, h.2.2.1, fun _ => h.2.2.2⟩)
      refine ⟨e', h1, ?_, h9.trans hca, ?_, h5, h6, h7, ?_⟩
      · rw [h2]
        simp
      · rw [h4]
      · rw [h8, h4]
    · have hne : ca.renderModeS ≠ 0 := by
        rw [hrm]
        decide
      obtain ⟨e', h1, h2, -, h4, h5, h6, h7, h8, h9⟩ :=
        rerenderFromUIState_filmstrip c e ca hca hne
          (fun h => hnew ⟨h.2.1, h.2.2.1, h.2.2.2, fun h0 => absurd h0 hne⟩)
      refine ⟨e', h1, ?_, h9.trans hca, ?_, h5, h6, h7, ?_⟩
      · rw [h2]
        simp
      · rw [h4, adjustStartX_frameNumber]
      · rw [h8, h4, adjustStartX_frameNumber]
  refine ⟨hsup, hren, ?_⟩
  by_cases hs : (ca.renderModeS = e.derived.lastRm ∧ ca.resolutionN = e.derived.lastRes ∧
        ca.framesN = e.derived.lastFrames ∧
        (ca.renderModeS = 0 → e.derived.rendererComponent.frameNumber = e.derived.lastFrame))
  · exact ⟨e, hsup hs, hsup hs⟩
  · obtain ⟨e', h1, -, h3, -, h5, h6, h7, h8⟩ := hren hs
    exact ⟨e', h1, rerenderFromUIState_suppressed c e' ca h3 hmode h5.symm h6.symm h7.symm
      (fun _ => h8.symm)⟩

/-- Witness of C18: the sample editor, never rendered before, renders at the
first call and not at the second. -/
theorem C18_rerender_suppression_witness :
    ∃ e', WavetableScriptEditor.rerenderFromUIState sampleCollab
        (sampleWavetableEditor ['x'] ['y']) = some e' ∧
      e'.log ≠ (sampleWavetableEditor ['x'] ['y']).log ∧
      e'.derived.lastRes = 2 ∧
      WavetableScriptEditor.rerenderFromUIState sampleCollab e' = some e' := by
  obtain ⟨-, h2, -⟩ := C18_rerender_suppression sampleCollab
    (sampleWavetableEditor ['x'] ['y']) sampleWavetableControlArea rfl (Or.inl rfl)
  obtain ⟨e', h1, hl, h3, -, h5, h6, h7, h8⟩ := h2 (by decide)
  exact ⟨e', h1, hl, h6,
    rerenderFromUIState_suppressed sampleCollab e' sampleWavetableControlArea h3 (Or.inl rfl)
      h5.symm h6.symm h7.symm (fun _ => h8.symm)⟩

end Suppression

section Typein

open CodeEditorContainerWithApply

variable {τ : Sorts}

/-- C19: out-of-range frame counts are rejected, not truncated.  The type-in
handler of the frames field returns true exactly when `i = atoi(s)` satisfies
`1 <= i <= 256`; then it has set the control to the scaled value of `i`,
triggered `valueChanged` (which enables Apply) and repainted; otherwise it
returns false and the editor, control value included, is as before.  Every
stop of the menu lies in the accepted range. -/
theorem C19_typein_rejects_out_of_range (c : Collab τ) (atoi : Text → Int) (s : Text)
    (e : WavetableScriptEditor τ) (ca : WavetableScriptControlArea)
    (hca : e.derived.controlArea = some ca) :
    (∃ r, WavetableScriptControlArea.handleTypein c atoi s e = some r ∧
      (r.1 = true ↔ 1 ≤ atoi s ∧ atoi s ≤ 256) ∧
      (r.1 = false → r.2 = e) ∧
      (r.1 = true →
        r.2.log = e.log ++ [Call.setValue (c.intScaledToFloat (atoi s) 256 1), Call.repaint] ∧
        r.2.derived.controlArea = some { ca with
          framesN := c.framesFieldInt (c.intScaledToFloat (atoi s) 256 1),
          applyS_enabled := true } ∧
        r.2.mainDocument = e.mainDocument ∧ r.2.derived.osc = e.derived.osc)) ∧
    (∀ v ∈ WavetableScriptControlArea.frameStops,
      WavetableScriptControlArea.typeinInRange v = true ∧ 1 ≤ v ∧ v ≤ 256) := by
  refine ⟨?_, by decide⟩
  by_cases hr : 1 ≤ atoi s ∧ atoi s ≤ 256
  · have ht : WavetableScriptControlArea.typeinInRange (atoi s) = true := by
      simp [WavetableScriptControlArea.typeinInRange, hr.1, hr.2]
    simp [WavetableScriptControlArea.handleTypein, ht, hca,
      WavetableScriptControlArea.valueChanged, WavetableScriptControlArea.tag_frames_value,
      WavetableScriptControlArea.tag_select_tab, WavetableScriptControlArea.tag_code_apply,
      WavetableScriptControlArea.tag_current_frame, call, WavetableScriptEditor.setApplyEnabled,
      ApplyTarget.setApplyEnabled, WavetableScriptEditorPart.setApplyEnabled, hr.1, hr.2]
  · have ht : WavetableScriptControlArea.typeinInRange (atoi s) = false := by
      simp only [WavetableScriptControlArea.typeinInRange]
      rw [Bool.and_eq_false_iff]
      by_cases h1 : 1 ≤ atoi s
      · exact Or.inr (by simpa using fun h => hr ⟨h1, h⟩)
      · exact Or.inl (by simpa using h1)
    simp [WavetableScriptControlArea.handleTypein, ht, hr]

/-- Witness of C19: the entry with value 300 is rejected by the sample
editor. -/
theorem C19_typein_rejects_out_of_range_witness :
    ∃ r, WavetableScriptControlArea.handleTypein sampleCollab (fun _ => 300) ['3', '0', '0']
        (sampleWavetableEditor ['x'] ['y']) = some r ∧
      r.1 = false ∧ r.2.derived.controlArea = some sampleWavetableControlArea := by
  obtain ⟨⟨r, h1, h2, h3, -⟩, -⟩ := C19_typein_rejects_out_of_range sampleCollab
    (fun _ => 300) ['3', '0', '0'] (sampleWavetableEditor ['x'] ['y'])
    sampleWavetableControlArea rfl
  have hf : r.1 = false := by
    cases hb : r.1
    · rfl
    · exact absurd (h2.mp hb) (by decide)
  refine ⟨r, h1, hf, ?_⟩
  rw [h3 hf]
  rfl

end Typein

section Invariant

open CodeEditorContainerWithApply ExpandingFormulaDebugger FormulaControlArea

variable {τ : Sorts}

/-- With a GUI editor, and an evaluation state whenever the panel is open,
`updateDebuggerIfNeeded` succeeds and keeps the invariant. -/
theorem updateDebuggerIfNeeded_invariant (c : Collab τ) (e : FormulaModulatorEditor τ)
    (h : e.debuggerInvariant) :
    ∃ e', FormulaModulatorEditor.updateDebuggerIfNeeded c e = some e' ∧ e'.debuggerInvariant ∧
      e'.derived.mainEditor_visible = e.derived.mainEditor_visible ∧
      e'.derived.preludeDisplay_visible = e.derived.preludeDisplay_visible := by
  obtain ⟨hed, hca, hdbg⟩ := h
  cases ho : e.derived.debugPanel.isOpen
  · refine ⟨_, updateDebuggerIfNeeded_of_clean c e (Or.inl ho), ⟨hed, hca, ?_⟩, rfl, rfl⟩
    intro h1
    simp [FormulaModulatorEditor.withCounterAdvanced, ho] at h1
  · obtain ⟨l, hl⟩ := Option.isSome_iff_exists.mp (hdbg ho)
    cases hd : FormulaModulatorEditor.trackedValueDiffers c e l
    · refine ⟨_, updateDebuggerIfNeeded_of_clean c e (Or.inr ⟨l, hl, hd⟩), ⟨hed, hca, ?_⟩,
        rfl, rfl⟩
      intro _
      simp [FormulaModulatorEditor.withCounterAdvanced, hl]
    · obtain ⟨e2, h2, hu⟩ := updateDebuggerIfNeeded_of_dirty c e l ho hl hed hd
      have hl2 : (FormulaModulatorEditor.afterChecks c e l).derived.debugPanel.lfoDebugger =
          some { l with formulastate :=
            (FormulaModulatorEditor.checkEnvelope c e.derived.lfos e.storage.temposyncratio
              l.formulastate (FormulaModulatorEditor.checkParams e.derived.lfos
                e.derived.debugPanel.tp).2).1 } := rfl
      have hv : e2.derived.mainEditor_visible = e.derived.mainEditor_visible ∧
          e2.derived.preludeDisplay_visible = e.derived.preludeDisplay_visible := by
        cases hed2 : (FormulaModulatorEditor.afterChecks c e l).editor <;>
        simp [refreshDebuggerView, updateDebuggerWithOptionalStep, hl2, call, hed2] at h2 <;>
        subst h2 <;> exact ⟨rfl, rfl⟩
      obtain ⟨e2', fs, h2', -, hl', -, -, -, hca', -, -, -, -, hed2⟩ :=
        refreshDebuggerView_spec c (FormulaModulatorEditor.afterChecks c e l) _ hl2
      rw [h2] at h2'
      cases h2'
      refine ⟨_, hu, ⟨?_, ?_, ?_⟩, hv.1, hv.2⟩
      · simpa [FormulaModulatorEditor.withCounterAdvanced, call] using hed2.trans hed
      · simpa [FormulaModulatorEditor.withCounterAdvanced, call, hca'] using hca
      · intro _
        simp [FormulaModulatorEditor.withCounterAdvanced, call, hl']

/-- With a GUI editor and a control area, Init succeeds and establishes the
invariant. -/
theorem initializeLfoDebugger_invariant (c : Collab τ) (e : FormulaModulatorEditor τ)
    (hed : e.editor = true) (hca : e.derived.controlArea.isSome = true) :
    ∃ e', initializeLfoDebugger c e = some e' ∧ e'.debuggerInvariant ∧
      e'.derived.debugPanel.isOpen = e.derived.debugPanel.isOpen := by
  obtain ⟨e', l', h1, h2, -, -, -, h6, -, h8, -, h10⟩ := initializeLfoDebugger_spec c e
  refine ⟨e', h1, ⟨h10.trans hed, by rw [h8]; exact hca, ?_⟩, h6⟩
  intro _
  rw [h2]
  rfl

/-- With the invariant and an evaluation state, Step succeeds and keeps the
invariant. -/
theorem stepLfoDebugger_invariant (c : Collab τ) (e : FormulaModulatorEditor τ)
    (h : e.debuggerInvariant) (hl : e.derived.debugPanel.lfoDebugger.isSome = true) :
    ∃ e', stepLfoDebugger c e = some e' ∧ e'.debuggerInvariant := by
  obtain ⟨l, hl⟩ := Option.isSome_iff_exists.mp hl
  obtain ⟨e', l', h1, h2, -, -, -, -, -, h8, -, h10⟩ := stepLfoDebugger_spec c e l hl
  refine ⟨e', h1, h10.trans h.1, by rw [h8]; exact h.2.1, ?_⟩
  intro _
  rw [h2]
  rfl

/-- With the invariant, `applyCode` succeeds and keeps the invariant. -/
theorem formula_applyCode_invariant (c : Collab τ) (e : FormulaModulatorEditor τ)
    (h : e.debuggerInvariant) :
    ∃ e', FormulaModulatorEditor.applyCode c e = some e' ∧ e'.debuggerInvariant := by
  obtain ⟨hed, hca, hdbg⟩ := h
  obtain ⟨h1, -, -, -⟩ := removeTrailingWhitespaceFromDocument_frame
    (formula_setApplyEnabled_idem true) e
  obtain ⟨ca', hder, hca'⟩ := formula_removeTrailingWhitespace_derived e
  have hed0 : e.removeTrailingWhitespaceFromDocument.editor = true := by rw [h1]; exact hed
  have hcs : ca'.isSome = true := by
    rcases hca' with hc | hc
    · rw [hc]
      exact hca
    · rw [hc]
      simpa using hca
  have hinv : (FormulaModulatorEditor.storeFormula
      e.removeTrailingWhitespaceFromDocument).debuggerInvariant := by
    refine ⟨?_, ?_, ?_⟩
    · simpa [FormulaModulatorEditor.storeFormula, call] using hed0
    · simpa [FormulaModulatorEditor.storeFormula, call, hder] using hcs
    · simpa [FormulaModulatorEditor.storeFormula, call, hder] using hdbg
  obtain ⟨e', hu, ⟨i1, i2, i3⟩, -⟩ := updateDebuggerIfNeeded_invariant c _ hinv
  refine ⟨FormulaModulatorEditor.finishApply e', ?_, ?_, ?_, ?_⟩
  · simp [FormulaModulatorEditor.applyCode, hed0, hu]
  · simpa [FormulaModulatorEditor.finishApply, call, FormulaModulatorEditor.setApplyEnabled]
      using i1
  · simp only [FormulaModulatorEditor.finishApply, call, FormulaModulatorEditor.setApplyEnabled,
      formula_setApplyEnabled_eq]
    simpa using i2
  · simp only [FormulaModulatorEditor.finishApply, call, FormulaModulatorEditor.setApplyEnabled,
      formula_setApplyEnabled_eq]
    exact i3

/-- With the invariant, every control event is handled without a null
dereference and keeps the invariant. -/
theorem valueChanged_invariant (c : Collab τ) (tag : Nat) (value : τ.Flt)
    (e : FormulaModulatorEditor τ) (h : e.debuggerInvariant) :
    ∃ e', valueChanged c tag value e = some e' ∧ e'.debuggerInvariant := by
  obtain ⟨ca, hca⟩ := Option.isSome_iff_exists.mp h.2.1
  simp only [valueChanged, hca]
  split_ifs with t1 t2 t3 t4 t5 t6
  · exact ⟨_, rfl, h.1, by simpa [FormulaModulatorEditor.showPreludeCode] using h.2.1,
      by simpa [FormulaModulatorEditor.showPreludeCode] using h.2.2⟩
  · exact ⟨_, rfl, h.1, by simpa [FormulaModulatorEditor.showModulatorCode] using h.2.1,
      by simpa [FormulaModulatorEditor.showModulatorCode] using h.2.2⟩
  · exact formula_applyCode_invariant c e h
  · obtain ⟨e', h1, h2, -⟩ := initializeLfoDebugger_invariant c (debuggerShowBlock ca e)
      (by cases ho : e.derived.debugPanel.isOpen <;>
            simpa [debuggerShowBlock, setOpen, call, ho] using h.1)
      (by simp [debuggerShowBlock, call])
    exact ⟨e', h1, h2⟩
  · obtain ⟨e', h1, h2, -⟩ := initializeLfoDebugger_invariant c e h.1 h.2.1
    exact ⟨e', h1, h2⟩
  · obtain ⟨e1, h1, h2, -⟩ := initializeLfoDebugger_invariant c e h.1 h.2.1
    obtain ⟨e1', l', h1', hl', -⟩ := initializeLfoDebugger_spec c e
    rw [h1] at h1'
    cases h1'
    obtain ⟨e2, h3, h4⟩ := stepLfoDebugger_invariant c e1 h2 (by rw [hl']; rfl)
    exact ⟨e2, by simp [h1, h3], h4⟩
  · obtain ⟨e2, h3, h4⟩ := stepLfoDebugger_invariant c e h (by
      cases hl : e.derived.debugPanel.lfoDebugger with
      | none => simp [hl] at *
      | some l => rfl)
    exact ⟨e2, by simp [h3], h4⟩
  · exact ⟨e, rfl, h⟩

/-- With the invariant, every sequence of control events is handled without a
null dereference and keeps the invariant. -/
theorem handleEvents_invariant (c : Collab τ) (events : List (Nat × τ.Flt))
    (e : FormulaModulatorEditor τ) (h : e.debuggerInvariant) :
    ∃ e', handleEvents c events e = some e' ∧ e'.debuggerInvariant := by
  induction events generalizing e with
  | nil => exact ⟨e, rfl, h⟩
  | cons ev rest ih =>
    obtain ⟨e1, h1, h2⟩ := valueChanged_invariant c ev.1 ev.2 e h
    obtain ⟨e2, h3, h4⟩ := ih e1 h2
    exact ⟨e2, by simp [handleEvents, h1, h3], h4⟩

end Invariant

section Reachable

open CodeEditorContainerWithApply ExpandingFormulaDebugger FormulaControlArea

variable {τ : Sorts}

/-- What the constructor has set up when it reaches the test of the persisted
debugger flag. -/
theorem constructViews_spec (ed : Bool) (s : SurgeStorage τ) (ls : LFOStorage τ)
    (fs : FormulaModulatorStorage) (lid scene : Int) (tp : Nat → pdata) :
    (FormulaModulatorEditor.constructViews ed s ls fs lid scene tp).editor = ed ∧
    (FormulaModulatorEditor.constructViews ed s ls fs lid scene tp).derived.debugPanel.isOpen
      = false ∧
    (FormulaModulatorEditor.constructViews ed s ls fs lid scene tp).storage.editState.debuggerOpen
      = s.editState.debuggerOpen ∧
    ((FormulaModulatorEditor.constructViews ed s ls fs lid scene tp).storage.editState.codeOrPrelude
      = s.editState.codeOrPrelude) ∧
    (FormulaModulatorEditor.constructViews ed s ls fs lid scene tp).derived.mainEditor_visible
      = !decide (s.editState.codeOrPrelude = 1) ∧
    (FormulaModulatorEditor.constructViews ed s ls fs lid scene tp).derived.preludeDisplay_visible
      = decide (s.editState.codeOrPrelude = 1) := by
  by_cases h0 : s.editState.codeOrPrelude = 0 <;> by_cases h1 : s.editState.codeOrPrelude = 1 <;>
    cases ht : fs.formulaString.isEmpty <;>
    simp [FormulaModulatorEditor.constructViews, insertText, codeDocumentTextInserted, ht, h0, h1,
      FormulaModulatorEditor.showModulatorCode, FormulaModulatorEditor.showPreludeCode,
      ApplyTarget.setApplyEnabled, FormulaModulatorEditorPart.setApplyEnabled]

/-- The constructor, given a GUI editor, succeeds and establishes the
invariant; the views it shows are those of the persisted tab. -/
theorem construct_invariant (c : Collab τ) (s : SurgeStorage τ) (ls : LFOStorage τ)
    (fs : FormulaModulatorStorage) (lid scene : Int) (tp : Nat → pdata) :
    ∃ e0, FormulaModulatorEditor.construct c true s ls fs lid scene tp = some e0 ∧
      e0.debuggerInvariant ∧
      e0.derived.debugPanel.isOpen = s.editState.debuggerOpen ∧
      e0.storage.editState.codeOrPrelude = s.editState.codeOrPrelude ∧
      e0.derived.mainEditor_visible = !decide (s.editState.codeOrPrelude = 1) ∧
      e0.derived.preludeDisplay_visible = decide (s.editState.codeOrPrelude = 1) := by
  obtain ⟨v1, v2, v3, v4, v5, v6⟩ := constructViews_spec true s ls fs lid scene tp
  unfold FormulaModulatorEditor.construct
  dsimp only
  generalize FormulaModulatorEditor.constructViews true s ls fs lid scene tp = e at v1 v2 v3 v4 v5 v6
  rw [v3]
  cases hdbg : s.editState.debuggerOpen
  · refine ⟨_, rfl, ⟨v1, rfl, ?_⟩, v2, v4, v5, v6⟩
    intro h
    rw [v2] at h
    exact absurd h (by decide)
  · obtain ⟨e', l', h1, h2, -, -, -, h6, -, -, h9, h10⟩ :=
      initializeLfoDebugger_spec c (setOpen true e)
    have hv : e'.derived.mainEditor_visible = e.derived.mainEditor_visible ∧
        e'.derived.preludeDisplay_visible = e.derived.preludeDisplay_visible := by
      have hed : (setOpen true e).editor = true := v1
      simp [initializeLfoDebugger, stepLfoDebugger, updateDebuggerWithOptionalStep, call, hed]
        at h1
      subst h1
      exact ⟨rfl, rfl⟩
    simp only [if_true, h1]
    refine ⟨_, rfl, ⟨?_, rfl, ?_⟩, ?_, ?_, ?_, ?_⟩
    · exact h10.trans v1
    · intro _
      simp [call, h2]
    · simpa [call] using h6
    · simpa [call, h9, setOpen] using v4
    · simpa [call, hv.1] using v5
    · simpa [call, hv.2] using v6

/-- C17: an open debugger always has an evaluation state.  The constructor,
given a GUI editor, returns an editor, and every sequence of control events
(tab select, Apply, Show/Hide, Init, Step) is handled from there without a
null dereference; in the state reached an open panel has a non-null
`lfoDebugger`, so that `updateDebuggerIfNeeded` returns normally, and so does
`refreshDebuggerView` when the panel is open. -/
theorem C17_open_debugger_has_state (c : Collab τ) (s : SurgeStorage τ) (ls : LFOStorage τ)
    (fs : FormulaModulatorStorage) (lid scene : Int) (tp : Nat → pdata)
    (events : List (Nat × τ.Flt)) :
    ∃ e0 e', FormulaModulatorEditor.construct c true s ls fs lid scene tp = some e0 ∧
      handleEvents c events e0 = some e' ∧
      (e'.derived.debugPanel.isOpen = true → e'.derived.debugPanel.lfoDebugger.isSome = true) ∧
      (FormulaModulatorEditor.updateDebuggerIfNeeded c e').isSome = true ∧
      (e'.derived.debugPanel.isOpen = true → (refreshDebuggerView c e').isSome = true) := by
  obtain ⟨e0, h0, hinv0, -⟩ := construct_invariant c s ls fs lid scene tp
  obtain ⟨e', h1, hinv⟩ := handleEvents_invariant c events e0 hinv0
  obtain ⟨e2, h2, -⟩ := updateDebuggerIfNeeded_invariant c e' hinv
  refine ⟨e0, e', h0, h1, hinv.2.2, by rw [h2]; rfl, ?_⟩
  intro ho
  obtain ⟨l, hl⟩ := Option.isSome_iff_exists.mp (hinv.2.2 ho)
  obtain ⟨e3, fs3, h3, -⟩ := refreshDebuggerView_spec c e' l hl
  rw [h3]
  rfl

end Reachable

section Tabs

open CodeEditorContainerWithApply ExpandingFormulaDebugger

variable {τ : Sorts}

/-- C20: the persisted tab and debugger flags mirror the view.  After
`showModulatorCode` (in either editor) the main editor is visible, the prelude
is not and `codeOrPrelude` is 0; after `showPreludeCode` the prelude is
visible, the main editor is not and `codeOrPrelude` is 1.  An editor
constructed with persisted `codeOrPrelude` 0 or 1 shows the main editor exactly
when the value is 0 and the prelude exactly when it is 1, and keeps the value.
After `setOpen(b)` the open flag of the panel, its visibility and the persisted
`debuggerOpen` all equal `b`. -/
theorem C20_flags_mirror_view (c : Collab τ) (f : FormulaModulatorEditor τ)
    (w : WavetableScriptEditor τ) (b : Bool) (s : SurgeStorage τ) (ls : LFOStorage τ)
    (fs : FormulaModulatorStorage) (lid scene : Int) (tp : Nat → pdata)
    (os : OscillatorStorage τ) (ed : Bool)
    (hcp : s.editState.codeOrPrelude = 0 ∨ s.editState.codeOrPrelude = 1) :
    ((FormulaModulatorEditor.showModulatorCode f).derived.mainEditor_visible = true ∧
      (FormulaModulatorEditor.showModulatorCode f).derived.preludeDisplay_visible = false ∧
      (FormulaModulatorEditor.showModulatorCode f).storage.editState.codeOrPrelude = 0) ∧
    ((FormulaModulatorEditor.showPreludeCode f).derived.mainEditor_visible = false ∧
      (FormulaModulatorEditor.showPreludeCode f).derived.preludeDisplay_visible = true ∧
      (FormulaModulatorEditor.showPreludeCode f).storage.editState.codeOrPrelude = 1) ∧
    ((WavetableScriptEditor.showModulatorCode w).derived.mainEditor_visible = true ∧
      (WavetableScriptEditor.showModulatorCode w).derived.preludeDisplay_visible = false ∧
      (WavetableScriptEditor.showModulatorCode w).storage.editState.codeOrPrelude = 0) ∧
    ((WavetableScriptEditor.showPreludeCode w).derived.mainEditor_visible = false ∧
      (WavetableScriptEditor.showPreludeCode w).derived.preludeDisplay_visible = true ∧
      (WavetableScriptEditor.showPreludeCode w).storage.editState.codeOrPrelude = 1) ∧
    (∃ e0, FormulaModulatorEditor.construct c true s ls fs lid scene tp = some e0 ∧
      e0.storage.editState.codeOrPrelude = s.editState.codeOrPrelude ∧
      (e0.derived.mainEditor_visible = true ↔ s.editState.codeOrPrelude = 0) ∧
      (e0.derived.preludeDisplay_visible = true ↔ s.editState.codeOrPrelude = 1)) ∧
    ((WavetableScriptEditor.construct c ed s os).storage.editState.codeOrPrelude
        = s.editState.codeOrPrelude ∧
      ((WavetableScriptEditor.construct c ed s os).derived.mainEditor_visible = true ↔
        s.editState.codeOrPrelude = 0) ∧
      ((WavetableScriptEditor.construct c ed s os).derived.preludeDisplay_visible = true ↔
        s.editState.codeOrPrelude = 1)) ∧
    ((setOpen b f).derived.debugPanel.isOpen = b ∧
      (setOpen b f).derived.debugPanel.visible = b ∧
      (setOpen b f).storage.editState.debuggerOpen = b) := by
  refine ⟨⟨rfl, rfl, rfl⟩, ⟨rfl, rfl, rfl⟩, ⟨rfl, rfl, rfl⟩, ⟨rfl, rfl, rfl⟩, ?_, ?_,
    ⟨rfl, rfl, rfl⟩⟩
  · obtain ⟨e0, h0, -, -, h4, h5, h6⟩ := construct_invariant c s ls fs lid scene tp
    refine ⟨e0, h0, h4, ?_, ?_⟩
    · rw [h5]
      rcases hcp with h | h <;> simp [h]
    · rw [h6]
      simp
  · rcases hcp with h | h <;> cases ht : os.wavetable_formula <;>
      cases hd : c.defaultWavetableScript <;>
      simp [WavetableScriptEditor.construct, insertText, codeDocumentTextInserted, ht, hd, h,
        WavetableScriptEditor.showModulatorCode, WavetableScriptEditor.showPreludeCode,
        ApplyTarget.setApplyEnabled, WavetableScriptEditorPart.setApplyEnabled, call]

/-- Witness of C20: the sample editors, constructed with the prelude tab
persisted. -/
theorem C20_flags_mirror_view_witness :
    (∃ e0, FormulaModulatorEditor.construct sampleCollab true (sampleStorageWith 1 true)
        sampleLfos ⟨['x']⟩ 0 0 (fun _ => ⟨0⟩) = some e0 ∧
      (e0.derived.preludeDisplay_visible = true ↔
        (sampleStorageWith 1 true).editState.codeOrPrelude = 1)) ∧
    (WavetableScriptEditor.construct sampleCollab true (sampleStorageWith 1 true)
      sampleOscillatorStorage).derived.preludeDisplay_visible = true := by
  obtain ⟨-, -, -, -, ⟨e0, h0, -, -, h3⟩, ⟨-, -, h6⟩, -⟩ := C20_flags_mirror_view sampleCollab
    (sampleFormulaEditor ['x'] ['y']) (sampleWavetableEditor ['x'] ['y']) true
    (sampleStorageWith 1 true) sampleLfos ⟨['x']⟩ 0 0 (fun _ => ⟨0⟩) sampleOscillatorStorage true
    (Or.inr rfl)
  exact ⟨⟨e0, h0, h3⟩, h6.mpr rfl⟩

end Tabs

section Scroll

open CodeEditorContainerWithApply WavetablePreviewComponent

variable {τ : Sorts}

/-- C30: the scroll offset of the filmstrip is clamped.  After
`adjustStartX(delta)`, `startX` is 0 when `paintWidth <= 0` and
`min(0, max(-paintWidth, startX + delta))` otherwise, so that it lies between
`-max(paintWidth, 0)` and 0; the other members are untouched, and
`adjustStartX(0)` applied twice gives the same as applied once. -/
theorem C30_startX_clamped (delta : Int) (r : WavetablePreviewComponent τ) :
    (r.paintWidth ≤ 0 → (r.adjustStartX delta).startX = 0) ∧
    (r.paintWidth > 0 →
      (r.adjustStartX delta).startX = min 0 (max (-r.paintWidth) (r.startX + delta))) ∧
    -(max r.paintWidth 0) ≤ (r.adjustStartX delta).startX ∧
    (r.adjustStartX delta).startX ≤ 0 ∧
    (r.adjustStartX delta).paintWidth = r.paintWidth ∧
    (r.adjustStartX delta).frameNumber = r.frameNumber ∧
    (r.adjustStartX delta).points = r.points ∧
    (r.adjustStartX delta).mode = r.mode ∧
    (r.adjustStartX 0).adjustStartX 0 = r.adjustStartX 0 := by
  have hpw : ∀ d, (r.adjustStartX d).paintWidth = r.paintWidth := by
    intro d
    unfold adjustStartX paintWidth
    dsimp only
    split_ifs <;> rfl
  have hstart : ∀ d, (r.adjustStartX d).startX =
      if r.paintWidth > 0 then max (-r.paintWidth) (min 0 (r.startX + d)) else 0 := by
    intro d
    unfold adjustStartX paintWidth
    dsimp only
    split_ifs <;> rfl
  refine ⟨?_, ?_, ?_, ?_, hpw delta, ?_, ?_, ?_, ?_⟩
  · intro h
    rw [hstart, if_neg (by omega)]
  · intro h
    rw [hstart, if_pos h]
    omega
  · rw [hstart]
    split_ifs <;> omega
  · rw [hstart]
    split_ifs <;> omega
  · unfold adjustStartX
    dsimp only
    split_ifs <;> rfl
  · unfold adjustStartX
    dsimp only
    split_ifs <;> rfl
  · unfold adjustStartX
    dsimp only
    split_ifs <;> rfl
  · have h1 := hstart 0
    have h2 := hpw 0
    unfold paintWidth at h1 h2
    by_cases hp : r.frameCount * (r.height + fsGap) - fsGap + 2 + axisSpaceX - r.width > 0
    · rw [if_pos hp] at h1
      have e1 : r.adjustStartX 0 = { r with startX := max (-(r.frameCount * (r.height + fsGap)
          - fsGap + 2 + axisSpaceX - r.width)) (min 0 (r.startX + 0)) } := by
        unfold adjustStartX
        dsimp only
        rw [if_pos hp]
      rw [e1]
      unfold adjustStartX
      dsimp only
      rw [if_pos hp]
      congr 1
      omega
    · have e1 : r.adjustStartX 0 = { r with startX := 0 } := by
        unfold adjustStartX
        dsimp only
        rw [if_neg hp]
      rw [e1]
      unfold adjustStartX
      dsimp only
      rw [if_neg hp]

/-- Counterexample to C29: with frame number 50 shown and the frames field at
10, one drag event in single-frame mode, and one call of `setCurrentFrame(1)`,
take the frame number to 10, a change of 40. -/
theorem C29_drag_from_frame_above_field :
    (sampleWavetableEditorAt 50).derived.rendererComponent.frameNumber = 50 ∧
    (sampleWavetableEditorAt 50).derived.controlArea.map (fun a => a.framesN) = some 10 ∧
    (mouseDrag 0 0 0 (sampleWavetableEditorAt 50)).map
        (fun r => r.1.derived.rendererComponent.frameNumber) = some 10 ∧
    (WavetableScriptEditor.setCurrentFrame 1 (sampleWavetableEditorAt 50)).map
        (fun r => r.derived.rendererComponent.frameNumber) = some 10 := by
  decide

/-- C29 (amended): scrubbing keeps the frame number in range.  With a frames
field of at least 1, `setCurrentFrame(value)` leaves the frame number of the
preview at `old + value` clamped to the range from 1 to the frames field, and
the current-frame field at the same number.  `mouseDrag` in single-frame mode
calls it with the sign of the drag delta, so that a frame number that was in
range moves by at most one, while a frame number above the frames field
becomes the frames field and one below 1 becomes 1. -/
theorem C29_scrubbing_in_range (value : Int) (e : WavetableScriptEditor τ)
    (ca : WavetableScriptControlArea) (hca : e.derived.controlArea = some ca)
    (hmax : 1 ≤ ca.framesN) :
    (∃ e', WavetableScriptEditor.setCurrentFrame value e = some e' ∧
      e'.derived.rendererComponent.frameNumber =
        max 1 (min ca.framesN (e.derived.rendererComponent.frameNumber + value)) ∧
      e'.derived.controlArea.map (fun a => a.currentFrameN) =
        some e'.derived.rendererComponent.frameNumber ∧
      e'.derived.controlArea.map (fun a => a.framesN) = some ca.framesN ∧
      1 ≤ e'.derived.rendererComponent.frameNumber ∧
      e'.derived.rendererComponent.frameNumber ≤ ca.framesN) ∧
    (∀ x y lastDrag : Int, e.derived.rendererComponent.mode = 0 →
      ∃ e', WavetableScriptEditor.setCurrentFrame (Int.sign ((x + -y - lastDrag) * 2)) e
          = some e' ∧
        mouseDrag x y lastDrag e = some (e'.call .repaint, x + -y) ∧
        (1 ≤ e.derived.rendererComponent.frameNumber →
          e.derived.rendererComponent.frameNumber ≤ ca.framesN →
          |e'.derived.rendererComponent.frameNumber - e.derived.rendererComponent.frameNumber|
            ≤ 1) ∧
        (ca.framesN < e.derived.rendererComponent.frameNumber →
          e'.derived.rendererComponent.frameNumber = ca.framesN) ∧
        (e.derived.rendererComponent.frameNumber < 1 →
          e'.derived.rendererComponent.frameNumber = 1)) := by
  have hset : ∀ v : Int, ∃ e', WavetableScriptEditor.setCurrentFrame v e = some e' ∧
      e'.derived.rendererComponent.frameNumber =
        max 1 (min ca.framesN (e.derived.rendererComponent.frameNumber + v)) ∧
      e'.derived.controlArea.map (fun a => a.currentFrameN) =
        some e'.derived.rendererComponent.frameNumber ∧
      e'.derived.controlArea.map (fun a => a.framesN) = some ca.framesN := by
    intro v
    simp only [WavetableScriptEditor.setCurrentFrame, hca]
    refine ⟨_, rfl, ?_, rfl, rfl⟩
    dsimp only
    split_ifs <;> omega
  refine ⟨?_, ?_⟩
  · obtain ⟨e', h1, h2, h3, h4⟩ := hset value
    refine ⟨e', h1, h2, h3, h4, ?_, ?_⟩ <;> rw [h2] <;> omega
  · intro x y lastDrag hmode
    obtain ⟨e', h1, h2, -⟩ := hset (Int.sign ((x + -y - lastDrag) * 2))
    have hsign : (if (x + -y - lastDrag) * 2 > 0 then (1 : Int)
        else if (x + -y - lastDrag) * 2 < 0 then -1 else 0)
        = Int.sign ((x + -y - lastDrag) * 2) := by
      split_ifs with p n
      · exact (Int.sign_eq_one_of_pos p).symm
      · exact (Int.sign_eq_neg_one_of_neg n).symm
      · have : (x + -y - lastDrag) * 2 = 0 := by omega
        rw [this]
        rfl
    have hs : Int.sign ((x + -y - lastDrag) * 2) = 1 ∨
        Int.sign ((x + -y - lastDrag) * 2) = 0 ∨
        Int.sign ((x + -y - lastDrag) * 2) = -1 := by
      rw [← hsign]
      split_ifs <;> simp
    refine ⟨e', h1, ?_, ?_, ?_, ?_⟩
    · simp only [mouseDrag, hmode, if_true, hsign, h1]
    · intro hlo hhi
      rw [h2, abs_le]
      rcases hs with h | h | h <;> rw [h] <;> constructor <;> omega
    · intro hhi
      rw [h2]
      rcases hs with h | h | h <;> rw [h] <;> omega
    · intro hlo
      rw [h2]
      rcases hs with h | h | h <;> rw [h] <;> omega

/-- Witness of C29: the sample editor showing frame 10 of 10, dragged to the
right. -/
theorem C29_scrubbing_in_range_witness :
    ∃ e', WavetableScriptEditor.setCurrentFrame 1 (sampleWavetableEditorAt 10) = some e' ∧
      e'.derived.rendererComponent.frameNumber = 10 ∧
      e'.derived.controlArea.map (fun a => a.currentFrameN) = some 10 := by
  obtain ⟨⟨e', h1, h2, h3, -⟩, -⟩ := C29_scrubbing_in_range 1 (sampleWavetableEditorAt 10)
    { sampleWavetableControlArea with currentFrameN := 10 } rfl (by decide)
  have h10 : e'.derived.rendererComponent.frameNumber = 10 := by
    rw [h2]
    decide
  exact ⟨e', h1, h10, by rw [h3, h10]⟩

end Scroll

section DebugTable

open CodeEditorContainerWithApply ExpandingFormulaDebugger

variable {τ : Sorts}

/-- C21: the debugger table shows the introspection result in its order.
After a step or a refresh the rows of the table model are the sequence that
`createDebugDataOfModState` returns for the state of the modulation source
after the step or refresh, whatever the rows were before.  For a row number
within the rows, `getText` gives the label in column 1; in column 2 the empty
string for a row without value and the text of a value that is a string; and
the empty string in every other column. -/
theorem C21_debug_rows (c : Collab τ) (doStep : Bool) (e : FormulaModulatorEditor τ)
    (l : LFOModulationSource τ) (hl : e.derived.debugPanel.lfoDebugger = some l) :
    (∃ e' l', updateDebuggerWithOptionalStep c doStep e = some e' ∧
      e'.derived.debugPanel.lfoDebugger = some l' ∧
      e'.derived.debugPanel.rows = c.createDebugDataOfModState l'.formulastate ∧
      ∀ rows0, (updateDebuggerWithOptionalStep c doStep
          { e with derived := { e.derived with
              debugPanel := { e.derived.debugPanel with rows := rows0 } } }).map
            (fun r => r.derived.debugPanel.rows) = some e'.derived.debugPanel.rows) ∧
    (∀ (format3 : τ.Flt → String) (rows : List (DebugRow τ)) (i : Nat) (r : DebugRow τ),
      rows[i]? = some r →
        DebugDataModel.getText format3 rows i 1 = some r.label ∧
        (r.hasValue = false → DebugDataModel.getText format3 rows i 2 = some "") ∧
        (∀ sv, r.hasValue = true → r.value = Sum.inr sv →
          DebugDataModel.getText format3 rows i 2 = some sv) ∧
        (∀ col : Int, col ≠ 1 → col ≠ 2 → DebugDataModel.getText format3 rows i col = some "")) := by
  refine ⟨?_, ?_⟩
  · cases hed : e.editor <;> cases doStep <;>
      simp [updateDebuggerWithOptionalStep, call, hl, hed]
  · intro format3 rows i r hr
    have hi : ¬ ((i : Int) < 0) := by omega
    refine ⟨?_, ?_, ?_, ?_⟩
    · simp [DebugDataModel.getText, hr]
    · intro hv
      simp [DebugDataModel.getText, hr, hv]
    · intro sv hv hs
      simp [DebugDataModel.getText, hr, hv, hs]
    · intro col h1 h2
      simp [DebugDataModel.getText, hr, h1, h2]

/-- Witness of C21: a step of the sample editor with an open debugger; the
sample introspection yields one row, labelled `rate`. -/
theorem C21_debug_rows_witness :
    ∃ e', stepLfoDebugger sampleCollab (sampleOpenFormulaEditor [] []) = some e' ∧
      e'.derived.debugPanel.rows.map (fun r => r.label) = ["rate"] := by
  obtain ⟨⟨e', l', h1, h2, h3, -⟩, -⟩ := C21_debug_rows sampleCollab true
    (sampleOpenFormulaEditor [] []) sampleSource rfl
  refine ⟨e', h1, ?_⟩
  rw [h3]
  rfl

end DebugTable

section SearchNavigation

open CodeEditorSearch

set_option maxRecDepth 8000 in
/-- C23 (divergence): with three matches and the first one current,
`showResult(1)` makes the second match current and highlights it, and the
label reads 1/3, the number of the match that was current before the call;
with increment 0 the label names the highlighted match, and without matches it
reads 0/0. -/
theorem C23_label_names_previous_match :
    (showResult 1 sampleSearch).map
        (fun s => (s.labelResult, s.resultCurrent, s.highlightedRegion)) =
      some ("1/3", 1, (3, 5)) ∧
    ((showResult 1 sampleSearch).bind (showResult 1)).map
        (fun s => (s.labelResult, s.resultCurrent, s.highlightedRegion)) =
      some ("2/3", 2, (5, 7)) ∧
    (showResult 0 sampleSearch).map
        (fun s => (s.labelResult, s.resultCurrent, s.highlightedRegion)) =
      some ("1/3", 0, (1, 3)) ∧
    (showResult 1 sampleEmptySearch).map (fun s => s.labelResult) = some "0/0" := by
  refine ⟨?_, ?_, ?_, ?_⟩ <;> decide

/-- C24: search navigation stays in range and wraps.  With matches, a current
index within them and an increment of -1, 0 or 1, `showResult` sets
`resultCurrent` to the old value plus the increment modulo `resultTotal`,
which lies within the matches, reads `result` there and highlights the region
from that offset over the length of the query; `showResult(1)` followed by
`showResult(-1)` restores `resultCurrent`.  Without matches `resultCurrent` and
the highlighted region stay as they are. -/
theorem C24_navigation_wraps (s : CodeEditorSearch) (increment : Int)
    (htotal : 0 < s.resultTotal) (hlen : s.resultTotal ≤ s.result.length)
    (hcur0 : 0 ≤ s.resultCurrent) (hcur1 : s.resultCurrent < s.resultTotal)
    (hinc : increment = -1 ∨ increment = 0 ∨ increment = 1) :
    (∃ s' start, showResult increment s = some s' ∧
      s'.resultCurrent = (s.resultCurrent + increment) % s.resultTotal ∧
      0 ≤ s'.resultCurrent ∧ s'.resultCurrent < s.resultTotal ∧
      s'.resultTotal = s.resultTotal ∧ s'.result = s.result ∧ s'.query = s.query ∧
      s.result[s'.resultCurrent.toNat]? = some start ∧
      s'.highlightedRegion = (start, start + s.query.length)) ∧
    ((showResult 1 s).bind (showResult (-1))).map (fun r => r.resultCurrent)
      = some s.resultCurrent ∧
    (∀ s0 : CodeEditorSearch, s0.resultTotal = 0 →
      ∃ s', showResult increment s0 = some s' ∧ s'.resultCurrent = s0.resultCurrent ∧
        s'.highlightedRegion = s0.highlightedRegion ∧ s'.labelResult = "0/0") := by
  have key : ∀ (t : CodeEditorSearch) (inc : Int), 0 < t.resultTotal →
      t.resultTotal ≤ t.result.length → 0 ≤ t.resultCurrent → t.resultCurrent < t.resultTotal →
      (inc = -1 ∨ inc = 0 ∨ inc = 1) →
      ∃ s' start, showResult inc t = some s' ∧
        s'.resultCurrent = (t.resultCurrent + inc) % t.resultTotal ∧
        0 ≤ s'.resultCurrent ∧ s'.resultCurrent < t.resultTotal ∧
        s'.resultTotal = t.resultTotal ∧ s'.result = t.result ∧ s'.query = t.query ∧
        t.result[s'.resultCurrent.toNat]? = some start ∧
        s'.highlightedRegion = (start, start + t.query.length) := by
    intro t inc h0 hl hc0 hc1 hi
    have hne : t.resultTotal ≠ 0 := by omega
    have hnn : 0 ≤ t.resultCurrent + inc + t.resultTotal := by
      rcases hi with h | h | h <;> omega
    have hmod : Int.tmod (t.resultCurrent + inc + t.resultTotal) t.resultTotal
        = (t.resultCurrent + inc) % t.resultTotal := by
      rw [Int.tmod_eq_emod hnn (le_of_lt h0), Int.add_emod_self]
    have hr0 : 0 ≤ (t.resultCurrent + inc) % t.resultTotal := Int.emod_nonneg _ hne
    have hr1 : (t.resultCurrent + inc) % t.resultTotal < t.resultTotal :=
      Int.emod_lt_of_pos _ h0
    have hidx : ((t.resultCurrent + inc) % t.resultTotal).toNat < t.result.length := by omega
    have hshow : showResult inc t = some { t with
        highlightColors := true
        labelResult := toString (t.resultCurrent + 1) ++ "/" ++ toString t.resultTotal
        resultCurrent := (t.resultCurrent + inc) % t.resultTotal
        highlightedRegion := (t.result[((t.resultCurrent + inc) % t.resultTotal).toNat],
          t.result[((t.resultCurrent + inc) % t.resultTotal).toNat] + t.query.length) } := by
      simp only [showResult, hne, if_false, hmod]
      rw [if_neg (by omega), List.getElem?_eq_getElem hidx]
    exact ⟨_, t.result[((t.resultCurrent + inc) % t.resultTotal).toNat], hshow, rfl, hr0, hr1,
      rfl, rfl, rfl, List.getElem?_eq_getElem hidx, rfl⟩
  refine ⟨key s increment htotal hlen hcur0 hcur1 hinc, ?_, ?_⟩
  · obtain ⟨s1, st1, h1, c1, p1, q1, t1, r1, -⟩ :=
      key s 1 htotal hlen hcur0 hcur1 (Or.inr (Or.inr rfl))
    obtain ⟨s2, st2, h2, c2, -⟩ := key s1 (-1) (by rw [t1]; exact htotal)
      (by rw [t1, r1]; exact hlen) p1 (by rw [t1]; exact q1) (Or.inl rfl)
    rw [h1]
    simp only [Option.some_bind, h2, Option.map_some', c2, c1, t1]
    congr 1
    rw [Int.emod_add_emod]
    have : s.resultCurrent + 1 + -1 = s.resultCurrent := by omega
    rw [this]
    exact Int.emod_eq_of_lt hcur0 hcur1
  · intro s0 h0
    have hshow : showResult increment s0 = some { s0 with
        highlightColors := false
        labelResult := toString (0 : Int) ++ "/" ++ toString s0.resultTotal } := by
      simp only [showResult, h0, if_true]
    refine ⟨_, hshow, rfl, rfl, ?_⟩
    simp only [h0]
    rfl

set_option maxRecDepth 8000 in
/-- Witness of C24: from the first of three matches, `showResult(-1)` wraps to
the last one. -/
theorem C24_navigation_wraps_witness :
    ∃ s', showResult (-1) sampleSearch = some s' ∧ s'.resultCurrent = 2 ∧
      s'.highlightedRegion = (5, 7) := by
  obtain ⟨⟨s', start, h1, h2, -, -, -, -, -, h8, h9⟩, -⟩ := C24_navigation_wraps sampleSearch (-1)
    (by decide) (by decide) (by decide) (by decide) (Or.inl rfl)
  have hc : s'.resultCurrent = 2 := by
    rw [h2]
    decide
  rw [hc] at h8
  have hs : start = 5 := by
    have h5 : sampleSearch.result[(2 : Int).toNat]? = some 5 := by decide
    rw [h5] at h8
    exact (Option.some.inj h8).symm
  refine ⟨s', h1, hc, ?_⟩
  rw [h9, hs]
  rfl

end SearchNavigation

section LineEditing

open CodeEditorContainerWithApply

/-- C22 (divergence): with the caret on the first line, the trailing space of
the second line stays; with the caret at the end of a last line that has no
line terminator, one of its two trailing spaces stays.  Lines up to the
caret's line that end in a line terminator are trimmed. -/
theorem C22_whitespace_after_caret_line_stays :
    (removeTrailingWhitespaceFromDocument
        (sampleEditorWithCaret ['a', ' ', '\n', 'b', ' ', '\n'] 0)).mainDocument
      = ['a', '\n', 'b', ' ', '\n'] ∧
    (removeTrailingWhitespaceFromDocument
        (sampleEditorWithCaret ['a', ' ', '\n', 'b', ' ', ' '] 6)).mainDocument
      = ['a', '\n', 'b', ' '] ∧
    (removeTrailingWhitespaceFromDocument
        (sampleEditorWithCaret ['a', ' ', '\n', 'b', ' ', '\n'] 6)).mainDocument
      = ['a', '\n', 'b', '\n'] := by
  refine ⟨?_, ?_, ?_⟩ <;> decide

/-- C26 (divergence): on a last line `abc` without line terminator, with the
caret after `a`, Ctrl/Cmd+D with no selection inserts the line at the caret
and gives `aabcbc`, not two copies of `abc`; on a line with a line terminator
the line is inserted at its start and the caret ends at its column in the
second copy. -/
theorem C26_last_line_is_duplicated_at_caret :
    ((keyPressedDuplicate (0, 0) (sampleEditorWithCaret ['a', 'b', 'c'] 1)).1.mainDocument,
      (keyPressedDuplicate (0, 0) (sampleEditorWithCaret ['a', 'b', 'c'] 1)).1.caretPos)
      = (['a', 'a', 'b', 'c', 'b', 'c'], 4) ∧
    ((keyPressedDuplicate (0, 0)
        (sampleEditorWithCaret ['a', 'b', '\n', 'c', 'd'] 1)).1.mainDocument,
      (keyPressedDuplicate (0, 0)
        (sampleEditorWithCaret ['a', 'b', '\n', 'c', 'd'] 1)).1.caretPos)
      = (['a', 'b', '\n', 'a', 'b', '\n', 'c', 'd'], 4) := by
  refine ⟨?_, ?_⟩ <;> decide

end LineEditing

section Quotes

open CodeEditorContainerWithApply

end Quotes

section ReturnKey

open SurgeCodeEditorComponent

/-- A substring of positive length that starts at an index within the text is
a given word exactly when the word is a prefix of the rest of the text. -/
theorem substring_eq_iff_prefix (t w : Text) (i : Nat) (hw : 0 < w.length) :
    juce.substring t (i : Int) ((i : Int) + w.length) = w ↔ w <+: t.drop i := by
  unfold juce.substring
  have h1 : max 0 (i : Int) = i := by omega
  simp only [h1]
  rw [if_neg (by omega)]
  have h2 : ((i : Int) + w.length - i).toNat = w.length := by omega
  rw [h2, Int.toNat_ofNat, List.prefix_iff_eq_take]
  exact eq_comm

/-- The substring over the last characters of a text is a given word exactly
when the word is a suffix of the text. -/
theorem substring_eq_iff_suffix (t w : Text) (hw : 0 < w.length) :
    juce.substring t ((t.length : Int) - w.length) t.length = w ↔ w <:+ t := by
  unfold juce.substring
  by_cases hlen : w.length ≤ t.length
  · have h1 : max 0 ((t.length : Int) - w.length) = ((t.length - w.length : Nat) : Int) := by
      omega
    simp only [h1]
    rw [if_neg (by omega)]
    have h2 : ((t.length : Int) - ((t.length - w.length : Nat) : Int)).toNat = w.length := by
      omega
    rw [h2, Int.toNat_ofNat, List.suffix_iff_eq_drop]
    have h3 : (t.drop (t.length - w.length)).take w.length = t.drop (t.length - w.length) := by
      apply List.take_of_length_le
      rw [List.length_drop]
      omega
    rw [h3]
    exact eq_comm
  · have h1 : max 0 ((t.length : Int) - w.length) = 0 := by omega
    simp only [h1]
    have hns : ¬ (w <:+ t) := fun h => hlen h.length_le
    by_cases h0 : (t.length : Int) ≤ 0
    · rw [if_pos h0]
      constructor
      · intro h
        rw [← h] at hw
        simp at hw
      · intro h
        exact absurd h hns
    · rw [if_neg h0]
      constructor
      · intro h
        have := congrArg List.length h
        simp at this
        omega
      · intro h
        exact absurd h hns

/-- Leading spaces and tabs are dropped up to the first other character. -/
theorem dropWhile_blank_append (pre rest : Text)
    (hpre : ∀ x ∈ pre, (decide (x = ' ') || decide (x = '\t')) = true) :
    (pre ++ rest).dropWhile (fun c => decide (c = ' ') || decide (c = '\t'))
      = rest.dropWhile (fun c => decide (c = ' ') || decide (c = '\t')) := by
  induction pre with
  | nil => rfl
  | cons a pre ih =>
    rw [List.cons_append, List.dropWhile_cons, if_pos (hpre a (List.mem_cons_self _ _))]
    exact ih (fun x hx => hpre x (List.mem_cons_of_mem _ hx))

/-- The loop of `handleReturnKey` from a point of the line before which there
are only spaces and tabs. -/
theorem returnKeyLoop_spec (tabSize : Nat) (txt : Text) (rest pre : Text) (tabs : Nat)
    (htxt : txt = pre ++ rest)
    (hpre : ∀ x ∈ pre, (decide (x = ' ') || decide (x = '\t')) = true) :
    returnKeyLoop tabSize txt rest pre.length tabs
      = tabs + leadingWidth tabSize rest + (if addsIndent txt then tabSize else 0) := by
  induction rest generalizing pre tabs with
  | nil =>
    have hbody : txt.dropWhile (fun c => decide (c = ' ') || decide (c = '\t')) = [] := by
      rw [htxt, dropWhile_blank_append pre [] hpre]
      rfl
    simp [returnKeyLoop, leadingWidth, addsIndent, hbody]
  | cons c r ih =>
    by_cases hs : c = ' '
    · have := ih (pre ++ [c]) (tabs + 1) (by rw [htxt]; simp) (by
        intro x hx
        rcases List.mem_append.mp hx with h | h
        · exact hpre x h
        · have : x = c := by simpa using h
          rw [this, hs]
          rfl)
      simp only [List.length_append, List.length_singleton, Nat.cast_add, Nat.cast_one] at this
      simp only [returnKeyLoop, hs, if_true, leadingWidth]
      rw [this]
      omega
    · by_cases ht : c = '\t'
      · have := ih (pre ++ [c]) (tabs + tabSize) (by rw [htxt]; simp) (by
          intro x hx
          rcases List.mem_append.mp hx with h | h
          · exact hpre x h
          · have : x = c := by simpa using h
            rw [this, ht]
            rfl)
        simp only [List.length_append, List.length_singleton, Nat.cast_add, Nat.cast_one] at this
        have hts : ¬ ('\t' = ' ') := by decide
        simp only [returnKeyLoop, ht, hts, if_true, if_false, leadingWidth]
        rw [this]
        omega
      · have hbody : txt.dropWhile (fun c => decide (c = ' ') || decide (c = '\t')) = c :: r := by
          rw [htxt, dropWhile_blank_append pre (c :: r) hpre, List.dropWhile_cons]
          simp [hs, ht]
        have hdrop : txt.drop pre.length = c :: r := by
          rw [htxt]
          simp
        have hfun : juce.substring txt (pre.length : Int) ((pre.length : Int) + 8)
            = ['f', 'u', 'n', 'c', 't', 'i', 'o', 'n'] ↔
            ['f', 'u', 'n', 'c', 't', 'i', 'o', 'n'] <+: c :: r := by
          have := substring_eq_iff_prefix txt ['f', 'u', 'n', 'c', 't', 'i', 'o', 'n'] pre.length
            (by decide)
          rw [hdrop] at this
          exact this
        have hif : juce.substring txt (pre.length : Int) ((pre.length : Int) + 2) = ['i', 'f'] ↔
            ['i', 'f'] <+: c :: r := by
          have := substring_eq_iff_prefix txt ['i', 'f'] pre.length (by decide)
          rw [hdrop] at this
          exact this
        have hthen := substring_eq_iff_suffix (juce.trim txt) ['t', 'h', 'e', 'n'] (by decide)
        have hdo := substring_eq_iff_suffix (juce.trim txt) ['d', 'o'] (by decide)
        have helse := substring_eq_iff_prefix (juce.trim txt) ['e', 'l', 's', 'e'] 0 (by decide)
        have hwhile := substring_eq_iff_prefix (juce.trim txt) ['w', 'h', 'i', 'l', 'e'] 0
          (by decide)
        simp only [List.length_cons, List.length_nil, List.drop_zero, Nat.cast_zero, zero_add,
          Nat.cast_ofNat, Nat.reduceAdd] at hthen hdo helse hwhile hfun hif
        simp only [returnKeyLoop, hs, ht, if_false, leadingWidth, addsIndent, hbody]
        simp only [hfun, hif, hthen, hdo, helse, hwhile, List.isPrefixOf_iff_prefix,
          List.isSuffixOf_iff_suffix, Bool.or_eq_true, Bool.and_eq_true, decide_eq_true_eq]
        simp only [List.isEmpty_cons, Bool.not_false, Bool.true_and, add_zero]
        by_cases a1 : ['f', 'u', 'n', 'c', 't', 'i', 'o', 'n'] <+: c :: r <;>
        by_cases a2 : (['i', 'f'] <+: c :: r ∧ ['t', 'h', 'e', 'n'] <:+ juce.trim txt) <;>
        by_cases a3 : ['e', 'l', 's', 'e'] <+: juce.trim txt <;>
        by_cases a4 : ['d', 'o'] <:+ juce.trim txt <;>
        by_cases a5 : ['w', 'h', 'i', 'l', 'e'] <+: juce.trim txt <;>
        simp [a1, a2, a3, a4, a5]

/-- A line of whitespace only does not meet the condition for an added
indentation. -/
theorem addsIndent_of_whitespace (txt : Text) (hws : ∀ c ∈ txt, juce.isWhitespace c = true) :
    addsIndent txt = false := by
  have htrim : juce.trim txt = [] := by
    have h1 : txt.dropWhile juce.isWhitespace = [] := List.dropWhile_eq_nil_iff.mpr hws
    simp [juce.trim, h1, juce.trimEnd, List.rdropWhile]
  have hbody : ∀ x ∈ txt.dropWhile (fun c => decide (c = ' ') || decide (c = '\t')),
      juce.isWhitespace x = true :=
    fun x hx => hws x ((List.dropWhile_sublist _).subset hx)
  have hf : ¬ (['f', 'u', 'n', 'c', 't', 'i', 'o', 'n'] <+:
      txt.dropWhile (fun c => decide (c = ' ') || decide (c = '\t'))) := by
    intro h
    have := hbody 'f' (h.subset (List.mem_cons_self _ _))
    exact absurd this (by decide)
  have hi : ¬ (['i', 'f'] <+:
      txt.dropWhile (fun c => decide (c = ' ') || decide (c = '\t'))) := by
    intro h
    have := hbody 'i' (h.subset (List.mem_cons_self _ _))
    exact absurd this (by decide)
  simp only [addsIndent, htrim]
  cases hb : (txt.dropWhile (fun c => decide (c = ' ') || decide (c = '\t'))).isEmpty
  · have h1 : List.isPrefixOf ['f', 'u', 'n', 'c', 't', 'i', 'o', 'n']
        (txt.dropWhile (fun c => decide (c = ' ') || decide (c = '\t'))) = false := by
      rw [Bool.eq_false_iff]
      intro h
      exact hf (List.isPrefixOf_iff_prefix.mp h)
    have h2 : List.isPrefixOf ['i', 'f']
        (txt.dropWhile (fun c => decide (c = ' ') || decide (c = '\t'))) = false := by
      rw [Bool.eq_false_iff]
      intro h
      exact hi (List.isPrefixOf_iff_prefix.mp h)
    rw [h1, h2]
    decide
  · rfl

/-- Counterexample to C27: the lines `undo` and `functional = 1` open no Lua
block, their first and last words are no keywords, and `handleReturnKey` still
asks for an indentation of one tab size after them. -/
theorem C27_prefix_and_suffix_tests_indent :
    (returnKeyTabs 4 ['u', 'n', 'd', 'o', '\n'] = 4 ∧
      leadingWidth 4 ['u', 'n', 'd', 'o', '\n'] = 0 ∧
      firstWord ['u', 'n', 'd', 'o', '\n'] = ['u', 'n', 'd', 'o'] ∧
      lastWord ['u', 'n', 'd', 'o', '\n'] = ['u', 'n', 'd', 'o']) ∧
    (returnKeyTabs 4 ['f', 'u', 'n', 'c', 't', 'i', 'o', 'n', 'a', 'l', ' ', '=', ' ', '1', '\n']
        = 4 ∧
      firstWord ['f', 'u', 'n', 'c', 't', 'i', 'o', 'n', 'a', 'l', ' ', '=', ' ', '1', '\n']
        = ['f', 'u', 'n', 'c', 't', 'i', 'o', 'n', 'a', 'l'] ∧
      lastWord ['f', 'u', 'n', 'c', 't', 'i', 'o', 'n', 'a', 'l', ' ', '=', ' ', '1', '\n']
        = ['1']) := by
  decide

/-- C27 (amended): auto-indentation on Return.  `handleReturnKey` inserts a
line feed and then `w + d` spaces, where `w` is the width of the leading
spaces and tabs of the line (a space counts 1, a tab the tab size) and `d` is
the tab size when the line meets the prefix and suffix tests of `addsIndent`
and 0 otherwise; a line of whitespace only gives `d = 0`, and the new
indentation is never smaller than `w`. -/
theorem C27_return_key_indentation (tabSize : Nat) (txt : Text) :
    handleReturnKey tabSize txt =
      [.insertTextAtCaret ['\n'],
       .insertTextAtCaret (List.replicate
          (leadingWidth tabSize txt + (if addsIndent txt then tabSize else 0)) ' ')] ∧
    ((∀ c ∈ txt, juce.isWhitespace c = true) →
      returnKeyTabs tabSize txt = leadingWidth tabSize txt) ∧
    leadingWidth tabSize txt ≤ returnKeyTabs tabSize txt := by
  have h : returnKeyTabs tabSize txt
      = leadingWidth tabSize txt + (if addsIndent txt then tabSize else 0) := by
    have := returnKeyLoop_spec tabSize txt txt [] 0 rfl (by simp)
    simp only [List.length_nil, Nat.cast_zero, zero_add] at this
    exact this
  refine ⟨?_, ?_, ?_⟩
  · simp only [handleReturnKey, h]
  · intro hws
    rw [h, addsIndent_of_whitespace txt hws]
    simp
  · rw [h]
    omega

end ReturnKey

section SearchFill

open CodeEditorSearch

/-- The first element that satisfies a test is the head of the filtered
list. -/
theorem find?_eq_head?_filter {α : Type} (p : α → Bool) (l : List α) :
    l.find? p = (l.filter p).head? := by
  induction l with
  | nil => rfl
  | cons a l ih =>
    by_cases h : p a = true
    · rw [List.find?_cons_of_pos _ h, List.filter_cons_of_pos h]
      rfl
    · rw [List.find?_cons_of_neg _ h, List.filter_cons_of_neg h]
      exact ih

/-- The numbers below `n` that are at least `pos`. -/
theorem range_filter_le (n pos : Nat) :
    (List.range n).filter (fun i => decide (pos ≤ i)) = (List.range (n - pos)).map (· + pos) := by
  induction n with
  | zero => simp
  | succ n ih =>
    rw [List.range_succ, List.filter_append, ih]
    by_cases h : pos ≤ n
    · have h1 : n + 1 - pos = (n - pos) + 1 := by omega
      rw [h1, List.range_succ, List.map_append]
      simp [h]
    · have h1 : n + 1 - pos = n - pos := by omega
      rw [h1]
      simp [h]

/-- The scan of `indexOfIgnoreCase` finds the first index at which the rest of
the haystack starts with the needle. -/
theorem indexOfIgnoreCaseFrom_eq (up : Char → Char) (q t : Text) (idx : Nat) :
    juce.indexOfIgnoreCaseFrom up t q idx =
      match ((List.range (t.length + 1)).filter
        (fun j => juce.startsWithIgnoreCase up (t.drop j) q)).head? with
      | some j => ((idx + j : Nat) : Int)
      | none => -1 := by
  induction t generalizing idx with
  | nil =>
    unfold juce.indexOfIgnoreCaseFrom
    by_cases h : juce.startsWithIgnoreCase up [] q = true <;> simp [h, List.range_succ]
  | cons c t ih =>
    unfold juce.indexOfIgnoreCaseFrom
    rw [List.length_cons, List.range_succ_eq_map]
    have hcomp : ((fun j => juce.startsWithIgnoreCase up ((c :: t).drop j) q) ∘ Nat.succ)
        = fun j => juce.startsWithIgnoreCase up (t.drop j) q := by
      funext j
      rfl
    by_cases h : juce.startsWithIgnoreCase up (c :: t) q = true
    · rw [if_pos h, List.filter_cons_of_pos (by simpa using h)]
      simp
    · rw [if_neg h, List.filter_cons_of_neg (by simpa using h), List.filter_map, hcomp,
        List.head?_map, ih (idx + 1)]
      cases ((List.range (t.length + 1)).filter
        (fun j => juce.startsWithIgnoreCase up (t.drop j) q)).head? with
      | none => rfl
      | some j =>
        simp only [Option.map_some', Nat.succ_eq_add_one]
        push_cast
        ring

/-- The occurrences are the offsets up to the length of the text at which the
rest of the text starts with the query. -/
theorem mem_occurrences (up : Char → Char) (txt q : Text) (i : Nat) :
    i ∈ occurrences up txt q ↔
      i ≤ txt.length ∧ juce.startsWithIgnoreCase up (txt.drop i) q = true := by
  unfold occurrences
  rw [List.mem_filter, List.mem_range]
  constructor
  · rintro ⟨h1, h2⟩
    exact ⟨by omega, h2⟩
  · rintro ⟨h1, h2⟩
    exact ⟨by omega, h2⟩

/-- The occurrences are listed in strictly increasing order. -/
theorem occurrences_sorted (up : Char → Char) (txt q : Text) :
    (occurrences up txt q).Pairwise (· < ·) :=
  (List.pairwise_lt_range _).filter _

/-- The result of `indexOfIgnoreCase` from a start index: the first
occurrence at or after it, or -1. -/
theorem indexOfIgnoreCase_eq (up : Char → Char) (txt q : Text) (hq : q ≠ []) (pos : Nat) :
    juce.indexOfIgnoreCase up txt (pos : Int) q =
      match (occurrences up txt q).find? (fun i => decide (pos ≤ i)) with
      | some i => (i : Int)
      | none => -1 := by
  unfold juce.indexOfIgnoreCase
  have hqe : q.isEmpty = false := by
    cases q with
    | nil => exact absurd rfl hq
    | cons a l => rfl
  rw [hqe, Int.toNat_ofNat]
  simp only [Bool.false_eq_true, if_false]
  by_cases hpos : pos > txt.length
  · rw [if_pos hpos]
    have hnone : (occurrences up txt q).find? (fun i => decide (pos ≤ i)) = none := by
      rw [List.find?_eq_none]
      intro x hx
      have := ((mem_occurrences up txt q x).mp hx).1
      simp
      omega
    rw [hnone]
  · rw [if_neg hpos, indexOfIgnoreCaseFrom_eq, find?_eq_head?_filter]
    have hocc : (occurrences up txt q).filter (fun i => decide (pos ≤ i))
        = ((List.range ((txt.drop pos).length + 1)).filter
            (fun j => juce.startsWithIgnoreCase up ((txt.drop pos).drop j) q)).map (· + pos) := by
      unfold occurrences
      rw [List.filter_filter]
      have hswap : (fun a => decide (pos ≤ a) && juce.startsWithIgnoreCase up (txt.drop a) q)
          = fun a => juce.startsWithIgnoreCase up (txt.drop a) q && decide (pos ≤ a) := by
        funext a
        exact Bool.and_comm _ _
      rw [hswap, ← List.filter_filter, range_filter_le, List.filter_map]
      have hl : txt.length + 1 - pos = (txt.drop pos).length + 1 := by
        rw [List.length_drop]
        omega
      rw [hl]
      congr 2
      funext j
      simp only [Function.comp, List.drop_drop]
      rw [Nat.add_comm]
    rw [hocc, List.head?_map]
    cases ((List.range ((txt.drop pos).length + 1)).filter
        (fun j => juce.startsWithIgnoreCase up ((txt.drop pos).drop j) q)).head? with
    | none => simp
    | some j =>
      simp only [Option.map_some', zero_add]
      rw [if_pos (Int.natCast_nonneg j)]
      push_cast
      rfl

/-- In a strictly increasing list the first element above the one at an index
is the element at the next index. -/
theorem find?_succ_of_sorted (l : List Nat) (hs : l.Pairwise (· < ·)) (k : Nat) (a : Nat)
    (hk : l[k]? = some a) :
    l.find? (fun x => decide (a + 1 ≤ x)) = l[k + 1]? := by
  induction l generalizing k with
  | nil => simp at hk
  | cons b l ih =>
    obtain ⟨hb, hl⟩ := List.pairwise_cons.mp hs
    cases k with
    | zero =>
      have hab : b = a := by simpa using hk
      subst hab
      rw [List.find?_cons_of_neg _ (by simp)]
      cases l with
      | nil => rfl
      | cons c l =>
        have hbc : b < c := hb c (List.mem_cons_self _ _)
        rw [List.find?_cons_of_pos _ (by simpa using hbc)]
        simp
    | succ k =>
      have hk' : l[k]? = some a := by simpa using hk
      have hmem : a ∈ l := List.getElem?_mem hk'
      have hba : b < a := hb a hmem
      rw [List.find?_cons_of_neg _ (by simp; omega)]
      simpa using ih hl k hk'

/-- One round of the loop of `search` keeps the invariant, and the rounds
given suffice. -/
theorem searchLoop_spec (up : Char → Char) (txt q : Text) (hq : q ≠ []) (caretPos : Int)
    (fuel : Nat) (k : Nat) (st : Loop)
    (hinv : loopInvariant (occurrences up txt q) caretPos k st) (hfuel : 128 ≤ k + fuel) :
    ∃ st', searchLoop up txt q caretPos fuel st = some st' ∧
      loopInvariant (occurrences up txt q) caretPos
        (min 128 (occurrences up txt q).length) st' := by
  induction fuel generalizing k st with
  | zero =>
    obtain ⟨h1, h2, h3, h4, h5, h6, h7, h8⟩ := hinv
    have hk : k = 128 := by omega
    have hmin : min 128 (occurrences up txt q).length = k := by omega
    refine ⟨st, ?_, ?_⟩
    · simp only [searchLoop]
      rw [if_neg (by omega)]
    · rw [hmin]
      exact ⟨h1, h2, h3, h4, h5, h6, h7, h8⟩
  | succ fuel ih =>
    obtain ⟨h1, h2, h3, h4, h5, h6, h7, h8⟩ := hinv
    by_cases hcond : st.res ≠ -1 ∧ st.count < 128
    · have hk : k < 128 := by omega
      cases hocc : (occurrences up txt q)[k]? with
      | none =>
        rw [hocc] at h5
        exact absurd h5 hcond.1
      | some a =>
        rw [hocc] at h5
        replace h5 : st.res = (a : Int) := h5
        have hklen : k < (occurrences up txt q).length := by
          by_contra hge
          rw [List.getElem?_eq_none (by omega)] at hocc
          exact absurd hocc (by simp)
        have hnext : juce.indexOfIgnoreCase up txt (st.res + 1) q =
            (match (occurrences up txt q)[k + 1]? with
              | some i => (i : Int)
              | none => -1) := by
          have := indexOfIgnoreCase_eq up txt q hq (a + 1)
          rw [find?_succ_of_sorted _ (occurrences_sorted up txt q) k a hocc] at this
          rw [h5]
          exact_mod_cast this
        have hstep : searchLoop up txt q caretPos (fuel + 1) st =
            searchLoop up txt q caretPos fuel
              { count := st.count + 1
                res := juce.indexOfIgnoreCase up txt (st.res + 1) q
                result := st.result.set st.count st.res
                resultCurrent := (if caretPos ≤ st.res ∧ (!st.firstFound) = true
                  then ((st.count : Int), true) else (st.resultCurrent, st.firstFound)).1
                firstFound := (if caretPos ≤ st.res ∧ (!st.firstFound) = true
                  then ((st.count : Int), true) else (st.resultCurrent, st.firstFound)).2 } := by
          simp only [searchLoop]
          rw [if_pos hcond, if_pos (by omega)]
        rw [hstep]
        apply ih (k + 1) _ _ (by omega)
        refine ⟨by simp [h1], by omega, by omega, by simp [h4], hnext, ?_, ?_, ?_⟩
        · intro i hi
          dsimp only
          by_cases hik : i = k
          · subst hik
            rw [h1, List.getElem?_set_self (by omega), hocc, h5]
            rfl
          · rw [h1, List.getElem?_set_ne (fun h => hik h.symm)]
            exact h6 i (by omega)
        · intro hff
          by_cases hnew : caretPos ≤ st.res ∧ (!st.firstFound) = true
          · simp only [hnew, and_self, if_true]
            refine ⟨k, by rw [h1], by omega, ⟨a, hocc, by rw [← h5]; exact hnew.1⟩, ?_⟩
            have hf : st.firstFound = false := by simpa using hnew.2
            exact fun j b hj hb => (h8 hf).2 j b hj hb
          · simp only [hnew, if_false] at hff ⊢
            obtain ⟨rc, r1, r2, r3, r4⟩ := h7 hff
            exact ⟨rc, r1, by omega, r3, r4⟩
        · intro hff
          by_cases hnew : caretPos ≤ st.res ∧ (!st.firstFound) = true
          · simp only [hnew, and_self, if_true] at hff
            exact absurd hff (by simp)
          · simp only [hnew, if_false] at hff ⊢
            refine ⟨(h8 hff).1, ?_⟩
            intro j b hj hb
            by_cases hjk : j = k
            · subst hjk
              rw [hocc] at hb
              have hba : b = a := (Option.some.inj hb).symm
              have hnle : ¬ (caretPos ≤ st.res) := by
                intro hle
                exact hnew ⟨hle, by simp [hff]⟩
              rw [hba]
              rw [h5] at hnle
              omega
            · exact (h8 hff).2 j b (by omega) hb
    · refine ⟨st, ?_, ?_⟩
      · simp only [searchLoop]
        rw [if_neg hcond]
      · have hmin : min 128 (occurrences up txt q).length = k := by
          by_cases hres : st.res = -1
          · cases hocc : (occurrences up txt q)[k]? with
            | none =>
              have := List.getElem?_eq_none_iff.mp hocc
              omega
            | some a =>
              rw [hocc, hres] at h5
              replace h5 : (-1 : Int) = (a : Int) := h5
              omega
          · have : ¬ (st.count < 128) := fun h => hcond ⟨hres, h⟩
            omega
        rw [hmin]
        exact ⟨h1, h2, h3, h4, h5, h6, h7, h8⟩

/-- What `showResult(0)` keeps when the current index is within the
matches. -/
theorem showResult_zero (t : CodeEditorSearch)
    (h : t.resultTotal = 0 ∨
      (0 ≤ t.resultCurrent ∧ t.resultCurrent < t.resultTotal ∧ t.resultTotal ≤ t.result.length)) :
    ∃ s', showResult 0 t = some s' ∧ s'.result = t.result ∧
      s'.resultCurrent = t.resultCurrent ∧ s'.resultTotal = t.resultTotal := by
  rcases h with h0 | ⟨hc0, hc1, hl⟩
  · have hshow : showResult 0 t = some { t with
        highlightColors := false
        labelResult := toString (0 : Int) ++ "/" ++ toString t.resultTotal } := by
      simp only [showResult, h0, if_true]
    exact ⟨_, hshow, rfl, rfl, rfl⟩
  · have hne : t.resultTotal ≠ 0 := by omega
    have hmod : Int.tmod (t.resultCurrent + 0 + t.resultTotal) t.resultTotal
        = t.resultCurrent := by
      rw [Int.tmod_eq_emod (by omega) (by omega), Int.add_emod_self, add_zero]
      exact Int.emod_eq_of_lt hc0 hc1
    have hidx : t.resultCurrent.toNat < t.result.length := by omega
    have hshow : showResult 0 t = some { t with
        highlightColors := true
        labelResult := toString (t.resultCurrent + 1) ++ "/" ++ toString t.resultTotal
        resultCurrent := t.resultCurrent
        highlightedRegion := (t.result[t.resultCurrent.toNat],
          t.result[t.resultCurrent.toNat] + t.query.length) } := by
      simp only [showResult, hne, if_false, hmod]
      rw [if_neg (by omega), List.getElem?_eq_getElem hidx]
    exact ⟨_, hshow, rfl, rfl, rfl⟩

/-- C25: `search` fills the result table within bounds.  For a non-empty query
and the table of 128 entries, `search` returns normally (no entry outside the
table is written); `resultTotal` is the number of occurrences of the query in
the document, case ignored, or 128 if there are more; the first `resultTotal`
entries of `result` are the first occurrences in their order, where the
occurrences are all offsets at which the rest of the document starts with the
query, overlapping ones included, listed strictly increasing; and
`resultCurrent` is the index of the first recorded match at or after the saved
caret position, or 0 when there is none. -/
theorem C25_search_fills_result (up : Char → Char) (txt : Text) (s : CodeEditorSearch)
    (hq : s.query ≠ []) (hlen : s.result.length = 128) :
    ∃ s', search up txt s = some s' ∧
      s'.resultTotal = (min 128 (occurrences up txt s.query).length : Nat) ∧
      s'.resultTotal ≤ 128 ∧
      s'.result.length = 128 ∧
      s'.result.take (min 128 (occurrences up txt s.query).length)
        = ((occurrences up txt s.query).take 128).map Int.ofNat ∧
      (occurrences up txt s.query).Pairwise (· < ·) ∧
      (∀ i, i ∈ occurrences up txt s.query ↔
        i ≤ txt.length ∧ juce.startsWithIgnoreCase up (txt.drop i) s.query = true) ∧
      ((∃ (j a : Nat), j < min 128 (occurrences up txt s.query).length ∧
          (occurrences up txt s.query)[j]? = some a ∧ s.startCaretPosition ≤ a) →
        ∃ (rc a : Nat), s'.resultCurrent = rc ∧
          rc < min 128 (occurrences up txt s.query).length ∧
          (occurrences up txt s.query)[rc]? = some a ∧ s.startCaretPosition ≤ a ∧
          ∀ (j b : Nat), j < rc → (occurrences up txt s.query)[j]? = some b →
            (b : Int) < s.startCaretPosition) ∧
      ((∀ (j a : Nat), j < min 128 (occurrences up txt s.query).length →
          (occurrences up txt s.query)[j]? = some a → (a : Int) < s.startCaretPosition) →
        s'.resultCurrent = 0) := by
  have hinit : loopInvariant (occurrences up txt s.query) s.startCaretPosition 0
      { count := 0, res := juce.indexOfIgnoreCase up txt 0 s.query, result := s.result,
        resultCurrent := 0, firstFound := false } := by
    refine ⟨rfl, by omega, by omega, hlen, ?_, ?_, ?_, ?_⟩
    · have := indexOfIgnoreCase_eq up txt s.query hq 0
      rw [Nat.cast_zero] at this
      rw [this]
      cases occurrences up txt s.query with
      | nil => rfl
      | cons a l => simp
    · intro i hi
      omega
    · intro h
      exact absurd h (by simp)
    · intro _
      exact ⟨rfl, fun j a hj _ => by omega⟩
  obtain ⟨st', hloop, h1, h2, h3, h4, h5, h6, h7, h8⟩ :=
    searchLoop_spec up txt s.query hq s.startCaretPosition 128 0 _ hinit (by omega)
  have hfill : searchFill up txt s = some { s with
      result := st'.result, resultCurrent := st'.resultCurrent, resultTotal := st'.count } := by
    simp only [searchFill, hloop]
  have hrc : st'.count = 0 ∨ (0 ≤ st'.resultCurrent ∧ st'.resultCurrent < st'.count) := by
    cases hff : st'.firstFound
    · rw [(h8 hff).1]
      omega
    · obtain ⟨rc, r1, r2, -⟩ := h7 hff
      rw [r1]
      omega
  obtain ⟨s', hs', e1, e2, e3⟩ := showResult_zero { s with
      result := st'.result, resultCurrent := st'.resultCurrent, resultTotal := st'.count } (by
    rcases hrc with h | ⟨ha, hb⟩
    · exact Or.inl (by simp [h])
    · exact Or.inr ⟨ha, hb, by simp only [h4, h1]; omega⟩)
  refine ⟨s', ?_, ?_, ?_, ?_, ?_, occurrences_sorted up txt s.query,
    mem_occurrences up txt s.query, ?_, ?_⟩
  · simp only [search, hfill, hs']
  · rw [e3]
    simp only [h1]
  · rw [e3]
    simp only [h1]
    omega
  · rw [e1]
    exact h4
  · rw [e1]
    apply List.ext_getElem?
    intro n
    rw [List.getElem?_take, List.getElem?_map, List.getElem?_take]
    by_cases hn : n < min 128 (occurrences up txt s.query).length
    · rw [if_pos hn, if_pos (by omega)]
      exact h6 n hn
    · rw [if_neg hn]
      by_cases hn2 : n < 128
      · rw [if_pos hn2, List.getElem?_eq_none (by omega)]
        rfl
      · rw [if_neg hn2]
        rfl
  · rintro ⟨j, a, hj, hoj, hca⟩
    rw [e2]
    cases hff : st'.firstFound
    · exact absurd ((h8 hff).2 j a hj hoj) (by omega)
    · obtain ⟨rc, r1, r2, ⟨b, r3, r4⟩, r5⟩ := h7 hff
      exact ⟨rc, b, r1, r2, r3, r4, r5⟩
  · intro hall
    rw [e2]
    cases hff : st'.firstFound
    · exact (h8 hff).1
    · obtain ⟨rc, r1, r2, ⟨b, r3, r4⟩, r5⟩ := h7 hff
      exact absurd (hall rc b r2 r3) (by omega)

set_option maxRecDepth 100000 in
/-- Witness of C25: the query `ab` in the document `xabAbab ab` with the saved
caret at offset 3: four matches, the second of them current. -/
theorem C25_search_fills_result_witness :
    ∃ s', search Char.toUpper ['x', 'a', 'b', 'A', 'b', 'a', 'b', ' ', 'a', 'b']
        sampleEmptySearch = some s' ∧
      s'.resultTotal = 4 ∧ s'.result.take 4 = [1, 3, 5, 8] ∧ s'.resultCurrent = 1 := by
  obtain ⟨s', h1, h2, -, -, h5, -, -, h8, -⟩ := C25_search_fills_result Char.toUpper
    ['x', 'a', 'b', 'A', 'b', 'a', 'b', ' ', 'a', 'b'] sampleEmptySearch (by decide) (by decide)
  have hocc : occurrences Char.toUpper ['x', 'a', 'b', 'A', 'b', 'a', 'b', ' ', 'a', 'b']
      sampleEmptySearch.query = [1, 3, 5, 8] := by decide
  rw [hocc] at h2 h5 h8
  obtain ⟨rc, a, r1, r2, r3, r4, r5⟩ := h8 ⟨1, 3, by decide, rfl, by decide⟩
  have hrc : rc = 1 := by
    have hlt : rc < 4 := r2
    interval_cases rc
    · simp at r3
      subst r3
      exact absurd r4 (by decide)
    · rfl
    · exact absurd (r5 1 3 (by decide) rfl) (by decide)
    · exact absurd (r5 1 3 (by decide) rfl) (by decide)
  refine ⟨s', h1, h2, h5, ?_⟩
  rw [r1, hrc]
  rfl

end SearchFill

end Surge
